import Mathlib

/-! # goim comet: per-connection TCP core (`src/comet/tcp_server.go`)

A shallow embedding of the frame codec (`readTCPRequest`, `writeTCPResponse`),
the handshake (`authTCP`), the connection entry point (`serveTCP`) and the
write task (`dispatchTCP`), with theorems about them.

Conventions of the embedding

* A byte is a `Fin 256`.  Go's `int16` / `int32` values are `Int`s; every
  conversion and every arithmetic operation that can wrap is written with the
  explicit wrap functions `int16` / `int32`.
* A `[]byte` that may be `nil` is an `Option (List Byte)`: `none` is `nil`,
  `some []` is a present buffer of length zero.
* The buffered reader is the list of bytes the peer sends before the stream
  ends; the buffered writer and the collaborators (timer, operator, registry,
  socket) are explicit state, and every call to a collaborator is recorded
  in a trace.
-/

namespace Goim

/-! ## Constants (source lines 10-15) -/

abbrev Byte := Fin 256

/-- Source: `maxPackLen = 1 << 10`. -/
def maxPackLen : Int := 1024

/-- Source: `rawHeaderLen = int16(16)`. -/
def rawHeaderLen : Int := 16

/-- Source: `packLenSize = 4`. -/
def packLenSize : Nat := 4

/-- Source: `headerLenSize = 2`. -/
def headerLenSize : Nat := 2

/-- Modelled from the spec: the constant `VerSize` is declared outside
`tcp_server.go`; the spec gives "`version` (2 bytes)". -/
def VerSize : Nat := 2

/-- Modelled from the spec: the constant `OperationSize` is declared outside
`tcp_server.go`; the spec gives "`operation` (4 bytes)". -/
def OperationSize : Nat := 4

/-- Modelled from the spec: the constant `SeqIdSize` is declared outside
`tcp_server.go`; the spec gives "`sequenceId` (4 bytes)". -/
def SeqIdSize : Nat := 4

/-! ## Machine integers -/

/-- Conversion to Go's `int16`: the value modulo `2^16`, read as two's
complement. -/
def int16 (x : Int) : Int := (x + 32768) % 65536 - 32768

/-- Conversion to Go's `int32`: the value modulo `2^32`, read as two's
complement. -/
def int32 (x : Int) : Int := (x + 2147483648) % 4294967296 - 2147483648

/-- Go's `byte(x)`: the low eight bits. -/
def byteOf (x : Int) : Byte := Fin.ofNat (x % 256).toNat

/-- Range of Go's `int16`. -/
def isInt16 (x : Int) : Prop := -32768 ≤ x ∧ x < 32768

/-- Range of Go's `int32`. -/
def isInt32 (x : Int) : Prop := -2147483648 ≤ x ∧ x < 2147483648

instance (x : Int) : Decidable (isInt16 x) := by unfold isInt16; infer_instance

instance (x : Int) : Decidable (isInt32 x) := by unfold isInt32; infer_instance

/-! ## Big-endian helpers

`BigEndian` is declared outside `tcp_server.go`.  Its result types are fixed by
the source (`packLen int32`, `headerLen int16`, and Go has no implicit
conversions); the byte order is the spec's "all integers big-endian". -/

/-- The `i`-th byte of a slice as an integer (0 past the end; the source only
passes slices of the exact size). -/
def byteAt (b : List Byte) (i : Nat) : Int := ((b.getD i 0).val : Int)

/-- Modelled from the spec: `BigEndian.Int32`, four big-endian bytes as an
`int32`. -/
def BigEndian.Int32 (b : List Byte) : Int :=
  int32 (byteAt b 0 * 16777216 + byteAt b 1 * 65536 + byteAt b 2 * 256 + byteAt b 3)

/-- Modelled from the spec: `BigEndian.Int16`, two big-endian bytes as an
`int16`. -/
def BigEndian.Int16 (b : List Byte) : Int :=
  int16 (byteAt b 0 * 256 + byteAt b 1)

/-- Modelled from the spec: `BigEndian.PutInt32`, the four bytes
`byte(v>>24), byte(v>>16), byte(v>>8), byte(v)`. -/
def BigEndian.PutInt32 (v : Int) : List Byte :=
  [byteOf (v / 16777216), byteOf (v / 65536), byteOf (v / 256), byteOf v]

/-- Modelled from the spec: `BigEndian.PutInt16`, the two bytes
`byte(v>>8), byte(v)`. -/
def BigEndian.PutInt16 (v : Int) : List Byte :=
  [byteOf (v / 256), byteOf v]

/-! ## Data model -/

/-- The errors the core distinguishes.  `ioError` stands for any error of the
reader, the writer or the socket; `timerError` and `operatorError` for the
errors of the collaborators. -/
inductive Err where
  | ioError
  | ErrProtoPackLen
  | ErrProtoHeaderLen
  | ErrOperation
  | timerError
  | operatorError
  | ringFull
  | ringEmpty
  deriving DecidableEq, Repr

/-- The frame `Proto`: `Ver int16`, `Operation int32`, `SeqId int32`,
`Body []byte` (the field types are fixed by the assignments in
`readTCPRequest`). -/
structure Proto where
  Ver : Int
  Operation : Int
  SeqId : Int
  Body : Option (List Byte)
  deriving DecidableEq, Repr

/-- A `Proto` value as Go can hold it: every field in the range of its type. -/
def Proto.wf (p : Proto) : Prop :=
  isInt16 p.Ver ∧ isInt32 p.Operation ∧ isInt32 p.SeqId

instance (p : Proto) : Decidable p.wf := by unfold Proto.wf; infer_instance

/-- Go's `len(proto.Body)`: 0 for `nil`. -/
def Proto.bodyLen (p : Proto) : Nat := (p.Body.getD []).length

/-- The bytes of the body, none for `nil`. -/
def Proto.bodyBytes (p : Proto) : List Byte := p.Body.getD []

/-- A fresh `Proto` (`new(Proto)`): every field zero. -/
def emptyProto : Proto := ⟨0, 0, 0, none⟩

/-! ## The buffered reader -/

/-- Result of `ReadAll`: whether the buffer was filled, the bytes put into the
buffer, and the unread rest of the stream. -/
structure ReadAllOut where
  ok : Bool
  data : List Byte
  rest : List Byte
  deriving DecidableEq, Repr

/-- Modelled from the spec: `ReadAll(rr, buf)` is declared outside
`tcp_server.go`; it fills `buf` (here: `n` bytes) from the reader, and "any short
read is an I/O error".  On a short read the bytes that were there are
consumed. -/
def ReadAll (rr : List Byte) (n : Nat) : ReadAllOut :=
  if n ≤ rr.length then ⟨true, rr.take n, rr.drop n⟩ else ⟨false, rr, []⟩

/-- Outcome of `readTCPRequest`: the returned error, the unread rest of the
stream, the `Proto` slot as the call leaves it, and the sizes of the body
buffers it allocated with `make`. -/
structure ReadOut where
  err : Option Err
  rr : List Byte
  proto : Proto
  allocs : List Nat
  deriving DecidableEq, Repr

/-- Source lines 203-252.  The scratch buffer `pb` only carries the bytes of
one `ReadAll` to the next `BigEndian` call, so it is the `data` of that
`ReadAll`. -/
def readTCPRequest (rr : List Byte) (proto : Proto) : ReadOut :=
  let r1 := ReadAll rr packLenSize
  if r1.ok = false then ⟨some Err.ioError, r1.rest, proto, []⟩ else
  let packLen := BigEndian.Int32 r1.data
  if packLen > maxPackLen then ⟨some Err.ErrProtoPackLen, r1.rest, proto, []⟩ else
  let r2 := ReadAll r1.rest headerLenSize
  if r2.ok = false then ⟨some Err.ioError, r2.rest, proto, []⟩ else
  let headerLen := BigEndian.Int16 r2.data
  if headerLen ≠ rawHeaderLen then ⟨some Err.ErrProtoHeaderLen, r2.rest, proto, []⟩ else
  let r3 := ReadAll r2.rest VerSize
  if r3.ok = false then ⟨some Err.ioError, r3.rest, proto, []⟩ else
  let proto := { proto with Ver := BigEndian.Int16 r3.data }
  let r4 := ReadAll r3.rest OperationSize
  if r4.ok = false then ⟨some Err.ioError, r4.rest, proto, []⟩ else
  let proto := { proto with Operation := BigEndian.Int32 r4.data }
  let r5 := ReadAll r4.rest SeqIdSize
  if r5.ok = false then ⟨some Err.ioError, r5.rest, proto, []⟩ else
  let proto := { proto with SeqId := BigEndian.Int32 r5.data }
  let bodyLen := int32 (packLen - int32 headerLen)
  if bodyLen > 0 then
    let r6 := ReadAll r5.rest bodyLen.toNat
    let buf := r6.data ++ List.replicate (bodyLen.toNat - r6.data.length) (0 : Byte)
    if r6.ok = false then
      ⟨some Err.ioError, r6.rest, { proto with Body := some buf }, [bodyLen.toNat]⟩
    else
      ⟨none, r6.rest, { proto with Body := some buf }, [bodyLen.toNat]⟩
  else
    ⟨none, r5.rest, { proto with Body := none }, []⟩

/-! ## The buffered writer -/

/-- The buffered writer over the socket.  `buf` holds the bytes written and
not yet flushed, `out` the bytes flushed to the peer, `flushes` counts the
successful `Flush` calls.  `failAfter = some n` says that `n` more calls
succeed and every later one fails (an error of a buffered writer is sticky);
`none` is a writer that accepts every write. -/
structure Writer where
  buf : List Byte
  out : List Byte
  flushes : Nat
  failAfter : Option Nat
  deriving DecidableEq, Repr

/-- A fresh writer that accepts every write. -/
def Writer.fresh : Writer := ⟨[], [], 0, none⟩

/-- Go's `wr.Write(p)`: the error and the writer afterwards. -/
def Writer.Write (w : Writer) (p : List Byte) : Option Err × Writer :=
  match w.failAfter with
  | some 0 => (some Err.ioError, w)
  | some (n + 1) => (none, { w with buf := w.buf ++ p, failAfter := some n })
  | none => (none, { w with buf := w.buf ++ p })

/-- Go's `wr.Flush()`: the error and the writer afterwards. -/
def Writer.Flush (w : Writer) : Option Err × Writer :=
  match w.failAfter with
  | some 0 => (some Err.ioError, w)
  | some (n + 1) =>
      (none, { w with out := w.out ++ w.buf, buf := [], flushes := w.flushes + 1,
                      failAfter := some n })
  | none => (none, { w with out := w.out ++ w.buf, buf := [], flushes := w.flushes + 1 })

/-- Source lines 255-289.  `len(proto.Body)` is converted to `int32` and added
to `int32(rawHeaderLen)` in `int32`. -/
def writeTCPResponse (wr : Writer) (proto : Proto) : Option Err × Writer :=
  let r1 := wr.Write (BigEndian.PutInt32 (int32 (int32 rawHeaderLen + int32 (proto.bodyLen : Int))))
  if r1.1 ≠ none then r1 else
  let r2 := r1.2.Write (BigEndian.PutInt16 rawHeaderLen)
  if r2.1 ≠ none then r2 else
  let r3 := r2.2.Write (BigEndian.PutInt16 proto.Ver)
  if r3.1 ≠ none then r3 else
  let r4 := r3.2.Write (BigEndian.PutInt32 proto.Operation)
  if r4.1 ≠ none then r4 else
  let r5 := r4.2.Write (BigEndian.PutInt32 proto.SeqId)
  if r5.1 ≠ none then r5 else
  match proto.Body with
  | some body =>
    let r6 := r5.2.Write body
    if r6.1 ≠ none then r6 else r6.2.Flush
  | none => r5.2.Flush

/-- The frame bytes the claims call `encode`: big-endian total length, header
length 16, version, operation, sequence id, then the body bytes. -/
def frameBytes (p : Proto) : List Byte :=
  BigEndian.PutInt32 (16 + (p.bodyLen : Int)) ++ BigEndian.PutInt16 16 ++
    BigEndian.PutInt16 p.Ver ++ BigEndian.PutInt32 p.Operation ++
    BigEndian.PutInt32 p.SeqId ++ p.bodyBytes


/-! ## Collaborators: operator, timer, registry, socket, channel

The operator, the timer, the bucket registry and the channel are declared
outside `tcp_server.go`; the source only calls them.  They are modelled as
explicit state with scripted outcomes, and every call is recorded in a trace,
so that the claims about which calls happen, and in which order, are claims
about the trace. -/

/-- Operation codes and configuration the source reads from elsewhere
(`OP_AUTH`, `OP_AUTH_REPLY`, `OP_HEARTBEAT`, `OP_HEARTBEAT_REPLY`,
`Conf.HandshakeTimeout`); their values are not in `tcp_server.go`, so they are
parameters. -/
structure Config where
  OP_AUTH : Int
  OP_AUTH_REPLY : Int
  OP_HEARTBEAT : Int
  OP_HEARTBEAT_REPLY : Int
  HandshakeTimeout : Nat
  deriving DecidableEq, Repr

/-- Source line 85 and 116: the finish signal is the value 0. -/
def ProtoFinsh : Nat := 0

/-- Modelled from the spec: the constant `ProtoReady` is declared outside
`tcp_server.go`; the wake signal has "two states: `proto-ready` and
`finished`", so it is a value other than 0. -/
def ProtoReady : Nat := 1

/-- One call to a collaborator or to the socket. -/
inductive Event where
  /-- Call `tr.Add(d, conn)` and the handle it returned (`none`: it failed). -/
  | timerAdd (d : Nat) (res : Option Nat)
  /-- Call `tr.Del(trd)`. -/
  | timerDel (trd : Option Nat)
  /-- Call `trd.Lazy(d)` and its answer. -/
  | timerLazy (trd : Option Nat) (d : Nat) (ans : Bool)
  /-- Call `operator.Connect(p)` and whether it succeeded. -/
  | connect (p : Proto) (ok : Bool)
  /-- Call `operator.Operate(p)` and whether it succeeded. -/
  | operate (p : Proto) (ok : Bool)
  /-- Call `operator.Disconnect(key)` and whether it succeeded. -/
  | disconnect (key : String) (ok : Bool)
  /-- Call `b.Put(key, ch)`. -/
  | bucketPut (key : String)
  /-- Call `b.Del(key)`. -/
  | bucketDel (key : String)
  /-- Call `conn.Close()` and whether it succeeded. -/
  | connClose (ok : Bool)
  /-- Statement `go server.dispatchTCP(..., hb, tr)`. -/
  | goDispatch (hb : Nat)
  /-- Call `ch.CliProto.Set()` and whether it gave a slot. -/
  | cliSet (ok : Bool)
  /-- Call `ch.CliProto.SetAdv()`, committing the frame. -/
  | cliSetAdv (p : Proto)
  /-- Call `ch.CliProto.GetAdv()`. -/
  | cliGetAdv
  /-- Call `ch.SvrProto.GetAdv()`. -/
  | svrGetAdv
  /-- A non-blocking send on `ch.Signal` and whether the slot took it. -/
  | signalSend (sig : Nat) (sent : Bool)
  /-- A receive from `ch.Signal`. -/
  | signalRecv (sig : Nat)
  /-- Call `writeTCPResponse(wr, pb, p)` and whether it succeeded. -/
  | write (p : Proto) (ok : Bool)
  deriving DecidableEq, Repr

/-- The operator, over its own state `σ`.  `Connect` returns the state, the
frame as it leaves it, the key, the heartbeat and the error; `Operate` the
state, the frame as it leaves it and the error. -/
structure Operator (σ : Type) where
  Connect : σ → Proto → σ × Proto × String × Nat × Option Err
  Operate : σ → Proto → σ × Proto × Option Err
  Disconnect : σ → String → σ × Option Err

/-- The timer.  `next` is the handle the next successful `Add` returns,
`active` the handles added and not deleted; `addFaults` scripts which of the
coming `Add` calls fail and `lazyAnswers` what the coming `Lazy` calls answer
(no failure and `false` once a script is used up). -/
structure Timer where
  next : Nat
  active : List Nat
  addFaults : List Bool
  lazyAnswers : List Bool
  deriving DecidableEq, Repr

/-- Everything one connection touches.  `rr` and `wr` are the buffered reader
and writer; `op` the operator state; `closes` counts the `conn.Close()` calls;
`registry` the keys in the bucket; `slots` scripts the coming
`CliProto.Set()` calls (`none`: the ring is full, `some q`: a slot that still
holds `q`); `sends` scripts whether the coming non-blocking sends find the
signal slot free; `trace` records the calls. -/
structure World (σ : Type) where
  rr : List Byte
  wr : Writer
  op : σ
  tm : Timer
  closes : Nat
  registry : List String
  slots : List (Option Proto)
  sends : List Bool
  trace : List Event

/-- Record a call. -/
def World.log {σ : Type} (w : World σ) (e : Event) : World σ :=
  { w with trace := w.trace ++ [e] }

/-- Call `tr.Add(d, conn)`: the handle (`nil` on failure), the error, the world. -/
def World.timerAdd {σ : Type} (w : World σ) (d : Nat) : Option Nat × Option Err × World σ :=
  match w.tm.addFaults with
  | true :: fs =>
      (none, some Err.timerError,
        { w with tm := { w.tm with addFaults := fs },
                 trace := w.trace ++ [Event.timerAdd d none] })
  | _ =>
      (some w.tm.next, none,
        { w with tm := { w.tm with next := w.tm.next + 1, active := w.tm.next :: w.tm.active,
                                   addFaults := w.tm.addFaults.tail },
                 trace := w.trace ++ [Event.timerAdd d (some w.tm.next)] })

/-- Call `tr.Del(trd)`. -/
def World.timerDel {σ : Type} (w : World σ) (trd : Option Nat) : World σ :=
  { w with tm := { w.tm with active := match trd with
                                       | some h => w.tm.active.erase h
                                       | none => w.tm.active },
           trace := w.trace ++ [Event.timerDel trd] }

/-- Call `trd.Lazy(d)`: the answer and the world. -/
def World.timerLazy {σ : Type} (w : World σ) (trd : Option Nat) (d : Nat) : Bool × World σ :=
  (w.tm.lazyAnswers.headD false,
    { w with tm := { w.tm with lazyAnswers := w.tm.lazyAnswers.tail },
             trace := w.trace ++ [Event.timerLazy trd d (w.tm.lazyAnswers.headD false)] })

/-- Call `conn.Close()`: closing a closed socket is an error.  A closed socket
fails every later write.  The writer is put in its failed state, in which the
first `Write` of the next frame returns the error; Go's buffered writer would
first take the frame into its buffer and return the error from `Flush`.  The
error `writeTCPResponse` returns is the same either way, only the bytes left
unflushed in the buffer differ. -/
def World.connClose {σ : Type} (w : World σ) : Option Err × World σ :=
  (if w.closes = 0 then none else some Err.ioError,
    { w with closes := w.closes + 1, wr := { w.wr with failAfter := some 0 },
             trace := w.trace ++ [Event.connClose (w.closes = 0)] })

/-- The non-blocking `select { case ch.Signal <- sig: default: }`. -/
def World.signalSend {σ : Type} (w : World σ) (sig : Nat) : World σ :=
  { w with sends := w.sends.tail,
           trace := w.trace ++ [Event.signalSend sig (w.sends.headD true)] }

/-- Run `writeTCPResponse` on the world's writer, recorded in the trace. -/
def World.write {σ : Type} (w : World σ) (p : Proto) : Option Err × World σ :=
  ((writeTCPResponse w.wr p).1,
    { w with wr := (writeTCPResponse w.wr p).2,
             trace := w.trace ++ [Event.write p ((writeTCPResponse w.wr p).1 = none)] })

/-! ## The handshake -/

/-- Outcome of `authTCP`: the named results `subKey`, `heartbeat`, `err`, the
world, and the frame `p` as the call leaves it. -/
structure AuthOut (σ : Type) where
  subKey : String
  heartbeat : Nat
  err : Option Err
  w : World σ
  p : Proto

/-- Source lines 179-200. -/
def authTCP {σ : Type} (cfg : Config) (op : Operator σ) (w : World σ) (p : Proto) : AuthOut σ :=
  let r := readTCPRequest w.rr p
  let w := { w with rr := r.rr }
  let p := r.proto
  if r.err ≠ none then ⟨"", 0, r.err, w, p⟩ else
  if p.Operation ≠ cfg.OP_AUTH then ⟨"", 0, some Err.ErrOperation, w, p⟩ else
  let c := op.Connect w.op p
  let w := { w with op := c.1, trace := w.trace ++ [Event.connect p (c.2.2.2.2 = none)] }
  if c.2.2.2.2 ≠ none then ⟨c.2.2.1, c.2.2.2.1, c.2.2.2.2, w, c.2.1⟩ else
  let p := { c.2.1 with Body := none, Operation := cfg.OP_AUTH_REPLY }
  let wres := w.write p
  ⟨c.2.2.1, c.2.2.2.1, wres.1, wres.2, p⟩

/-- Source lines 29-38 of `serveTCP`: the handshake under its timer.  When
`tr.Add` fails `authTCP` is not called; otherwise the handle is deleted
whatever `authTCP` returned. -/
def serveTCP.handshake {σ : Type} (cfg : Config) (op : Operator σ) (w : World σ) : AuthOut σ :=
  let a := w.timerAdd cfg.HandshakeTimeout
  if a.2.1 ≠ none then ⟨"", 0, a.2.1, a.2.2, emptyProto⟩ else
  let r := authTCP cfg op a.2.2 emptyProto
  { r with w := r.w.timerDel a.1 }

/-- Source lines 53-72 of `serveTCP`: the read loop.  `fuel` bounds the
number of iterations; every iteration that does not leave the loop consumes
at least sixteen bytes, so `rr.length + 1` is enough. -/
def serveTCP.readLoop {σ : Type} (fuel : Nat) (w : World σ) : World σ :=
  match fuel with
  | 0 => w
  | fuel + 1 =>
    match w.slots.headD (some emptyProto) with
    | none => { w with slots := w.slots.tail, trace := w.trace ++ [Event.cliSet false] }
    | some slot =>
      let w := { w with slots := w.slots.tail, trace := w.trace ++ [Event.cliSet true] }
      let r := readTCPRequest w.rr slot
      let w := { w with rr := r.rr }
      if r.err ≠ none then w else
      let w := { w with trace := w.trace ++ [Event.cliSetAdv r.proto] }
      serveTCP.readLoop fuel (w.signalSend ProtoReady)

/-- Source lines 80-97 of `serveTCP`: the teardown of the read side. -/
def serveTCP.teardown {σ : Type} (op : Operator σ) (key : String) (w : World σ) : World σ :=
  let w := w.connClose.2
  let w := w.signalSend ProtoFinsh
  let w := { w with registry := w.registry.erase key, trace := w.trace ++ [Event.bucketDel key] }
  let d := op.Disconnect w.op key
  { w with op := d.1, trace := w.trace ++ [Event.disconnect key (d.2 = none)] }

/-- Source lines 17-98.  The dispatch goroutine started at line 52 runs
concurrently; here its start is a trace event and its effect on what the read
loop sees is the script in `slots` and `sends`. -/
def serveTCP {σ : Type} (cfg : Config) (op : Operator σ) (w : World σ) : World σ :=
  let h := serveTCP.handshake cfg op w
  if h.err ≠ none then h.w.connClose.2 else
  let w := { h.w with registry := h.subKey :: h.w.registry,
                      trace := h.w.trace ++ [Event.bucketPut h.subKey] }
  let w := w.log (Event.goDispatch h.heartbeat)
  let w := serveTCP.readLoop (w.rr.length + 1) w
  serveTCP.teardown op h.subKey w

/-! ## The write task -/

/-- State of `dispatchTCP` after a step: the error that sends it to `failed`
(if any), the world, the timer handle `trd` in use, and the frame `p` as the
step leaves it. -/
structure FrameOut (σ : Type) where
  err : Option Err
  w : World σ
  trd : Option Nat
  p : Proto

/-- Source lines 125-151 of `dispatchTCP`: one frame `p` taken from the client
queue.  A heartbeat renews the timer unless `Lazy` says otherwise and becomes
the reply; any other frame goes to `Operate`; then the frame is written and
the queue advanced.  An error leaves for `failed` at once. -/
def dispatchTCP.cliFrame {σ : Type} (cfg : Config) (op : Operator σ) (hb : Nat)
    (w : World σ) (trd : Option Nat) (p : Proto) : FrameOut σ :=
  let b : FrameOut σ :=
    if p.Operation = cfg.OP_HEARTBEAT then
      let l := w.timerLazy trd hb
      if l.1 = false then
        let a := (l.2.timerDel trd).timerAdd hb
        if a.2.1 ≠ none then ⟨a.2.1, a.2.2, a.1, p⟩
        else ⟨none, a.2.2, a.1, { p with Body := none, Operation := cfg.OP_HEARTBEAT_REPLY }⟩
      else ⟨none, l.2, trd, { p with Body := none, Operation := cfg.OP_HEARTBEAT_REPLY }⟩
    else
      let o := op.Operate w.op p
      ⟨o.2.2, { w with op := o.1, trace := w.trace ++ [Event.operate p (o.2.2 = none)] }, trd,
        o.2.1⟩
  if b.err ≠ none then b else
  let r := b.w.write b.p
  if r.1 ≠ none then ⟨r.1, r.2, b.trd, b.p⟩ else
  ⟨none, r.2.log Event.cliGetAdv, b.trd, b.p⟩

/-- State of `dispatchTCP` after draining a queue: the error that sends it to
`failed` (if any), the world, the handle in use, the frames left in the
queue. -/
structure DrainOut (σ : Type) where
  err : Option Err
  w : World σ
  trd : Option Nat
  left : List Proto

/-- Source lines 120-152: drain the client queue `q`; `Get()` fails when the
queue is empty and ends the loop. -/
def dispatchTCP.cliLoop {σ : Type} (cfg : Config) (op : Operator σ) (hb : Nat) :
    List Proto → World σ → Option Nat → DrainOut σ
  | [], w, trd => ⟨none, w, trd, []⟩
  | p :: q, w, trd =>
    let r := dispatchTCP.cliFrame cfg op hb w trd p
    if r.err ≠ none then ⟨r.err, r.w, r.trd, r.p :: q⟩
    else dispatchTCP.cliLoop cfg op hb q r.w r.trd

/-- Source lines 154-165: drain the server queue `q`, forwarding each frame. -/
def dispatchTCP.svrLoop {σ : Type} : List Proto → World σ → Option Nat → DrainOut σ
  | [], w, trd => ⟨none, w, trd, []⟩
  | p :: q, w, trd =>
    let r := w.write p
    if r.1 ≠ none then ⟨r.1, r.2, trd, p :: q⟩
    else dispatchTCP.svrLoop q (r.2.log Event.svrGetAdv) trd

/-- One wake of the write task: the value received from `ch.Signal` and the
frames the two queues hold while this wake drains them. -/
structure Wake where
  sig : Nat
  cli : List Proto
  svr : List Proto
  deriving DecidableEq, Repr

/-- How `dispatchTCP` ends: `exited` when it went through `failed` and
returned, not `exited` when it waits in `<-ch.Signal` and no signal comes any
more; the world, the handle in use, and the frames left in the queues. -/
structure DispatchOut (σ : Type) where
  exited : Bool
  w : World σ
  trd : Option Nat
  cli : List Proto
  svr : List Proto

/-- Source lines 167-175: the label `failed`. -/
def dispatchTCP.failed {σ : Type} (w : World σ) (trd : Option Nat) (cli svr : List Proto) :
    DispatchOut σ :=
  ⟨true, (w.connClose.2).timerDel trd, trd, cli, svr⟩

/-- Source lines 115-166: the loop over the signals. -/
def dispatchTCP.loop {σ : Type} (cfg : Config) (op : Operator σ) (hb : Nat) :
    List Wake → World σ → Option Nat → DispatchOut σ
  | [], w, trd => ⟨false, w, trd, [], []⟩
  | k :: ks, w, trd =>
    let w := w.log (Event.signalRecv k.sig)
    if k.sig = 0 then dispatchTCP.failed w trd k.cli k.svr else
    let c := dispatchTCP.cliLoop cfg op hb k.cli w trd
    if c.err ≠ none then dispatchTCP.failed c.w c.trd c.left k.svr else
    let v := dispatchTCP.svrLoop k.svr c.w c.trd
    if v.err ≠ none then dispatchTCP.failed v.w v.trd [] v.left else
    dispatchTCP.loop cfg op hb ks v.w v.trd

/-- Source lines 103-176.  `wakes` is what the task will receive from
`ch.Signal`, in order, with the queue contents of each wake. -/
def dispatchTCP {σ : Type} (cfg : Config) (op : Operator σ) (hb : Nat) (wakes : List Wake)
    (w : World σ) : DispatchOut σ :=
  let a := w.timerAdd hb
  if a.2.1 ≠ none then dispatchTCP.failed a.2.2 a.1 [] [] else
  dispatchTCP.loop cfg op hb wakes a.2.2 a.1

/-! ## Reading a trace -/

/-- The calls made since the trace was `old`. -/
def callsSince (old new : List Event) : List Event := new.drop old.length

/-- Is the call a `tr.Add` or a `tr.Del`? -/
def Event.isTimerCall : Event → Bool
  | Event.timerAdd _ _ => true
  | Event.timerDel _ => true
  | _ => false

/-- Is the call an `operator.Connect`? -/
def Event.isConnect : Event → Bool
  | Event.connect _ _ => true
  | _ => false

/-- Is the call an `operator.Operate`? -/
def Event.isOperate : Event → Bool
  | Event.operate _ _ => true
  | _ => false

/-- Is the call an `operator.Disconnect`? -/
def Event.isDisconnect : Event → Bool
  | Event.disconnect _ _ => true
  | _ => false

/-- Is the call a `b.Put`? -/
def Event.isBucketPut : Event → Bool
  | Event.bucketPut _ => true
  | _ => false

/-- Is the call the start of the dispatch goroutine? -/
def Event.isGoDispatch : Event → Bool
  | Event.goDispatch _ => true
  | _ => false

/-- Is the call a `conn.Close()`? -/
def Event.isConnClose : Event → Bool
  | Event.connClose _ => true
  | _ => false

/-- Is the call one the handshake makes: a timer call, `Connect`, or a write? -/
def Event.isHandshakeCall : Event → Bool
  | Event.timerAdd _ _ => true
  | Event.timerDel _ => true
  | Event.connect _ _ => true
  | Event.write _ _ => true
  | _ => false

/-- The frames handed to `writeTCPResponse`, in order. -/
def framesWritten : List Event → List Proto
  | [] => []
  | Event.write p _ :: es => p :: framesWritten es
  | _ :: es => framesWritten es

/-- The handshake reply to the request `q`: the request's version and sequence
id, operation `OP_AUTH_REPLY`, no body. -/
def authReply (cfg : Config) (q : Proto) : Proto := ⟨q.Ver, cfg.OP_AUTH_REPLY, q.SeqId, none⟩

/-- The heartbeat reply to the frame `q`: its version and sequence id,
operation `OP_HEARTBEAT_REPLY`, no body. -/
def heartbeatReply (cfg : Config) (q : Proto) : Proto :=
  ⟨q.Ver, cfg.OP_HEARTBEAT_REPLY, q.SeqId, none⟩

/-- The world of `dispatchTCP` after a heartbeat whose `Lazy` answered `false`
has deleted the handle `trd` (source lines 129-130), before the new `Add`. -/
def afterDel {σ : Type} (w : World σ) (trd : Option Nat) (hb : Nat) : World σ :=
  (w.timerLazy trd hb).2.timerDel trd

/-! ## A concrete configuration, operator and world for the witnesses -/

/-- Operation codes 7, 8, 2, 3 and a handshake timeout of 10. -/
def cfg0 : Config := ⟨7, 8, 2, 3, 10⟩

/-- An operator whose state counts its calls: `Connect` answers key `"k"` and
heartbeat 5, `Operate` answers the frame with body `[1]`, and both fail on a
frame of version 99. -/
def op0 : Operator Nat where
  Connect := fun n p => (n + 1, p, "k", 5, if p.Ver = 99 then some Err.operatorError else none)
  Operate := fun n p =>
    (n + 1, { p with Body := some [1] }, if p.Ver = 99 then some Err.operatorError else none)
  Disconnect := fun n _ => (n + 1, none)

/-- A fresh connection on which the client sends `rr`: accepting writer, no
timer handle, nothing registered, no call made yet. -/
def world0 (rr : List Byte) : World Nat :=
  { rr := rr, wr := Writer.fresh, op := 0, tm := ⟨0, [], [], []⟩, closes := 0,
    registry := [], slots := [], sends := [], trace := [] }

/-- A frame without body: total length 16, version 1, operation `op`, sequence
id 3. -/
def headerOnly (op : Byte) : List Byte := [0, 0, 0, 16, 0, 16, 0, 1, 0, 0, 0, op, 0, 0, 0, 3]

/-- A heartbeat frame: version 1, operation 2, sequence id 3, a body the reply
must drop. -/
def heartbeat0 : Proto := ⟨1, 2, 3, some [9]⟩

/-- A connection whose timer holds the handle 0 and whose next `Lazy` answers
`true`. -/
def worldLazy : World Nat :=
  { world0 [] with tm := ⟨1, [0], [], [true]⟩ }

/-! ## The fields of the wire header, as the claims name them -/

/-- The total-packet-length field (bytes 0-3) as an unsigned number. -/
def packLenUnsigned (rr : List Byte) : Int :=
  byteAt rr 0 * 16777216 + byteAt rr 1 * 65536 + byteAt rr 2 * 256 + byteAt rr 3

/-- The total-packet-length field (bytes 0-3) as the source reads it: a
signed `int32`. -/
def packLenField (rr : List Byte) : Int := BigEndian.Int32 (rr.take 4)

/-- The header-length field (bytes 4-5) as an unsigned number. -/
def headerLenUnsigned (rr : List Byte) : Int := byteAt rr 4 * 256 + byteAt rr 5

/-- The body a decode gives back for a written body: a present buffer of
length zero puts no byte on the wire and so comes back as `nil`. -/
def wireBody (b : Option (List Byte)) : Option (List Byte) :=
  match b with
  | some (x :: xs) => some (x :: xs)
  | _ => none

/-- The slot after the three header fields of `rr` were stored in it. -/
def headerInto (rr : List Byte) (p0 : Proto) : Proto :=
  { Ver := BigEndian.Int16 ((rr.drop 6).take 2),
    Operation := BigEndian.Int32 ((rr.drop 8).take 4),
    SeqId := BigEndian.Int32 ((rr.drop 12).take 4),
    Body := p0.Body }

/-! ## Concrete streams used by the claims -/

/-- Total length field `80 00 00 00`, header length 16, version 1, operation 2,
sequence id 3, and then the end of the stream. -/
def oversizeStream : List Byte := [0x80, 0, 0, 0, 0, 16, 0, 1, 0, 0, 0, 2, 0, 0, 0, 3]

/-- Total length field `ff ff ff ff`, header length 16, version 1, operation 2,
sequence id 3, followed by one more byte. -/
def allOnesStream : List Byte :=
  [0xff, 0xff, 0xff, 0xff, 0, 16, 0, 1, 0, 0, 0, 2, 0, 0, 0, 3, 9]

/-- Total length field 2048 and header length field 0. -/
def bigAndBadHeaderStream : List Byte := [0, 0, 8, 0, 0, 0]

/-- Total length field 0, header length 16, version 1, operation 2, sequence
id 3: a header that declares a total shorter than itself. -/
def zeroTotalStream : List Byte := [0, 0, 0, 0, 0, 16, 0, 1, 0, 0, 0, 2, 0, 0, 0, 3]

/-! ## Decoding a stream of frames -/

/-- The frame a decode gives back for a written frame `p`: the same header
fields, and the body as it travels (`wireBody`). -/
def wireFrame (p : Proto) : Proto := ⟨p.Ver, p.Operation, p.SeqId, wireBody p.Body⟩

/-- The bytes of the frames `fs` one after the other. -/
def encodeAll : List Proto → List Byte
  | [] => []
  | f :: fs => frameBytes f ++ encodeAll fs

/-- Call `readTCPRequest` `n` times on the stream, each time into the slot as
the previous call left it, stopping at the first error: the frames decoded
and the unread rest. -/
def decodeN : Nat → List Byte → Proto → List Proto × List Byte
  | 0, rr, _ => ([], rr)
  | n + 1, rr, slot =>
    if (readTCPRequest rr slot).err ≠ none then ([], (readTCPRequest rr slot).rr)
    else
      ((readTCPRequest rr slot).proto ::
          (decodeN n (readTCPRequest rr slot).rr (readTCPRequest rr slot).proto).1,
        (decodeN n (readTCPRequest rr slot).rr (readTCPRequest rr slot).proto).2)

/-- A slot that still holds a frame with a body. -/
def usedProto : Proto := ⟨5, 6, 7, some [1, 2, 3]⟩

/-! ## Reading the trace of the read task -/

/-- Is the call a `b.Del`? -/
def Event.isBucketDel : Event → Bool
  | Event.bucketDel _ => true
  | _ => false

/-- Is the call a non-blocking send of `ProtoFinsh`? -/
def Event.isFinishSend : Event → Bool
  | Event.signalSend sig _ => sig == ProtoFinsh
  | _ => false

/-- Is the call one the read loop makes: `CliProto.Set()`, `CliProto.SetAdv()`
or a non-blocking send of `ProtoReady`? -/
def Event.isReadLoopCall : Event → Bool
  | Event.cliSet _ => true
  | Event.cliSetAdv _ => true
  | Event.signalSend sig _ => sig == ProtoReady
  | _ => false

/-- The shape of the calls of one run of the read loop: any number of rounds
`Set()` succeeded, `SetAdv()`, send of `ProtoReady`, and then one last
`Set()`, which either failed or was followed by a failed decode. -/
def isLoopTrace : List Event → Bool
  | Event.cliSet true :: Event.cliSetAdv _ :: Event.signalSend sig _ :: rest =>
      sig == ProtoReady && isLoopTrace rest
  | [Event.cliSet _] => true
  | _ => false

/-- Is the call one of the four of the read-side teardown: `conn.Close()`, the
send of `ProtoFinsh`, `b.Del`, `operator.Disconnect`? -/
def Event.isTeardownCall : Event → Bool
  | Event.connClose _ => true
  | Event.signalSend sig _ => sig == ProtoFinsh
  | Event.bucketDel _ => true
  | Event.disconnect _ _ => true
  | _ => false

/-- The world in which the read loop of `serveTCP` starts after the handshake
left `h`: the key is registered and the dispatch goroutine started (source
lines 48-52). -/
def serveTCP.registered {σ : Type} (h : AuthOut σ) : World σ :=
  { h.w with registry := h.subKey :: h.w.registry,
             trace := h.w.trace ++ [Event.bucketPut h.subKey] ++
               [Event.goDispatch h.heartbeat] }

/-- An operator like `op0` whose `Disconnect` fails. -/
def op1 : Operator Nat where
  Connect := op0.Connect
  Operate := op0.Operate
  Disconnect := fun n _ => (n + 1, some Err.operatorError)

/-- A connection on which the client sends `rr` and whose socket has been
closed once already. -/
def worldClosed (rr : List Byte) : World Nat :=
  { world0 rr with closes := 1, wr := { Writer.fresh with failAfter := some 0 } }

/-- A connection on which the client sends `rr` and on which `conn.Close()` has
been called once already, so that the next `Close` returns an error. -/
def worldCloseFails (rr : List Byte) : World Nat :=
  { world0 rr with closes := 1 }

/-- A connection on which the client sends `rr` and then stops reading; the
socket itself is still open.  The buffered writer still takes the five header
fields of the next frame, and the `Flush` that follows them fails. -/
def worldBrokenWriter (rr : List Byte) : World Nat :=
  { world0 rr with wr := { Writer.fresh with failAfter := some 5 } }

/-! ## What the write task is to send, and the timer handles of a trace -/

/-- The frame the write task is to send for the client frame `c` when the
operator is in state `s`: the heartbeat reply for a heartbeat, else the frame
as `Operate` leaves it. -/
def replyFrame {σ : Type} (cfg : Config) (op : Operator σ) (s : σ) (c : Proto) : Proto :=
  if c.Operation = cfg.OP_HEARTBEAT then heartbeatReply cfg c else (op.Operate s c).2.1

/-- The operator state after the client frame `c`: unchanged by a heartbeat,
else as `Operate` leaves it. -/
def opStep {σ : Type} (cfg : Config) (op : Operator σ) (s : σ) (c : Proto) : σ :=
  if c.Operation = cfg.OP_HEARTBEAT then s else (op.Operate s c).1

/-- The frames the write task is to send for the client frames `cs`, in
order, the operator state threaded from one frame to the next. -/
def replyFrames {σ : Type} (cfg : Config) (op : Operator σ) : σ → List Proto → List Proto
  | _, [] => []
  | s, c :: cs => replyFrame cfg op s c :: replyFrames cfg op (opStep cfg op s c) cs

/-- The operator state after the client frames `cs`. -/
def opAfter {σ : Type} (cfg : Config) (op : Operator σ) : σ → List Proto → σ
  | s, [] => s
  | s, c :: cs => opAfter cfg op (opStep cfg op s c) cs

/-- The client frames that go to `Operate`: those that are not heartbeats. -/
def operated (cfg : Config) (cs : List Proto) : List Proto :=
  cs.filter (fun c => decide (c.Operation ≠ cfg.OP_HEARTBEAT))

/-- The frames passed to `Operate`, in order. -/
def framesOperated : List Event → List Proto
  | [] => []
  | Event.operate p _ :: es => p :: framesOperated es
  | _ :: es => framesOperated es

/-- The handles added and not deleted after one more call, `acc` being those
before it. -/
def stepTimer (acc : List Nat) : Event → List Nat
  | Event.timerAdd _ (some h) => h :: acc
  | Event.timerDel (some h) => acc.erase h
  | _ => acc

/-- The handles added and not deleted after the calls `es`, starting from
`acc`. -/
def outstanding : List Nat → List Event → List Nat
  | acc, [] => acc
  | acc, e :: es => outstanding (stepTimer acc e) es

/-- Does the number of handles added and not deleted stay at most one, before
and after every call of `es`, starting from `acc`? -/
def atMostOneTimer : List Nat → List Event → Bool
  | acc, [] => decide (acc.length ≤ 1)
  | acc, e :: es => decide (acc.length ≤ 1) && atMostOneTimer (stepTimer acc e) es

/-- Is the call one the write task makes before its teardown: a timer call, a
`Lazy` query, `Operate`, a write, an advance of a queue, or a receive from
`ch.Signal`? -/
def Event.isDispatchCall : Event → Bool
  | Event.timerAdd _ _ => true
  | Event.timerDel _ => true
  | Event.timerLazy _ _ _ => true
  | Event.operate _ _ => true
  | Event.write _ _ => true
  | Event.cliGetAdv => true
  | Event.svrGetAdv => true
  | Event.signalRecv _ => true
  | _ => false

/-- A client frame the operator `op0` rejects (version 99, operation 4). -/
def badFrame : Proto := ⟨99, 4, 1, none⟩

/-- A client frame the operator `op0` accepts (version 1, operation 4). -/
def goodFrame : Proto := ⟨1, 4, 2, some [7]⟩

/-- The state of the write task after the two drains of the wake `k` (source
lines 119-165), started in the world `w` with the handle `trd`. -/
def dispatchTCP.drained {σ : Type} (cfg : Config) (op : Operator σ) (hb : Nat) (k : Wake)
    (w : World σ) (trd : Option Nat) : DrainOut σ :=
  dispatchTCP.svrLoop k.svr
    (dispatchTCP.cliLoop cfg op hb k.cli (w.log (Event.signalRecv k.sig)) trd).w
    (dispatchTCP.cliLoop cfg op hb k.cli (w.log (Event.signalRecv k.sig)) trd).trd

/-! ## The run in which the finish signal is dropped -/

/-- The heartbeat frame the bytes `headerOnly 2` decode to. -/
def hbFrame : Proto := ⟨1, 2, 3, none⟩

/-- The read side: the client sends the handshake frame and two heartbeats and
then goes away; the signal slot is free for the two sends of `ProtoReady` and
still holds the second one when `ProtoFinsh` is sent. -/
def worldTwoFrames : World Nat :=
  { world0 (headerOnly 7 ++ headerOnly 2 ++ headerOnly 2) with sends := [true, true, false] }

/-- The write side after its first `Add`: the heartbeat handle 0 is in use. -/
def writerStart : World Nat := ((world0 []).timerAdd 5).2.2

/-- The write side after its first wake, in which it found both heartbeats in
the client queue and answered them while the socket was still open. -/
def afterFirstWake : DrainOut Nat :=
  dispatchTCP.drained cfg0 op0 5 ⟨ProtoReady, [hbFrame, hbFrame], []⟩ writerStart (some 0)

/-- The write side once the read task has closed the socket. -/
def afterReaderClose : World Nat := afterFirstWake.w.connClose.2

/-! ## Theorems: machine integers and the big-endian helpers -/

theorem byteOf_val (x : Int) : ((byteOf x).val : Int) = x % 256 := by
  unfold byteOf
  have h : (0 : Int) ≤ x % 256 := Int.emod_nonneg _ (by decide)
  have h2 : x % 256 < 256 := Int.emod_lt_of_pos _ (by decide)
  simp only [Fin.ofNat, Nat.succ_eq_add_one]
  omega

theorem Int32_PutInt32 (v : Int) : BigEndian.Int32 (BigEndian.PutInt32 v) = int32 v := by
  simp only [BigEndian.Int32, BigEndian.PutInt32, byteAt, List.getD_cons_zero,
    List.getD_cons_succ, byteOf_val, int32]
  omega

theorem Int16_PutInt16 (v : Int) : BigEndian.Int16 (BigEndian.PutInt16 v) = int16 v := by
  simp only [BigEndian.Int16, BigEndian.PutInt16, byteAt, List.getD_cons_zero,
    List.getD_cons_succ, byteOf_val, int16]
  omega

theorem int32_of_isInt32 {v : Int} (h : isInt32 v) : int32 v = v := by
  unfold isInt32 at h
  unfold int32
  omega

theorem int16_of_isInt16 {v : Int} (h : isInt16 v) : int16 v = v := by
  unfold isInt16 at h
  unfold int16
  omega

theorem byteOf_congr {x y : Int} (h : x % 256 = y % 256) : byteOf x = byteOf y := by
  unfold byteOf
  rw [h]

theorem PutInt32_int32 (v : Int) : BigEndian.PutInt32 (int32 v) = BigEndian.PutInt32 v := by
  unfold BigEndian.PutInt32
  have h1 : byteOf (int32 v / 16777216) = byteOf (v / 16777216) :=
    byteOf_congr (by unfold int32; omega)
  have h2 : byteOf (int32 v / 65536) = byteOf (v / 65536) :=
    byteOf_congr (by unfold int32; omega)
  have h3 : byteOf (int32 v / 256) = byteOf (v / 256) :=
    byteOf_congr (by unfold int32; omega)
  have h4 : byteOf (int32 v) = byteOf v :=
    byteOf_congr (by unfold int32; omega)
  rw [h1, h2, h3, h4]

theorem PutInt32_packLen (n : Nat) :
    BigEndian.PutInt32 (int32 (int32 rawHeaderLen + int32 (n : Int))) =
      BigEndian.PutInt32 (16 + (n : Int)) := by
  rw [PutInt32_int32]
  unfold BigEndian.PutInt32
  have h1 : byteOf ((int32 rawHeaderLen + int32 (n : Int)) / 16777216) = byteOf ((16 + (n : Int)) / 16777216) :=
    byteOf_congr (by unfold int32 rawHeaderLen; omega)
  have h2 : byteOf ((int32 rawHeaderLen + int32 (n : Int)) / 65536) = byteOf ((16 + (n : Int)) / 65536) :=
    byteOf_congr (by unfold int32 rawHeaderLen; omega)
  have h3 : byteOf ((int32 rawHeaderLen + int32 (n : Int)) / 256) = byteOf ((16 + (n : Int)) / 256) :=
    byteOf_congr (by unfold int32 rawHeaderLen; omega)
  have h4 : byteOf (int32 rawHeaderLen + int32 (n : Int)) = byteOf (16 + (n : Int)) :=
    byteOf_congr (by unfold int32 rawHeaderLen; omega)
  rw [h1, h2, h3, h4]

theorem PutInt32_length (v : Int) : (BigEndian.PutInt32 v).length = 4 := rfl

theorem PutInt16_length (v : Int) : (BigEndian.PutInt16 v).length = 2 := rfl

/-! ## Theorems: the codec -/

theorem ReadAll_append (xs ys : List Byte) (n : Nat) (h : xs.length = n) :
    ReadAll (xs ++ ys) n = ⟨true, xs, ys⟩ := by
  subst h
  simp [ReadAll]

theorem ReadAll_short (rr : List Byte) (n : Nat) (h : rr.length < n) :
    ReadAll rr n = ⟨false, rr, []⟩ := by
  simp [ReadAll, Nat.not_le.mpr h]

theorem Write_accepting (w : Writer) (p : List Byte) (h : w.failAfter = none) :
    w.Write p = (none, { w with buf := w.buf ++ p }) := by
  simp [Writer.Write, h]

theorem Flush_accepting (w : Writer) (h : w.failAfter = none) :
    w.Flush = (none, { w with out := w.out ++ w.buf, buf := [], flushes := w.flushes + 1 }) := by
  simp [Writer.Flush, h]

/-- On a writer that accepts every write, `writeTCPResponse` succeeds, leaves
nothing buffered, and has flushed exactly the frame bytes after what the
writer already held. -/
theorem writeTCPResponse_accepting (w : Writer) (p : Proto) (h : w.failAfter = none) :
    writeTCPResponse w p =
      (none, { w with out := w.out ++ (w.buf ++ frameBytes p), buf := [],
                      flushes := w.flushes + 1 }) := by
  unfold writeTCPResponse
  rw [PutInt32_packLen]
  cases hb : p.Body <;>
    simp [Write_accepting, Flush_accepting, h, frameBytes, Proto.bodyBytes, hb, rawHeaderLen]

theorem frameBytes_length (p : Proto) : (frameBytes p).length = 16 + p.bodyLen := by
  simp [frameBytes, Proto.bodyBytes, Proto.bodyLen, PutInt32_length, PutInt16_length]
  omega

/-- Decoding the bytes of a frame, followed by any further bytes `rest`,
gives the frame back and leaves `rest` unread. -/
theorem readTCPRequest_frameBytes (p p0 : Proto) (rest : List Byte) (hwf : p.wf)
    (hlen : p.bodyLen ≤ 1008) :
    readTCPRequest (frameBytes p ++ rest) p0 =
      ⟨none, rest, ⟨p.Ver, p.Operation, p.SeqId, wireBody p.Body⟩,
        if p.bodyLen = 0 then [] else [p.bodyLen]⟩ := by
  obtain ⟨hv, ho, hs⟩ := hwf
  have hL : isInt32 (16 + (p.bodyLen : Int)) := by unfold isInt32; omega
  have e1 : BigEndian.Int32 (BigEndian.PutInt32 (16 + (p.bodyLen : Int))) = 16 + (p.bodyLen : Int) := by
    rw [Int32_PutInt32, int32_of_isInt32 hL]
  have e2 : BigEndian.Int16 (BigEndian.PutInt16 16) = 16 := by
    rw [Int16_PutInt16]; exact int16_of_isInt16 (by unfold isInt16; omega)
  have e3 : BigEndian.Int16 (BigEndian.PutInt16 p.Ver) = p.Ver := by
    rw [Int16_PutInt16, int16_of_isInt16 hv]
  have e4 : BigEndian.Int32 (BigEndian.PutInt32 p.Operation) = p.Operation := by
    rw [Int32_PutInt32, int32_of_isInt32 ho]
  have e5 : BigEndian.Int32 (BigEndian.PutInt32 p.SeqId) = p.SeqId := by
    rw [Int32_PutInt32, int32_of_isInt32 hs]
  have e6 : int32 (16 + (p.bodyLen : Int) - int32 16) = (p.bodyLen : Int) := by
    unfold int32; omega
  unfold readTCPRequest frameBytes
  simp only [List.append_assoc]
  rw [ReadAll_append _ _ packLenSize (PutInt32_length _)]
  simp only [e1]
  rw [ReadAll_append _ _ headerLenSize (PutInt16_length _)]
  simp only [e2]
  rw [ReadAll_append _ _ VerSize (PutInt16_length _)]
  simp only [e3]
  rw [ReadAll_append _ _ OperationSize (PutInt32_length _)]
  simp only [e4]
  rw [ReadAll_append _ _ SeqIdSize (PutInt32_length _)]
  simp only [e5, e6, rawHeaderLen, maxPackLen]
  have hnot : ¬ (16 + (p.bodyLen : Int) > 1024) := by omega
  simp only [hnot, if_false, Bool.true_eq_false, ne_eq, not_true_eq_false]
  by_cases hz : p.bodyLen = 0
  · have hb : p.bodyBytes = [] := by
      unfold Proto.bodyLen at hz; unfold Proto.bodyBytes; exact List.length_eq_zero.mp hz
    have hw : wireBody p.Body = none := by
      unfold Proto.bodyBytes at hb
      cases hB : p.Body with
      | none => rfl
      | some b => rw [hB] at hb; simp at hb; subst hb; rfl
    simp [hz, hb, hw]
  · have hpos : ((p.bodyLen : Int) > 0) := by omega
    have hw : wireBody p.Body = some p.bodyBytes := by
      unfold Proto.bodyLen at hz; unfold Proto.bodyBytes
      cases hB : p.Body with
      | none => rw [hB] at hz; simp at hz
      | some b =>
        cases b with
        | nil => rw [hB] at hz; simp at hz
        | cons x xs => rfl
    have hlen2 : p.bodyBytes.length = p.bodyLen := rfl
    simp only [hpos, if_true, Int.toNat_ofNat, hz, if_false]
    rw [ReadAll_append _ _ p.bodyLen hlen2]
    simp [hw, hlen2]

theorem byteAt_take {rr : List Byte} {i n : Nat} (h : i < n) :
    byteAt (rr.take n) i = byteAt rr i := by
  unfold byteAt
  simp only [List.getD_eq_getElem?_getD]
  rw [List.getElem?_take_of_lt h]

theorem byteAt_range (b : List Byte) (i : Nat) : 0 ≤ byteAt b i ∧ byteAt b i < 256 := by
  unfold byteAt
  constructor
  · exact Int.ofNat_nonneg _
  · exact_mod_cast (b.getD i 0).isLt

theorem packLenField_eq (rr : List Byte) : packLenField rr = int32 (packLenUnsigned rr) := by
  unfold packLenField packLenUnsigned BigEndian.Int32
  rw [byteAt_take (by decide : 0 < 4), byteAt_take (by decide : 1 < 4),
    byteAt_take (by decide : 2 < 4), byteAt_take (by decide : 3 < 4)]

theorem packLenUnsigned_range (rr : List Byte) :
    0 ≤ packLenUnsigned rr ∧ packLenUnsigned rr < 4294967296 := by
  unfold packLenUnsigned
  have h0 := byteAt_range rr 0
  have h1 := byteAt_range rr 1
  have h2 := byteAt_range rr 2
  have h3 := byteAt_range rr 3
  omega

theorem ReadAll_ok {rr : List Byte} {n : Nat} (h : n ≤ rr.length) :
    ReadAll rr n = ⟨true, rr.take n, rr.drop n⟩ := by
  simp [ReadAll, h]

theorem headerLen_after_take (rr : List Byte) :
    BigEndian.Int16 ((rr.drop 4).take 2) = int16 (headerLenUnsigned rr) := by
  unfold BigEndian.Int16 headerLenUnsigned
  rw [byteAt_take (by decide : 0 < 2), byteAt_take (by decide : 1 < 2)]
  unfold byteAt
  simp [List.getD_eq_getElem?_getD, List.getElem?_drop]

theorem headerLenUnsigned_range (rr : List Byte) :
    0 ≤ headerLenUnsigned rr ∧ headerLenUnsigned rr < 65536 := by
  unfold headerLenUnsigned
  have h0 := byteAt_range rr 4
  have h1 := byteAt_range rr 5
  omega

/-- The first two checks of `readTCPRequest` on a stream of at least six
bytes. -/
theorem readTCPRequest_head (rr : List Byte) (p0 : Proto) (h6 : 6 ≤ rr.length) :
    (packLenField rr > 1024 →
      readTCPRequest rr p0 = ⟨some Err.ErrProtoPackLen, rr.drop 4, p0, []⟩) ∧
    (packLenField rr ≤ 1024 → headerLenUnsigned rr ≠ 16 →
      readTCPRequest rr p0 = ⟨some Err.ErrProtoHeaderLen, rr.drop 6, p0, []⟩) := by
  have h4 : packLenSize ≤ rr.length := by unfold packLenSize; omega
  have h2 : headerLenSize ≤ (rr.drop 4).length := by
    unfold headerLenSize; simp only [List.length_drop]; omega
  constructor
  · intro hbig
    unfold readTCPRequest
    rw [ReadAll_ok h4]
    simp only [packLenSize, maxPackLen]
    unfold packLenField at hbig
    simp [hbig]
  · intro hsmall hne
    unfold readTCPRequest
    rw [ReadAll_ok h4]
    simp only [packLenSize, maxPackLen]
    unfold packLenField at hsmall
    have hn : ¬ (BigEndian.Int32 (List.take 4 rr) > 1024) := by omega
    simp only [hn, if_false, Bool.true_eq_false]
    rw [ReadAll_ok h2]
    simp only [headerLenSize, rawHeaderLen, headerLen_after_take]
    have hr := headerLenUnsigned_range rr
    have hne2 : int16 (headerLenUnsigned rr) ≠ 16 := by unfold int16; omega
    simp [hne2]

/-- Normal form of `readTCPRequest` on a stream that holds a whole header. -/
theorem readTCPRequest_of_header (rr : List Byte) (p0 : Proto) (h16 : 16 ≤ rr.length) :
    readTCPRequest rr p0 =
      if packLenField rr > 1024 then ⟨some Err.ErrProtoPackLen, rr.drop 4, p0, []⟩
      else if headerLenUnsigned rr ≠ 16 then ⟨some Err.ErrProtoHeaderLen, rr.drop 6, p0, []⟩
      else if int32 (packLenField rr - 16) > 0 then
        (if (int32 (packLenField rr - 16)).toNat ≤ (rr.drop 16).length then
          ⟨none, rr.drop (16 + (int32 (packLenField rr - 16)).toNat),
            { headerInto rr p0 with
              Body := some ((rr.drop 16).take (int32 (packLenField rr - 16)).toNat) },
            [(int32 (packLenField rr - 16)).toNat]⟩
        else
          ⟨some Err.ioError, [],
            { headerInto rr p0 with
              Body := some (rr.drop 16 ++ List.replicate
                ((int32 (packLenField rr - 16)).toNat - (rr.drop 16).length) (0 : Byte)) },
            [(int32 (packLenField rr - 16)).toNat]⟩)
      else ⟨none, rr.drop 16, { headerInto rr p0 with Body := none }, []⟩ := by
  have hh := readTCPRequest_head rr p0 (by omega)
  by_cases hbig : packLenField rr > 1024
  · rw [hh.1 hbig, if_pos hbig]
  rw [if_neg hbig]
  by_cases hne : headerLenUnsigned rr ≠ 16
  · rw [hh.2 (by omega) hne, if_pos hne]
  rw [if_neg hne]
  have heq : headerLenUnsigned rr = 16 := by omega
  have e16 : int16 (headerLenUnsigned rr) = 16 := by rw [heq]; rfl
  have e32 : int32 16 = 16 := rfl
  have l1 : packLenSize ≤ rr.length := by unfold packLenSize; omega
  have l2 : headerLenSize ≤ (rr.drop 4).length := by
    unfold headerLenSize; simp only [List.length_drop]; omega
  have l3 : VerSize ≤ (rr.drop 6).length := by
    unfold VerSize; simp only [List.length_drop]; omega
  have l4 : OperationSize ≤ (rr.drop 8).length := by
    unfold OperationSize; simp only [List.length_drop]; omega
  have l5 : SeqIdSize ≤ (rr.drop 12).length := by
    unfold SeqIdSize; simp only [List.length_drop]; omega
  have hn : ¬ (BigEndian.Int32 (List.take 4 rr) > 1024) := hbig
  unfold readTCPRequest
  rw [ReadAll_ok l1]
  simp only [packLenSize, maxPackLen, hn, if_false, Bool.true_eq_false]
  rw [ReadAll_ok l2]
  simp only [headerLenSize, rawHeaderLen, headerLen_after_take, e16, ne_eq, not_true_eq_false,
    if_false, Bool.true_eq_false, List.drop_drop, Nat.reduceAdd]
  rw [ReadAll_ok l3]
  simp only [VerSize, if_false, Bool.true_eq_false, List.drop_drop, Nat.reduceAdd]
  rw [ReadAll_ok l4]
  simp only [OperationSize, if_false, Bool.true_eq_false, List.drop_drop, Nat.reduceAdd]
  rw [ReadAll_ok l5]
  simp only [SeqIdSize, if_false, Bool.true_eq_false, List.drop_drop, Nat.reduceAdd, e32]
  have hpf : BigEndian.Int32 (List.take 4 rr) = packLenField rr := rfl
  simp only [hpf]
  by_cases hpos : int32 (packLenField rr - 16) > 0
  · rw [if_pos hpos, if_pos hpos]
    generalize (int32 (packLenField rr - 16)).toNat = n
    by_cases hfit : n ≤ (rr.drop 16).length
    · rw [if_pos hfit, ReadAll_ok hfit]
      have hlen : (List.take n (List.drop 16 rr)).length = n := by
        rw [List.length_take]; exact Nat.min_eq_left hfit
      simp only [Bool.true_eq_false, if_false, hlen, Nat.sub_self, List.replicate_zero,
        List.append_nil, headerInto, List.drop_drop]
    · have hlt : (rr.drop 16).length < n := Nat.lt_of_not_le hfit
      rw [if_neg hfit, ReadAll_short _ _ hlt]
      simp only [if_true, headerInto]
  · rw [if_neg hpos, if_neg hpos]
    simp only [headerInto]

/-- A stream that ends inside the header is never decoded: the call returns
an error. -/
theorem readTCPRequest_short (rr : List Byte) (p0 : Proto) (h : rr.length < 16) :
    ∃ e rest p a, readTCPRequest rr p0 = ⟨some e, rest, p, a⟩ := by
  unfold readTCPRequest
  by_cases l1 : packLenSize ≤ rr.length
  swap
  · rw [ReadAll_short _ _ (Nat.lt_of_not_le l1)]
    exact ⟨_, _, _, _, rfl⟩
  rw [ReadAll_ok l1]
  by_cases c1 : BigEndian.Int32 (List.take packLenSize rr) > maxPackLen
  · simp only [Bool.true_eq_false, if_false, c1, if_true]
    exact ⟨_, _, _, _, rfl⟩
  simp only [Bool.true_eq_false, if_false, c1]
  by_cases l2 : headerLenSize ≤ (rr.drop packLenSize).length
  swap
  · rw [ReadAll_short _ _ (Nat.lt_of_not_le l2)]
    exact ⟨_, _, _, _, rfl⟩
  rw [ReadAll_ok l2]
  by_cases c2 : BigEndian.Int16 (List.take headerLenSize (List.drop packLenSize rr)) = rawHeaderLen
  swap
  · simp only [Bool.true_eq_false, if_false, c2, ne_eq, not_false_eq_true, if_true]
    exact ⟨_, _, _, _, rfl⟩
  simp only [Bool.true_eq_false, if_false, c2, ne_eq, not_true_eq_false]
  by_cases l3 : VerSize ≤ ((rr.drop packLenSize).drop headerLenSize).length
  swap
  · rw [ReadAll_short _ _ (Nat.lt_of_not_le l3)]
    exact ⟨_, _, _, _, rfl⟩
  rw [ReadAll_ok l3]
  simp only [Bool.true_eq_false, if_false]
  by_cases l4 : OperationSize ≤ (((rr.drop packLenSize).drop headerLenSize).drop VerSize).length
  swap
  · rw [ReadAll_short _ _ (Nat.lt_of_not_le l4)]
    exact ⟨_, _, _, _, rfl⟩
  rw [ReadAll_ok l4]
  simp only [Bool.true_eq_false, if_false]
  by_cases l5 : SeqIdSize ≤
      ((((rr.drop packLenSize).drop headerLenSize).drop VerSize).drop OperationSize).length
  swap
  · rw [ReadAll_short _ _ (Nat.lt_of_not_le l5)]
    exact ⟨_, _, _, _, rfl⟩
  exfalso
  simp only [List.length_drop, packLenSize, headerLenSize, VerSize, OperationSize, SeqIdSize]
    at l1 l2 l3 l4 l5
  omega

/-- A successful decode has read the sixteen header bytes. -/
theorem readTCPRequest_ok_length (rr : List Byte) (p0 : Proto)
    (h : (readTCPRequest rr p0).err = none) : 16 ≤ rr.length := by
  by_contra hlt
  obtain ⟨e, rest, p, a, heq⟩ := readTCPRequest_short rr p0 (Nat.lt_of_not_le hlt)
  rw [heq] at h
  exact Option.some_ne_none e h

/-- What a successful decode did: the stream held a header with a total length
of at most 1024 and a header length of 16, and the body was read (`n` bytes,
`n` the positive 32-bit difference `packLen - 16`) or left absent (when that
difference is not positive). -/
theorem readTCPRequest_ok_inv (rr : List Byte) (p0 : Proto)
    (hok : (readTCPRequest rr p0).err = none) :
    16 ≤ rr.length ∧ packLenField rr ≤ 1024 ∧ headerLenUnsigned rr = 16 ∧
    ((∃ n : Nat, (n : Int) = int32 (packLenField rr - 16) ∧ 0 < n ∧
        n ≤ (rr.drop 16).length ∧
        readTCPRequest rr p0 =
          ⟨none, rr.drop (16 + n),
            { headerInto rr p0 with Body := some ((rr.drop 16).take n) }, [n]⟩) ∨
      (int32 (packLenField rr - 16) ≤ 0 ∧
        readTCPRequest rr p0 =
          ⟨none, rr.drop 16, { headerInto rr p0 with Body := none }, []⟩)) := by
  have h16 := readTCPRequest_ok_length rr p0 hok
  have hnf := readTCPRequest_of_header rr p0 h16
  by_cases c1 : packLenField rr > 1024
  · rw [if_pos c1] at hnf
    rw [hnf] at hok
    exact absurd hok (Option.some_ne_none _)
  rw [if_neg c1] at hnf
  by_cases c2 : headerLenUnsigned rr ≠ 16
  · rw [if_pos c2] at hnf
    rw [hnf] at hok
    exact absurd hok (Option.some_ne_none _)
  rw [if_neg c2] at hnf
  refine ⟨h16, by omega, by omega, ?_⟩
  by_cases c3 : int32 (packLenField rr - 16) > 0
  · rw [if_pos c3] at hnf
    have hcast : (((int32 (packLenField rr - 16)).toNat : Nat) : Int) =
        int32 (packLenField rr - 16) := Int.toNat_of_nonneg (by omega)
    generalize (int32 (packLenField rr - 16)).toNat = n at hnf hcast
    by_cases c4 : n ≤ (rr.drop 16).length
    · rw [if_pos c4] at hnf
      exact Or.inl ⟨n, hcast, by omega, c4, hnf⟩
    · rw [if_neg c4] at hnf
      rw [hnf] at hok
      exact absurd hok (Option.some_ne_none _)
  · rw [if_neg c3] at hnf
    exact Or.inr ⟨by omega, hnf⟩

/-! ## Claims C1-C5: the frame codec -/

/-- C1 (round trip).  For every frame whose fields are in the range of their
Go types and whose body has at most 1008 bytes, `writeTCPResponse` on a fresh
accepting writer succeeds, and `readTCPRequest` on exactly the bytes it wrote
(into any slot `p0`) succeeds, consumes them all, and yields the same version,
operation and sequence id and the same body bytes; an absent body comes back
absent and a non-empty body comes back as the identical present buffer.  (A
present body of length zero puts no byte on the wire and comes back absent.) -/
theorem C1_roundtrip (p p0 : Proto) (hwf : p.wf) (hlen : p.bodyLen ≤ 1008) :
    (writeTCPResponse Writer.fresh p).1 = none ∧
    (readTCPRequest (writeTCPResponse Writer.fresh p).2.out p0).err = none ∧
    (readTCPRequest (writeTCPResponse Writer.fresh p).2.out p0).rr = [] ∧
    (readTCPRequest (writeTCPResponse Writer.fresh p).2.out p0).proto.Ver = p.Ver ∧
    (readTCPRequest (writeTCPResponse Writer.fresh p).2.out p0).proto.Operation = p.Operation ∧
    (readTCPRequest (writeTCPResponse Writer.fresh p).2.out p0).proto.SeqId = p.SeqId ∧
    (readTCPRequest (writeTCPResponse Writer.fresh p).2.out p0).proto.bodyBytes = p.bodyBytes ∧
    (p.Body = none →
      (readTCPRequest (writeTCPResponse Writer.fresh p).2.out p0).proto.Body = none) ∧
    (∀ b, p.Body = some b → b ≠ [] →
      (readTCPRequest (writeTCPResponse Writer.fresh p).2.out p0).proto.Body = some b) := by
  have hw := writeTCPResponse_accepting Writer.fresh p rfl
  have hout : (writeTCPResponse Writer.fresh p).2.out = frameBytes p ++ [] := by
    rw [hw]; simp [Writer.fresh]
  have hr := readTCPRequest_frameBytes p p0 [] hwf hlen
  rw [hout, hr, hw]
  refine ⟨rfl, rfl, rfl, rfl, rfl, rfl, ?_, ?_, ?_⟩
  · cases hB : p.Body with
    | none => simp [Proto.bodyBytes, wireBody, hB]
    | some b => cases b <;> simp [Proto.bodyBytes, wireBody, hB]
  · intro hB
    simp [wireBody, hB]
  · intro b hB hne
    cases b with
    | nil => exact absurd rfl hne
    | cons x xs => simp [wireBody, hB]

/-- Witness for C1: a frame with a negative version and sequence id and a
two-byte body. -/
theorem C1_roundtrip_witness :
    (⟨-1, 2, -2, some [7, 8]⟩ : Proto).wf ∧ (⟨-1, 2, -2, some [7, 8]⟩ : Proto).bodyLen ≤ 1008 ∧
    (readTCPRequest (writeTCPResponse Writer.fresh ⟨-1, 2, -2, some [7, 8]⟩).2.out
      ⟨0, 0, 0, none⟩).proto.Body = some [7, 8] :=
  ⟨by decide, by decide,
    (C1_roundtrip ⟨-1, 2, -2, some [7, 8]⟩ ⟨0, 0, 0, none⟩ (by decide) (by decide)).2.2.2.2.2.2.2.2
      [7, 8] rfl (by decide)⟩

/-- The part of the oversize check that holds: a total-length field between
1025 and 2147483647 is rejected with `ErrProtoPackLen` after the four length
bytes, the slot untouched and nothing allocated. -/
theorem readTCPRequest_oversize (rr : List Byte) (p0 : Proto) (h4 : 4 ≤ rr.length)
    (hbig : 1024 < packLenUnsigned rr) (hlt : packLenUnsigned rr < 2147483648) :
    readTCPRequest rr p0 = ⟨some Err.ErrProtoPackLen, rr.drop 4, p0, []⟩ := by
  have hf : packLenField rr > 1024 := by
    rw [packLenField_eq]
    unfold int32
    omega
  have l1 : packLenSize ≤ rr.length := h4
  unfold readTCPRequest
  rw [ReadAll_ok l1]
  simp only [packLenSize, maxPackLen]
  unfold packLenField at hf
  simp [hf]

/-- C2 (oversize rejection), evaluated where the code departs from it.  The
length field `80 00 00 00` declares 2147483648 bytes, more than 1024, yet
`readTCPRequest` does not return `ErrProtoPackLen`: it reads the rest of the
header, allocates a body buffer of 2147483632 bytes and fails only on the
short read.  The field `ff ff ff ff` declares 4294967295 bytes and is decoded
as a frame without body, sixteen bytes consumed. -/
theorem C2_oversize_not_rejected :
    packLenUnsigned oversizeStream = 2147483648 ∧
    (readTCPRequest oversizeStream emptyProto).err = some Err.ioError ∧
    (readTCPRequest oversizeStream emptyProto).rr = [] ∧
    (readTCPRequest oversizeStream emptyProto).allocs = [2147483632] ∧
    packLenUnsigned allOnesStream = 4294967295 ∧
    readTCPRequest allOnesStream emptyProto = ⟨none, [9], ⟨1, 2, 3, none⟩, []⟩ := by
  decide

/-- C3, as stated, fails: a six-byte stream whose header-length field is 0 and
whose total-length field is 2048 is rejected with `ErrProtoPackLen`, not with
`ErrProtoHeaderLen`. -/
theorem C3_counterexample :
    6 ≤ bigAndBadHeaderStream.length ∧ headerLenUnsigned bigAndBadHeaderStream ≠ 16 ∧
    (readTCPRequest bigAndBadHeaderStream emptyProto).err = some Err.ErrProtoPackLen ∧
    (readTCPRequest bigAndBadHeaderStream emptyProto).err ≠ some Err.ErrProtoHeaderLen := by
  decide

/-- C3 (header-length rejection, amended).  Take any input stream of at least
six bytes whose header-length field is not 16, and read its total-length field
(bytes 0-3) as an unsigned number.  When the total is at most 1024, or at
least 2147483648 (negative as the `int32` the source compares, so it passes
the size check), `readTCPRequest` returns `ErrProtoHeaderLen`: it has consumed
the six bytes, left the slot untouched and allocated nothing.  When the total
is between 1025 and 2147483647 the size check rejects first: the call returns
`ErrProtoPackLen` with only the four length bytes consumed.  So
`ErrProtoHeaderLen` is returned exactly in the first case, and the call fails
in both. -/
theorem C3_header_length_rejection (rr : List Byte) (p0 : Proto) (h6 : 6 ≤ rr.length)
    (hne : headerLenUnsigned rr ≠ 16) :
    (packLenUnsigned rr ≤ 1024 ∨ 2147483648 ≤ packLenUnsigned rr →
      readTCPRequest rr p0 = ⟨some Err.ErrProtoHeaderLen, rr.drop 6, p0, []⟩) ∧
    (1024 < packLenUnsigned rr ∧ packLenUnsigned rr < 2147483648 →
      readTCPRequest rr p0 = ⟨some Err.ErrProtoPackLen, rr.drop 4, p0, []⟩) ∧
    ((readTCPRequest rr p0).err = some Err.ErrProtoHeaderLen ↔
      packLenUnsigned rr ≤ 1024 ∨ 2147483648 ≤ packLenUnsigned rr) ∧
    (readTCPRequest rr p0).err ≠ none := by
  have hu := packLenUnsigned_range rr
  have hf := packLenField_eq rr
  have hh := readTCPRequest_head rr p0 h6
  have h1 : packLenUnsigned rr ≤ 1024 ∨ 2147483648 ≤ packLenUnsigned rr →
      readTCPRequest rr p0 = ⟨some Err.ErrProtoHeaderLen, rr.drop 6, p0, []⟩ := by
    intro hc
    have hle : packLenField rr ≤ 1024 := by
      rw [hf]
      unfold int32
      omega
    exact hh.2 hle hne
  have h2 : 1024 < packLenUnsigned rr ∧ packLenUnsigned rr < 2147483648 →
      readTCPRequest rr p0 = ⟨some Err.ErrProtoPackLen, rr.drop 4, p0, []⟩ := by
    intro hc
    have hgt : packLenField rr > 1024 := by
      rw [hf]
      unfold int32
      omega
    exact hh.1 hgt
  refine ⟨h1, h2, ⟨?_, ?_⟩, ?_⟩
  · intro herr
    by_contra hc
    have hmid : 1024 < packLenUnsigned rr ∧ packLenUnsigned rr < 2147483648 := by omega
    rw [h2 hmid] at herr
    exact Err.noConfusion (Option.some.inj herr)
  · intro hc
    rw [h1 hc]
  · by_cases hc : packLenUnsigned rr ≤ 1024 ∨ 2147483648 ≤ packLenUnsigned rr
    · rw [h1 hc]
      exact Option.some_ne_none _
    · have hmid : 1024 < packLenUnsigned rr ∧ packLenUnsigned rr < 2147483648 := by omega
      rw [h2 hmid]
      exact Option.some_ne_none _

/-- Witness for C3: header length 17 with a total of 16, header length 0 with
a total of 4294967295, and header length 0 with a total of 4096. -/
theorem C3_header_length_rejection_witness :
    readTCPRequest [0, 0, 0, 16, 0, 17, 5] emptyProto =
      ⟨some Err.ErrProtoHeaderLen, [5], emptyProto, []⟩ ∧
    readTCPRequest [255, 255, 255, 255, 0, 0] emptyProto =
      ⟨some Err.ErrProtoHeaderLen, [], emptyProto, []⟩ ∧
    readTCPRequest [0, 0, 16, 0, 0, 0, 5] emptyProto =
      ⟨some Err.ErrProtoPackLen, [0, 0, 5], emptyProto, []⟩ :=
  ⟨(C3_header_length_rejection [0, 0, 0, 16, 0, 17, 5] emptyProto (by decide) (by decide)).1
      (Or.inl (by decide)),
    (C3_header_length_rejection [255, 255, 255, 255, 0, 0] emptyProto (by decide)
      (by decide)).1 (Or.inr (by decide)),
    (C3_header_length_rejection [0, 0, 16, 0, 0, 0, 5] emptyProto (by decide) (by decide)).2.1
      ⟨by decide, by decide⟩⟩

/-- C4 (wire layout of encode).  On a writer that accepts every write,
`writeTCPResponse` returns no error, has appended exactly
`be32(16 + len(body)) ++ be16(16) ++ be16(version) ++ be32(operation) ++
be32(sequenceId) ++ body` (`frameBytes`) after what the writer held, has flushed
once so that nothing stays buffered, and the frame is `16 + len(body)` bytes
long. -/
theorem C4_wire_layout (w : Writer) (p : Proto) (h : w.failAfter = none) :
    writeTCPResponse w p =
      (none, { w with out := w.out ++ (w.buf ++ frameBytes p), buf := [],
                      flushes := w.flushes + 1 }) ∧
    frameBytes p =
      BigEndian.PutInt32 (16 + (p.bodyLen : Int)) ++ BigEndian.PutInt16 16 ++
        BigEndian.PutInt16 p.Ver ++ BigEndian.PutInt32 p.Operation ++
        BigEndian.PutInt32 p.SeqId ++ p.bodyBytes ∧
    (frameBytes p).length = 16 + p.bodyLen :=
  ⟨writeTCPResponse_accepting w p h, rfl, frameBytes_length p⟩

/-- Witness for C4: a frame with a two-byte body on a fresh writer. -/
theorem C4_wire_layout_witness :
    Writer.fresh.failAfter = none ∧
    writeTCPResponse Writer.fresh ⟨-1, 2, -2, some [7, 8]⟩ =
      (none, ⟨[], [0, 0, 0, 18, 0, 16, 255, 255, 0, 0, 0, 2, 255, 255, 255, 254, 7, 8], 1,
        none⟩) :=
  ⟨rfl, (C4_wire_layout Writer.fresh ⟨-1, 2, -2, some [7, 8]⟩ rfl).1⟩

/-- C5, as stated, fails: a header that declares a total length of 0 is decoded
successfully with an absent body, and 0 is not 16 plus the body length. -/
theorem C5_counterexample :
    (readTCPRequest zeroTotalStream emptyProto).err = none ∧
    packLenUnsigned zeroTotalStream = 0 ∧
    (readTCPRequest zeroTotalStream emptyProto).proto.Body = none ∧
    packLenUnsigned zeroTotalStream ≠
      16 + ((readTCPRequest zeroTotalStream emptyProto).proto.bodyLen : Int) := by
  decide

/-- C5 (length consistency of decode, amended).  Read the declared total
length (bytes 0-3) as an unsigned number `total`.  On every stream on which
`readTCPRequest` succeeds, `total` is at most 1024 or at least 2147483648;
the decoded body is present exactly when `16 < total ≤ 1024` or
`2147483648 ≤ total < 2147483664`, and then it has exactly `total - 16`
bytes; it is absent exactly when `total ≤ 16` or `2147483664 ≤ total`.  So
`total = 16 + len(body)` holds exactly when `16 ≤ total ≤ 1024` or
`2147483648 ≤ total < 2147483664`.  And a total that leaves no room for a
body is not rejected: on every stream of at least sixteen bytes whose
header-length field is 16 and whose total is at most 16 or at least
2147483664, the decode succeeds, consumes the sixteen header bytes and leaves
the body absent. -/
theorem C5_length_consistency (rr : List Byte) (p0 : Proto) :
    ((readTCPRequest rr p0).err = none →
      (packLenUnsigned rr ≤ 1024 ∨ 2147483648 ≤ packLenUnsigned rr) ∧
      ((16 < packLenUnsigned rr ∧ packLenUnsigned rr ≤ 1024) ∨
          (2147483648 ≤ packLenUnsigned rr ∧ packLenUnsigned rr < 2147483664) →
        ∃ b, (readTCPRequest rr p0).proto.Body = some b ∧
          packLenUnsigned rr = 16 + (b.length : Int)) ∧
      ((readTCPRequest rr p0).proto.Body = none ↔
        packLenUnsigned rr ≤ 16 ∨ 2147483664 ≤ packLenUnsigned rr) ∧
      (packLenUnsigned rr = 16 + ((readTCPRequest rr p0).proto.bodyLen : Int) ↔
        (16 ≤ packLenUnsigned rr ∧ packLenUnsigned rr ≤ 1024) ∨
          (2147483648 ≤ packLenUnsigned rr ∧ packLenUnsigned rr < 2147483664))) ∧
    (16 ≤ rr.length → headerLenUnsigned rr = 16 →
      packLenUnsigned rr ≤ 16 ∨ 2147483664 ≤ packLenUnsigned rr →
      readTCPRequest rr p0 =
        ⟨none, rr.drop 16, { headerInto rr p0 with Body := none }, []⟩) := by
  have hu := packLenUnsigned_range rr
  have hf := packLenField_eq rr
  constructor
  · intro hok
    obtain ⟨h16, hle, hhdr, hcase⟩ := readTCPRequest_ok_inv rr p0 hok
    have hrange : packLenUnsigned rr ≤ 1024 ∨ 2147483648 ≤ packLenUnsigned rr := by
      rw [hf] at hle
      unfold int32 at hle
      omega
    rcases hcase with ⟨n, hn, hpos, hfit, heq⟩ | ⟨hnp, heq⟩
    · have hlen : (List.take n (List.drop 16 rr)).length = n := by
        rw [List.length_take]; exact Nat.min_eq_left hfit
      have hU : packLenUnsigned rr = 16 + (n : Int) := by
        rw [hf] at hn
        unfold int32 at hn
        omega
      have hnn : (0 : Int) < (n : Int) := by exact_mod_cast hpos
      have hwhere : (16 < packLenUnsigned rr ∧ packLenUnsigned rr ≤ 1024) ∨
          (2147483648 ≤ packLenUnsigned rr ∧ packLenUnsigned rr < 2147483664) := by
        rw [hf] at hn
        unfold int32 at hn
        omega
      rw [heq]
      refine ⟨hrange, ?_, ⟨?_, ?_⟩, ⟨?_, ?_⟩⟩
      · intro _
        exact ⟨_, rfl, by rw [hlen]; exact hU⟩
      · intro hc
        exact absurd hc (Option.some_ne_none _)
      · intro hc
        omega
      · intro _
        omega
      · intro _
        show packLenUnsigned rr = 16 + ((List.take n (List.drop 16 rr)).length : Int)
        rw [hlen]
        exact hU
    · have hwhere : packLenUnsigned rr ≤ 16 ∨ 2147483664 ≤ packLenUnsigned rr := by
        rw [hf] at hnp
        unfold int32 at hnp
        omega
      rw [heq]
      refine ⟨hrange, ?_, ⟨?_, ?_⟩, ⟨?_, ?_⟩⟩
      · intro hc
        omega
      · intro _
        exact hwhere
      · intro _
        rfl
      · intro hc
        have hc2 : packLenUnsigned rr = 16 + (([] : List Byte).length : Int) := hc
        simp only [List.length_nil] at hc2
        omega
      · intro hc
        show packLenUnsigned rr = 16 + (([] : List Byte).length : Int)
        simp only [List.length_nil]
        omega
  · intro h16 hhdr hc
    have hnf := readTCPRequest_of_header rr p0 h16
    have c1 : ¬ packLenField rr > 1024 := by
      rw [hf]
      unfold int32
      omega
    have c2 : ¬ headerLenUnsigned rr ≠ 16 := fun h => h hhdr
    have c3 : ¬ int32 (packLenField rr - 16) > 0 := by
      rw [hf]
      unfold int32
      omega
    rw [if_neg c1, if_neg c2, if_neg c3] at hnf
    exact hnf

/-- Witness for C5: a frame that declares 18 bytes and carries a two-byte
body, and a header that declares 5 bytes. -/
theorem C5_length_consistency_witness :
    (∃ b, (readTCPRequest [0, 0, 0, 18, 0, 16, 0, 1, 0, 0, 0, 2, 0, 0, 0, 3, 7, 8]
        emptyProto).proto.Body = some b ∧
      packLenUnsigned [0, 0, 0, 18, 0, 16, 0, 1, 0, 0, 0, 2, 0, 0, 0, 3, 7, 8] =
        16 + (b.length : Int)) ∧
    readTCPRequest [0, 0, 0, 5, 0, 16, 0, 1, 0, 0, 0, 2, 0, 0, 0, 3, 7] emptyProto =
      ⟨none, [7], ⟨1, 2, 3, none⟩, []⟩ :=
  ⟨((C5_length_consistency [0, 0, 0, 18, 0, 16, 0, 1, 0, 0, 0, 2, 0, 0, 0, 3, 7, 8]
      emptyProto).1 (by decide)).2.1 (Or.inl ⟨by decide, by decide⟩),
    (C5_length_consistency [0, 0, 0, 5, 0, 16, 0, 1, 0, 0, 0, 2, 0, 0, 0, 3, 7]
      emptyProto).2 (by decide) (by decide) (Or.inl (by decide))⟩

/-! ## Claims C6-C8: the handshake -/

theorem callsSince_append (old delta : List Event) : callsSince old (old ++ delta) = delta := by
  simp [callsSince]

theorem callsSince_self (old : List Event) : callsSince old old = [] := by
  simp [callsSince]

theorem authTCP_bad_operation {σ : Type} (cfg : Config) (op : Operator σ) (w : World σ)
    (p : Proto) (hok : (readTCPRequest w.rr p).err = none)
    (hop : ¬ (readTCPRequest w.rr p).proto.Operation = cfg.OP_AUTH) :
    (authTCP cfg op w p).err = some Err.ErrOperation := by
  unfold authTCP
  simp only [hok, ne_eq, not_true_eq_false, if_false, hop, not_false_eq_true, if_true]

/-- C6 (handshake gate).  When the first frame of the stream decodes
successfully and its operation is not `OP_AUTH`, `authTCP` returns
`ErrOperation` (with the zero key and heartbeat); no call to a collaborator is
made, so `Connect` is not called and the operator state is unchanged; and the
writer is untouched, so no byte is written to the client. -/
theorem C6_handshake_gate {σ : Type} (cfg : Config) (op : Operator σ) (w : World σ) (p : Proto)
    (hok : (readTCPRequest w.rr p).err = none)
    (hop : (readTCPRequest w.rr p).proto.Operation ≠ cfg.OP_AUTH) :
    (authTCP cfg op w p).err = some Err.ErrOperation ∧
    (authTCP cfg op w p).subKey = "" ∧
    (authTCP cfg op w p).heartbeat = 0 ∧
    callsSince w.trace (authTCP cfg op w p).w.trace = [] ∧
    (authTCP cfg op w p).w.op = w.op ∧
    (authTCP cfg op w p).w.wr = w.wr := by
  have h : authTCP cfg op w p =
      ⟨"", 0, some Err.ErrOperation, { w with rr := (readTCPRequest w.rr p).rr },
        (readTCPRequest w.rr p).proto⟩ := by
    unfold authTCP
    simp only [hok, ne_eq, not_true_eq_false, if_false, hop, not_false_eq_true, if_true]
  rw [h]
  exact ⟨rfl, rfl, rfl, callsSince_self _, rfl, rfl⟩

/-- Witness for C6: the first frame is a heartbeat (operation 2, not 7). -/
theorem C6_handshake_gate_witness :
    (readTCPRequest (world0 (headerOnly 2)).rr emptyProto).err = none ∧
    (readTCPRequest (world0 (headerOnly 2)).rr emptyProto).proto.Operation ≠ cfg0.OP_AUTH ∧
    (authTCP cfg0 op0 (world0 (headerOnly 2)) emptyProto).err = some Err.ErrOperation :=
  ⟨by decide, by decide,
    (C6_handshake_gate cfg0 op0 (world0 (headerOnly 2)) emptyProto (by decide) (by decide)).1⟩

/-- Normal form of `authTCP` when the first frame is an `OP_AUTH` frame and
`Connect` succeeds. -/
theorem authTCP_connected {σ : Type} (cfg : Config) (op : Operator σ) (w : World σ) (p : Proto)
    (hok : (readTCPRequest w.rr p).err = none)
    (hop : (readTCPRequest w.rr p).proto.Operation = cfg.OP_AUTH)
    (hconn : (op.Connect w.op (readTCPRequest w.rr p).proto).2.2.2.2 = none) :
    authTCP cfg op w p =
      ⟨(op.Connect w.op (readTCPRequest w.rr p).proto).2.2.1,
        (op.Connect w.op (readTCPRequest w.rr p).proto).2.2.2.1,
        (writeTCPResponse w.wr
          { (op.Connect w.op (readTCPRequest w.rr p).proto).2.1 with
            Body := none, Operation := cfg.OP_AUTH_REPLY }).1,
        { w with
          rr := (readTCPRequest w.rr p).rr,
          op := (op.Connect w.op (readTCPRequest w.rr p).proto).1,
          wr := (writeTCPResponse w.wr
            { (op.Connect w.op (readTCPRequest w.rr p).proto).2.1 with
              Body := none, Operation := cfg.OP_AUTH_REPLY }).2,
          trace := w.trace ++ [Event.connect (readTCPRequest w.rr p).proto true] ++
            [Event.write
              { (op.Connect w.op (readTCPRequest w.rr p).proto).2.1 with
                Body := none, Operation := cfg.OP_AUTH_REPLY }
              ((writeTCPResponse w.wr
                { (op.Connect w.op (readTCPRequest w.rr p).proto).2.1 with
                  Body := none, Operation := cfg.OP_AUTH_REPLY }).1 = none)] },
        { (op.Connect w.op (readTCPRequest w.rr p).proto).2.1 with
          Body := none, Operation := cfg.OP_AUTH_REPLY }⟩ := by
  unfold authTCP
  simp only [hok, ne_eq, not_true_eq_false, if_false, hop, hconn, World.write, decide_True]

/-- C7 (handshake reply).  When the first frame decodes with operation
`OP_AUTH` and `Connect` succeeds without changing the frame's version or
sequence id, `authTCP` returns the key and the heartbeat `Connect` gave; the
one frame it hands to `writeTCPResponse` is the reply (the request's version
and sequence id, `OP_AUTH_REPLY`, no body), a frame of 16 bytes; and on a
writer that accepts the write, `authTCP` returns no error and exactly the
bytes of that frame have been flushed to the client. -/
theorem C7_handshake_reply {σ : Type} (cfg : Config) (op : Operator σ) (w : World σ) (p : Proto)
    (hok : (readTCPRequest w.rr p).err = none)
    (hop : (readTCPRequest w.rr p).proto.Operation = cfg.OP_AUTH)
    (hconn : (op.Connect w.op (readTCPRequest w.rr p).proto).2.2.2.2 = none)
    (hver : (op.Connect w.op (readTCPRequest w.rr p).proto).2.1.Ver =
      (readTCPRequest w.rr p).proto.Ver)
    (hseq : (op.Connect w.op (readTCPRequest w.rr p).proto).2.1.SeqId =
      (readTCPRequest w.rr p).proto.SeqId) :
    (authTCP cfg op w p).subKey = (op.Connect w.op (readTCPRequest w.rr p).proto).2.2.1 ∧
    (authTCP cfg op w p).heartbeat = (op.Connect w.op (readTCPRequest w.rr p).proto).2.2.2.1 ∧
    framesWritten (callsSince w.trace (authTCP cfg op w p).w.trace) =
      [authReply cfg (readTCPRequest w.rr p).proto] ∧
    (frameBytes (authReply cfg (readTCPRequest w.rr p).proto)).length = 16 ∧
    (w.wr.failAfter = none →
      (authTCP cfg op w p).err = none ∧
      (authTCP cfg op w p).w.wr.out =
        w.wr.out ++ (w.wr.buf ++ frameBytes (authReply cfg (readTCPRequest w.rr p).proto)) ∧
      (authTCP cfg op w p).w.wr.buf = []) := by
  have hreply : ({ (op.Connect w.op (readTCPRequest w.rr p).proto).2.1 with
      Body := none, Operation := cfg.OP_AUTH_REPLY } : Proto) =
      authReply cfg (readTCPRequest w.rr p).proto := by
    simp only [authReply, hver, hseq]
  rw [authTCP_connected cfg op w p hok hop hconn, hreply]
  refine ⟨rfl, rfl, ?_, ?_, ?_⟩
  · rw [List.append_assoc, callsSince_append]
    rfl
  · rw [frameBytes_length]
    rfl
  · intro hacc
    rw [writeTCPResponse_accepting _ _ hacc]
    exact ⟨rfl, rfl, rfl⟩

/-- Witness for C7: the first frame is an `OP_AUTH` frame (operation 7) and
the operator `op0` accepts it. -/
theorem C7_handshake_reply_witness :
    (readTCPRequest (world0 (headerOnly 7)).rr emptyProto).err = none ∧
    (authTCP cfg0 op0 (world0 (headerOnly 7)) emptyProto).subKey = "k" ∧
    (authTCP cfg0 op0 (world0 (headerOnly 7)) emptyProto).heartbeat = 5 ∧
    (authTCP cfg0 op0 (world0 (headerOnly 7)) emptyProto).err = none ∧
    (authTCP cfg0 op0 (world0 (headerOnly 7)) emptyProto).w.wr.out =
      [0, 0, 0, 16, 0, 16, 0, 1, 0, 0, 0, 8, 0, 0, 0, 3] :=
  have h := C7_handshake_reply cfg0 op0 (world0 (headerOnly 7)) emptyProto (by decide)
    (by decide) (by decide) (by decide) (by decide)
  ⟨by decide, h.1, h.2.1, (h.2.2.2.2 rfl).1, (h.2.2.2.2 rfl).2.1⟩

theorem timerAdd_frame {σ : Type} (w : World σ) (d : Nat) :
    (w.timerAdd d).2.2.rr = w.rr ∧ (w.timerAdd d).2.2.wr = w.wr ∧
    (w.timerAdd d).2.2.op = w.op ∧ (w.timerAdd d).2.2.closes = w.closes ∧
    (w.timerAdd d).2.2.registry = w.registry ∧
    (w.timerAdd d).2.2.trace = w.trace ++ [Event.timerAdd d (w.timerAdd d).1] := by
  unfold World.timerAdd
  split <;> exact ⟨rfl, rfl, rfl, rfl, rfl, rfl⟩

theorem timerDel_frame {σ : Type} (w : World σ) (trd : Option Nat) :
    (w.timerDel trd).rr = w.rr ∧ (w.timerDel trd).wr = w.wr ∧
    (w.timerDel trd).op = w.op ∧ (w.timerDel trd).closes = w.closes ∧
    (w.timerDel trd).registry = w.registry ∧
    (w.timerDel trd).trace = w.trace ++ [Event.timerDel trd] :=
  ⟨rfl, rfl, rfl, rfl, rfl, rfl⟩

/-- What `authTCP` leaves behind in every case: the calls it added are
`Connect` and write calls only, and it touches neither the socket nor the
registry. -/
theorem authTCP_frame {σ : Type} (cfg : Config) (op : Operator σ) (w : World σ) (p : Proto) :
    ∃ delta, (authTCP cfg op w p).w.trace = w.trace ++ delta ∧
      (∀ e ∈ delta, e.isHandshakeCall = true) ∧
      (authTCP cfg op w p).w.closes = w.closes ∧
      (authTCP cfg op w p).w.registry = w.registry := by
  by_cases hok : (readTCPRequest w.rr p).err = none
  swap
  · have h : authTCP cfg op w p =
        ⟨"", 0, (readTCPRequest w.rr p).err, { w with rr := (readTCPRequest w.rr p).rr },
          (readTCPRequest w.rr p).proto⟩ := by
      unfold authTCP
      simp only [ne_eq, hok, not_false_eq_true, if_true]
    rw [h]
    exact ⟨[], (List.append_nil _).symm, by simp, rfl, rfl⟩
  by_cases hop : (readTCPRequest w.rr p).proto.Operation = cfg.OP_AUTH
  swap
  · have h : authTCP cfg op w p =
        ⟨"", 0, some Err.ErrOperation, { w with rr := (readTCPRequest w.rr p).rr },
          (readTCPRequest w.rr p).proto⟩ := by
      unfold authTCP
      simp only [hok, ne_eq, not_true_eq_false, if_false, hop, not_false_eq_true, if_true]
    rw [h]
    exact ⟨[], (List.append_nil _).symm, by simp, rfl, rfl⟩
  by_cases hconn : (op.Connect w.op (readTCPRequest w.rr p).proto).2.2.2.2 = none
  swap
  · have h : authTCP cfg op w p =
        ⟨(op.Connect w.op (readTCPRequest w.rr p).proto).2.2.1,
          (op.Connect w.op (readTCPRequest w.rr p).proto).2.2.2.1,
          (op.Connect w.op (readTCPRequest w.rr p).proto).2.2.2.2,
          { w with rr := (readTCPRequest w.rr p).rr,
                   op := (op.Connect w.op (readTCPRequest w.rr p).proto).1,
                   trace := w.trace ++ [Event.connect (readTCPRequest w.rr p).proto false] },
          (op.Connect w.op (readTCPRequest w.rr p).proto).2.1⟩ := by
      unfold authTCP
      simp only [hok, ne_eq, not_true_eq_false, if_false, hop, hconn, not_false_eq_true,
        if_true, decide_False]
    rw [h]
    exact ⟨_, rfl, by simp [Event.isHandshakeCall], rfl, rfl⟩
  rw [authTCP_connected cfg op w p hok hop hconn]
  exact ⟨_, List.append_assoc _ _ _, by simp [Event.isHandshakeCall], rfl, rfl⟩

/-- What the handshake of `serveTCP` leaves behind in every case. -/
theorem handshake_frame {σ : Type} (cfg : Config) (op : Operator σ) (w : World σ) :
    ∃ delta, (serveTCP.handshake cfg op w).w.trace = w.trace ++ delta ∧
      (∀ e ∈ delta, e.isHandshakeCall = true) ∧
      (serveTCP.handshake cfg op w).w.closes = w.closes ∧
      (serveTCP.handshake cfg op w).w.registry = w.registry := by
  obtain ⟨hrr, hwr, hop, hcl, hreg, htr⟩ := timerAdd_frame w cfg.HandshakeTimeout
  by_cases hadd : (w.timerAdd cfg.HandshakeTimeout).2.1 = none
  swap
  · have h : serveTCP.handshake cfg op w =
        ⟨"", 0, (w.timerAdd cfg.HandshakeTimeout).2.1, (w.timerAdd cfg.HandshakeTimeout).2.2,
          emptyProto⟩ := by
      unfold serveTCP.handshake
      simp only [ne_eq, hadd, not_false_eq_true, if_true]
    rw [h]
    exact ⟨_, htr, by simp [Event.isHandshakeCall], hcl, hreg⟩
  have h : serveTCP.handshake cfg op w =
      { authTCP cfg op (w.timerAdd cfg.HandshakeTimeout).2.2 emptyProto with
        w := (authTCP cfg op (w.timerAdd cfg.HandshakeTimeout).2.2 emptyProto).w.timerDel
          (w.timerAdd cfg.HandshakeTimeout).1 } := by
    unfold serveTCP.handshake
    simp only [ne_eq, hadd, not_true_eq_false, if_false]
  obtain ⟨delta, hd, hall, hc, hr⟩ :=
    authTCP_frame cfg op (w.timerAdd cfg.HandshakeTimeout).2.2 emptyProto
  rw [h]
  refine ⟨[Event.timerAdd cfg.HandshakeTimeout (w.timerAdd cfg.HandshakeTimeout).1] ++ delta ++
      [Event.timerDel (w.timerAdd cfg.HandshakeTimeout).1], ?_, ?_, ?_, ?_⟩
  · show (authTCP cfg op (w.timerAdd cfg.HandshakeTimeout).2.2 emptyProto).w.trace ++
        [Event.timerDel (w.timerAdd cfg.HandshakeTimeout).1] = _
    rw [hd, htr]
    simp only [List.append_assoc]
  · intro e he
    simp only [List.mem_append, List.mem_singleton] at he
    rcases he with (he | he) | he
    · subst he; rfl
    · exact hall e he
    · subst he; rfl
  · show (authTCP cfg op (w.timerAdd cfg.HandshakeTimeout).2.2 emptyProto).w.closes = _
    rw [hc, hcl]
  · show (authTCP cfg op (w.timerAdd cfg.HandshakeTimeout).2.2 emptyProto).w.registry = _
    rw [hr, hreg]

theorem isHandshakeCall_not_registration (e : Event) (h : e.isHandshakeCall = true) :
    e.isBucketPut = false ∧ e.isGoDispatch = false ∧ e.isDisconnect = false ∧
      e.isConnClose = false := by
  cases e <;> simp_all [Event.isHandshakeCall, Event.isBucketPut, Event.isGoDispatch,
    Event.isDisconnect, Event.isConnClose]

/-- The handshake of `serveTCP` fails exactly when scheduling the handshake
timer fails, or the first frame cannot be decoded, or its operation is not
`OP_AUTH`, or `Connect` returns an error, or writing the reply fails. -/
theorem handshake_fails_iff {σ : Type} (cfg : Config) (op : Operator σ) (w : World σ) :
    (serveTCP.handshake cfg op w).err ≠ none ↔
      ((w.timerAdd cfg.HandshakeTimeout).2.1 ≠ none ∨
       (readTCPRequest w.rr emptyProto).err ≠ none ∨
       (readTCPRequest w.rr emptyProto).proto.Operation ≠ cfg.OP_AUTH ∨
       (op.Connect w.op (readTCPRequest w.rr emptyProto).proto).2.2.2.2 ≠ none ∨
       (writeTCPResponse w.wr
          { (op.Connect w.op (readTCPRequest w.rr emptyProto).proto).2.1 with
            Body := none, Operation := cfg.OP_AUTH_REPLY }).1 ≠ none) := by
  obtain ⟨hrr, hwr, hop, -, -, -⟩ := timerAdd_frame w cfg.HandshakeTimeout
  by_cases hadd : (w.timerAdd cfg.HandshakeTimeout).2.1 = none
  swap
  · have h : serveTCP.handshake cfg op w =
        ⟨"", 0, (w.timerAdd cfg.HandshakeTimeout).2.1, (w.timerAdd cfg.HandshakeTimeout).2.2,
          emptyProto⟩ := by
      unfold serveTCP.handshake
      simp only [ne_eq, hadd, not_false_eq_true, if_true]
    rw [h]
    exact ⟨fun _ => Or.inl hadd, fun _ => hadd⟩
  have h : (serveTCP.handshake cfg op w).err =
      (authTCP cfg op (w.timerAdd cfg.HandshakeTimeout).2.2 emptyProto).err := by
    unfold serveTCP.handshake
    simp only [ne_eq, hadd, not_true_eq_false, if_false]
  rw [h]
  generalize (w.timerAdd cfg.HandshakeTimeout).2.2 = w1 at hrr hwr hop
  by_cases hok : (readTCPRequest w1.rr emptyProto).err = none
  swap
  · have h2 : (authTCP cfg op w1 emptyProto).err = (readTCPRequest w1.rr emptyProto).err := by
      unfold authTCP
      simp only [ne_eq, hok, not_false_eq_true, if_true]
    rw [h2]
    rw [hrr] at hok ⊢
    exact ⟨fun _ => Or.inr (Or.inl hok), fun _ => hok⟩
  by_cases hopc : (readTCPRequest w1.rr emptyProto).proto.Operation = cfg.OP_AUTH
  swap
  · have h2 := (authTCP_bad_operation cfg op w1 emptyProto hok hopc)
    rw [h2]
    rw [hrr] at hopc
    exact ⟨fun _ => Or.inr (Or.inr (Or.inl hopc)), fun _ => Option.some_ne_none _⟩
  by_cases hconn : (op.Connect w1.op (readTCPRequest w1.rr emptyProto).proto).2.2.2.2 = none
  swap
  · have h2 : (authTCP cfg op w1 emptyProto).err =
        (op.Connect w1.op (readTCPRequest w1.rr emptyProto).proto).2.2.2.2 := by
      unfold authTCP
      simp only [hok, ne_eq, not_true_eq_false, if_false, hopc, hconn, not_false_eq_true,
        if_true]
    rw [h2]
    rw [hrr, hop] at hconn ⊢
    exact ⟨fun _ => Or.inr (Or.inr (Or.inr (Or.inl hconn))), fun _ => hconn⟩
  rw [authTCP_connected cfg op w1 emptyProto hok hopc hconn]
  rw [hrr] at hok hopc hconn ⊢
  rw [hop] at hconn ⊢
  rw [hwr]
  constructor
  · intro hw
    exact Or.inr (Or.inr (Or.inr (Or.inr hw)))
  · intro hc
    rcases hc with hc | hc | hc | hc | hc
    · exact absurd hadd hc
    · exact absurd hok hc
    · exact absurd hopc hc
    · exact absurd hconn hc
    · exact hc

/-- C8 (no half-registration).  In every run of `serveTCP` in which the
handshake fails (see `handshake_fails_iff` for the five ways), none of the
calls `serveTCP` makes is a `b.Put`, a start of the dispatch goroutine or an
`operator.Disconnect`; the registry is as it was; and the last thing
`serveTCP` does before it returns is `conn.Close()`, which is its only
close. -/
theorem C8_no_half_registration {σ : Type} (cfg : Config) (op : Operator σ) (w : World σ)
    (hfail : (serveTCP.handshake cfg op w).err ≠ none) :
    (∀ e ∈ callsSince w.trace (serveTCP cfg op w).trace,
      e.isBucketPut = false ∧ e.isGoDispatch = false ∧ e.isDisconnect = false) ∧
    (serveTCP cfg op w).registry = w.registry ∧
    (serveTCP cfg op w).trace.getLast? = some (Event.connClose (decide (w.closes = 0))) ∧
    ((callsSince w.trace (serveTCP cfg op w).trace).filter Event.isConnClose).length = 1 ∧
    (serveTCP cfg op w).closes = w.closes + 1 := by
  have h : serveTCP cfg op w = (serveTCP.handshake cfg op w).w.connClose.2 := by
    unfold serveTCP
    simp only [hfail, ne_eq, not_false_eq_true, if_true]
  obtain ⟨delta, hd, hall, hc, hr⟩ := handshake_frame cfg op w
  have htr : (serveTCP cfg op w).trace =
      w.trace ++ (delta ++ [Event.connClose (decide (w.closes = 0))]) := by
    rw [h]
    show (serveTCP.handshake cfg op w).w.trace ++
      [Event.connClose (decide ((serveTCP.handshake cfg op w).w.closes = 0))] = _
    rw [hd, hc, List.append_assoc]
  refine ⟨?_, ?_, ?_, ?_, ?_⟩
  · rw [htr, callsSince_append]
    intro e he
    simp only [List.mem_append, List.mem_singleton] at he
    rcases he with he | he
    · have := isHandshakeCall_not_registration e (hall e he)
      exact ⟨this.1, this.2.1, this.2.2.1⟩
    · subst he
      exact ⟨rfl, rfl, rfl⟩
  · rw [h]
    exact hr
  · rw [htr, ← List.append_assoc, List.getLast?_append]
    rfl
  · rw [htr, callsSince_append, List.filter_append]
    have hnone : delta.filter Event.isConnClose = [] := by
      rw [List.filter_eq_nil_iff]
      intro e he
      have := isHandshakeCall_not_registration e (hall e he)
      simp [this.2.2.2]
    rw [hnone]
    rfl
  · rw [h]
    show (serveTCP.handshake cfg op w).w.closes + 1 = _
    rw [hc]

/-- Witness for C8: the first frame is a heartbeat, so the handshake fails. -/
theorem C8_no_half_registration_witness :
    (serveTCP.handshake cfg0 op0 (world0 (headerOnly 2))).err ≠ none ∧
    (serveTCP cfg0 op0 (world0 (headerOnly 2))).registry = [] ∧
    (serveTCP cfg0 op0 (world0 (headerOnly 2))).closes = 1 :=
  have h := C8_no_half_registration cfg0 op0 (world0 (headerOnly 2)) (by decide)
  ⟨by decide, h.2.1, h.2.2.2.2⟩

/-! ## Claims C9-C10: heartbeats in the write task -/

/-- The last step of `cliFrame` (source lines 147-151) from a state `b` that
carries no error: write the frame, then advance the queue. -/
theorem cliFrame_tail {σ : Type} (w : World σ) (trd : Option Nat) (q : Proto) :
    (if (⟨none, w, trd, q⟩ : FrameOut σ).err ≠ none then (⟨none, w, trd, q⟩ : FrameOut σ)
      else if (w.write q).1 ≠ none then ⟨(w.write q).1, (w.write q).2, trd, q⟩
      else ⟨none, (w.write q).2.log Event.cliGetAdv, trd, q⟩) =
    (if (writeTCPResponse w.wr q).1 = none then
      ⟨none, { w with wr := (writeTCPResponse w.wr q).2,
                      trace := w.trace ++ [Event.write q true] ++ [Event.cliGetAdv] }, trd, q⟩
    else
      ⟨(writeTCPResponse w.wr q).1,
        { w with wr := (writeTCPResponse w.wr q).2,
                 trace := w.trace ++ [Event.write q false] }, trd, q⟩) := by
  by_cases hw : (writeTCPResponse w.wr q).1 = none
  · simp [World.write, World.log, hw]
  · simp [World.write, World.log, hw]

theorem cliFrame_tail2 {σ : Type} (w : World σ) (trd : Option Nat) (q : Proto) :
    (if ¬ (w.write q).1 = none then (⟨(w.write q).1, (w.write q).2, trd, q⟩ : FrameOut σ)
      else ⟨none, (w.write q).2.log Event.cliGetAdv, trd, q⟩) =
    (if (writeTCPResponse w.wr q).1 = none then
      ⟨none, { w with wr := (writeTCPResponse w.wr q).2,
                      trace := w.trace ++ [Event.write q true] ++ [Event.cliGetAdv] }, trd, q⟩
    else
      ⟨(writeTCPResponse w.wr q).1,
        { w with wr := (writeTCPResponse w.wr q).2,
                 trace := w.trace ++ [Event.write q false] }, trd, q⟩) := by
  by_cases hw : (writeTCPResponse w.wr q).1 = none
  · simp [World.write, World.log, hw]
  · simp [World.write, World.log, hw]

/-- Normal form of `cliFrame` on a heartbeat when `Lazy` answers `true`. -/
theorem cliFrame_heartbeat_lazy {σ : Type} (cfg : Config) (op : Operator σ) (hb : Nat)
    (w : World σ) (trd : Option Nat) (p : Proto) (hhb : p.Operation = cfg.OP_HEARTBEAT)
    (hl : w.tm.lazyAnswers.headD false = true) :
    dispatchTCP.cliFrame cfg op hb w trd p =
      (if (writeTCPResponse w.wr (heartbeatReply cfg p)).1 = none then
        ⟨none, { (w.timerLazy trd hb).2 with
                  wr := (writeTCPResponse w.wr (heartbeatReply cfg p)).2,
                  trace := w.trace ++ [Event.timerLazy trd hb true] ++
                    [Event.write (heartbeatReply cfg p) true] ++ [Event.cliGetAdv] },
          trd, heartbeatReply cfg p⟩
      else
        ⟨(writeTCPResponse w.wr (heartbeatReply cfg p)).1,
          { (w.timerLazy trd hb).2 with
            wr := (writeTCPResponse w.wr (heartbeatReply cfg p)).2,
            trace := w.trace ++ [Event.timerLazy trd hb true] ++
              [Event.write (heartbeatReply cfg p) false] },
          trd, heartbeatReply cfg p⟩) := by
  unfold dispatchTCP.cliFrame
  have h1 : (w.timerLazy trd hb).1 = true := hl
  simp only [hhb, if_true, h1, Bool.true_eq_false, if_false]
  rw [cliFrame_tail]
  simp only [World.timerLazy, hl, heartbeatReply]

theorem afterDel_frame {σ : Type} (w : World σ) (trd : Option Nat) (hb : Nat) :
    (afterDel w trd hb).wr = w.wr ∧ (afterDel w trd hb).op = w.op ∧
    (afterDel w trd hb).trace =
      w.trace ++ [Event.timerLazy trd hb (w.tm.lazyAnswers.headD false)] ++
        [Event.timerDel trd] ∧
    (afterDel w trd hb).tm.addFaults = w.tm.addFaults :=
  ⟨rfl, rfl, rfl, rfl⟩

/-- Normal form of `cliFrame` on a heartbeat when `Lazy` answers `false` and
the new `Add` fails: nothing is written. -/
theorem cliFrame_heartbeat_renew_fail {σ : Type} (cfg : Config) (op : Operator σ) (hb : Nat)
    (w : World σ) (trd : Option Nat) (p : Proto) (hhb : p.Operation = cfg.OP_HEARTBEAT)
    (hl : w.tm.lazyAnswers.headD false = false)
    (hadd : ((afterDel w trd hb).timerAdd hb).2.1 ≠ none) :
    dispatchTCP.cliFrame cfg op hb w trd p =
      ⟨((afterDel w trd hb).timerAdd hb).2.1, ((afterDel w trd hb).timerAdd hb).2.2,
        ((afterDel w trd hb).timerAdd hb).1, p⟩ := by
  unfold dispatchTCP.cliFrame
  have h1 : (w.timerLazy trd hb).1 = false := hl
  have h2 : (w.timerLazy trd hb).2.timerDel trd = afterDel w trd hb := rfl
  simp only [hhb, if_true, h1, h2, ne_eq, hadd, not_false_eq_true]

/-- Normal form of `cliFrame` on a heartbeat when `Lazy` answers `false` and
the new `Add` succeeds. -/
theorem cliFrame_heartbeat_renew {σ : Type} (cfg : Config) (op : Operator σ) (hb : Nat)
    (w : World σ) (trd : Option Nat) (p : Proto) (hhb : p.Operation = cfg.OP_HEARTBEAT)
    (hl : w.tm.lazyAnswers.headD false = false)
    (hadd : ((afterDel w trd hb).timerAdd hb).2.1 = none) :
    dispatchTCP.cliFrame cfg op hb w trd p =
      (if (writeTCPResponse w.wr (heartbeatReply cfg p)).1 = none then
        ⟨none, { ((afterDel w trd hb).timerAdd hb).2.2 with
                  wr := (writeTCPResponse w.wr (heartbeatReply cfg p)).2,
                  trace := w.trace ++ [Event.timerLazy trd hb false] ++ [Event.timerDel trd] ++
                    [Event.timerAdd hb ((afterDel w trd hb).timerAdd hb).1] ++
                    [Event.write (heartbeatReply cfg p) true] ++ [Event.cliGetAdv] },
          ((afterDel w trd hb).timerAdd hb).1, heartbeatReply cfg p⟩
      else
        ⟨(writeTCPResponse w.wr (heartbeatReply cfg p)).1,
          { ((afterDel w trd hb).timerAdd hb).2.2 with
            wr := (writeTCPResponse w.wr (heartbeatReply cfg p)).2,
            trace := w.trace ++ [Event.timerLazy trd hb false] ++ [Event.timerDel trd] ++
              [Event.timerAdd hb ((afterDel w trd hb).timerAdd hb).1] ++
              [Event.write (heartbeatReply cfg p) false] },
          ((afterDel w trd hb).timerAdd hb).1, heartbeatReply cfg p⟩) := by
  unfold dispatchTCP.cliFrame
  have h1 : (w.timerLazy trd hb).1 = false := hl
  have h2 : (w.timerLazy trd hb).2.timerDel trd = afterDel w trd hb := rfl
  obtain ⟨-, hwr, -, -, -, htr⟩ := timerAdd_frame (afterDel w trd hb) hb
  have htr2 : ((afterDel w trd hb).timerAdd hb).2.2.trace =
      w.trace ++ [Event.timerLazy trd hb false] ++ [Event.timerDel trd] ++
        [Event.timerAdd hb ((afterDel w trd hb).timerAdd hb).1] := by
    rw [htr, (afterDel_frame w trd hb).2.2.1, hl]
  have hwr2 : ((afterDel w trd hb).timerAdd hb).2.2.wr = w.wr := hwr
  simp only [hhb, if_true, h1, h2, ne_eq, hadd, not_true_eq_false, if_false]
  have ht := cliFrame_tail2 ((afterDel w trd hb).timerAdd hb).2.2
    ((afterDel w trd hb).timerAdd hb).1 (heartbeatReply cfg p)
  rw [hwr2, htr2] at ht
  exact ht

/-- Everything `cliFrame` does with a heartbeat: first the timer part `pre`
(the `Lazy` query, and on `false` one `Del` of the handle in use and one
`Add`), then the write part `post` (nothing when the `Add` failed, else the
write of the reply and, when it succeeded, the advance of the queue). -/
theorem cliFrame_heartbeat_summary {σ : Type} (cfg : Config) (op : Operator σ) (hb : Nat)
    (w : World σ) (trd : Option Nat) (p : Proto) (hhb : p.Operation = cfg.OP_HEARTBEAT) :
    ∃ pre post,
      (dispatchTCP.cliFrame cfg op hb w trd p).w.trace = w.trace ++ (pre ++ post) ∧
      ((w.tm.lazyAnswers.headD false = true ∧ pre = [Event.timerLazy trd hb true] ∧
          (dispatchTCP.cliFrame cfg op hb w trd p).trd = trd) ∨
        (w.tm.lazyAnswers.headD false = false ∧
          pre = [Event.timerLazy trd hb false, Event.timerDel trd,
            Event.timerAdd hb (dispatchTCP.cliFrame cfg op hb w trd p).trd])) ∧
      ((post = [] ∧ (dispatchTCP.cliFrame cfg op hb w trd p).err ≠ none) ∨
        (post = [Event.write (heartbeatReply cfg p) false] ∧
          (dispatchTCP.cliFrame cfg op hb w trd p).err ≠ none) ∨
        (post = [Event.write (heartbeatReply cfg p) true, Event.cliGetAdv] ∧
          (dispatchTCP.cliFrame cfg op hb w trd p).err = none ∧
          (writeTCPResponse w.wr (heartbeatReply cfg p)).1 = none ∧
          (dispatchTCP.cliFrame cfg op hb w trd p).w.wr =
            (writeTCPResponse w.wr (heartbeatReply cfg p)).2)) ∧
      (dispatchTCP.cliFrame cfg op hb w trd p).w.op = w.op := by
  cases hl : w.tm.lazyAnswers.headD false
  · by_cases hadd : ((afterDel w trd hb).timerAdd hb).2.1 = none
    · rw [cliFrame_heartbeat_renew cfg op hb w trd p hhb hl hadd]
      have hop := (timerAdd_frame (afterDel w trd hb) hb).2.2.1
      by_cases hw : (writeTCPResponse w.wr (heartbeatReply cfg p)).1 = none
      · rw [if_pos hw]
        refine ⟨_, [Event.write (heartbeatReply cfg p) true, Event.cliGetAdv], ?_,
          Or.inr ⟨rfl, rfl⟩, Or.inr (Or.inr ⟨rfl, rfl, hw, rfl⟩), hop⟩
        simp only [List.append_assoc, List.singleton_append, List.cons_append, List.nil_append]
      · rw [if_neg hw]
        refine ⟨_, [Event.write (heartbeatReply cfg p) false], ?_,
          Or.inr ⟨rfl, rfl⟩, Or.inr (Or.inl ⟨rfl, hw⟩), hop⟩
        simp only [List.append_assoc, List.singleton_append, List.cons_append, List.nil_append]
    · rw [cliFrame_heartbeat_renew_fail cfg op hb w trd p hhb hl hadd]
      have hfr := timerAdd_frame (afterDel w trd hb) hb
      refine ⟨_, [], ?_, Or.inr ⟨rfl, rfl⟩, Or.inl ⟨rfl, hadd⟩, hfr.2.2.1⟩
      show ((afterDel w trd hb).timerAdd hb).2.2.trace = _
      rw [hfr.2.2.2.2.2, (afterDel_frame w trd hb).2.2.1, hl]
      simp only [List.append_assoc, List.singleton_append, List.cons_append, List.nil_append,
        List.append_nil]
  · rw [cliFrame_heartbeat_lazy cfg op hb w trd p hhb hl]
    by_cases hw : (writeTCPResponse w.wr (heartbeatReply cfg p)).1 = none
    · rw [if_pos hw]
      refine ⟨_, [Event.write (heartbeatReply cfg p) true, Event.cliGetAdv], ?_,
        Or.inl ⟨rfl, rfl, rfl⟩, Or.inr (Or.inr ⟨rfl, rfl, hw, rfl⟩), rfl⟩
      simp only [List.append_assoc, List.singleton_append, List.cons_append, List.nil_append]
    · rw [if_neg hw]
      refine ⟨_, [Event.write (heartbeatReply cfg p) false], ?_,
        Or.inl ⟨rfl, rfl, rfl⟩, Or.inr (Or.inl ⟨rfl, hw⟩), rfl⟩
      simp only [List.append_assoc, List.singleton_append, List.cons_append, List.nil_append]

/-- C9 (heartbeat transform).  For every frame with operation `OP_HEARTBEAT`
that `dispatchTCP` takes from the client queue: none of the calls made for it
is an `Operate` and the operator state is unchanged; every frame handed to
`writeTCPResponse` for it is the reply, which has no body, operation
`OP_HEARTBEAT_REPLY` and the version and sequence id of the received frame,
and encodes to 16 bytes; and when the step ends without error the reply was
written exactly once, on an accepting writer as exactly its frame bytes. -/
theorem C9_heartbeat_transform {σ : Type} (cfg : Config) (op : Operator σ) (hb : Nat)
    (w : World σ) (trd : Option Nat) (p : Proto) (hhb : p.Operation = cfg.OP_HEARTBEAT) :
    (∀ e ∈ callsSince w.trace (dispatchTCP.cliFrame cfg op hb w trd p).w.trace,
      e.isOperate = false) ∧
    (dispatchTCP.cliFrame cfg op hb w trd p).w.op = w.op ∧
    (∀ q ∈ framesWritten (callsSince w.trace (dispatchTCP.cliFrame cfg op hb w trd p).w.trace),
      q = heartbeatReply cfg p) ∧
    (heartbeatReply cfg p).Body = none ∧
    (heartbeatReply cfg p).Operation = cfg.OP_HEARTBEAT_REPLY ∧
    (heartbeatReply cfg p).Ver = p.Ver ∧ (heartbeatReply cfg p).SeqId = p.SeqId ∧
    (frameBytes (heartbeatReply cfg p)).length = 16 ∧
    ((dispatchTCP.cliFrame cfg op hb w trd p).err = none →
      framesWritten (callsSince w.trace (dispatchTCP.cliFrame cfg op hb w trd p).w.trace) =
        [heartbeatReply cfg p] ∧
      (w.wr.failAfter = none →
        (dispatchTCP.cliFrame cfg op hb w trd p).w.wr.out =
          w.wr.out ++ (w.wr.buf ++ frameBytes (heartbeatReply cfg p)))) := by
  obtain ⟨pre, post, htr, hpre, hpost, hop⟩ := cliFrame_heartbeat_summary cfg op hb w trd p hhb
  rw [htr, callsSince_append]
  have hpreW : framesWritten (pre ++ post) = framesWritten post := by
    rcases hpre with ⟨-, h, -⟩ | ⟨-, h⟩ <;> subst h <;> rfl
  have hpreO : ∀ e ∈ pre, e.isOperate = false := by
    rcases hpre with ⟨-, h, -⟩ | ⟨-, h⟩
    · subst h
      intro e he
      simp only [List.mem_singleton] at he
      subst he
      rfl
    · subst h
      intro e he
      simp only [List.mem_cons, List.mem_singleton, List.not_mem_nil, or_false] at he
      rcases he with he | he | he <;> subst he <;> rfl
  refine ⟨?_, hop, ?_, rfl, rfl, rfl, rfl, ?_, ?_⟩
  · intro e he
    rcases List.mem_append.mp he with he | he
    · exact hpreO e he
    · rcases hpost with ⟨h, -⟩ | ⟨h, -⟩ | ⟨h, -⟩
      · subst h
        exact absurd he (List.not_mem_nil e)
      · subst h
        simp only [List.mem_singleton] at he
        subst he
        rfl
      · subst h
        simp only [List.mem_cons, List.mem_singleton, List.not_mem_nil, or_false] at he
        rcases he with he | he <;> subst he <;> rfl
  · rw [hpreW]
    intro q hq
    rcases hpost with ⟨h, -⟩ | ⟨h, -⟩ | ⟨h, -⟩
    · subst h
      exact absurd hq (List.not_mem_nil q)
    · subst h
      simp only [framesWritten, List.mem_singleton] at hq
      exact hq
    · subst h
      simp only [framesWritten, List.mem_singleton] at hq
      exact hq
  · rw [frameBytes_length]
    rfl
  · intro herr
    rw [hpreW]
    rcases hpost with ⟨-, h⟩ | ⟨-, h⟩ | ⟨h, -, hw, hwr⟩
    · exact absurd herr h
    · exact absurd herr h
    · subst h
      refine ⟨rfl, ?_⟩
      intro hacc
      rw [hwr, writeTCPResponse_accepting _ _ hacc]

/-- Witness for C9: a heartbeat on a fresh connection. -/
theorem C9_heartbeat_transform_witness :
    heartbeat0.Operation = cfg0.OP_HEARTBEAT ∧
    (dispatchTCP.cliFrame cfg0 op0 5 (world0 []) (some 0) heartbeat0).err = none ∧
    (dispatchTCP.cliFrame cfg0 op0 5 (world0 []) (some 0) heartbeat0).w.wr.out =
      [0, 0, 0, 16, 0, 16, 0, 1, 0, 0, 0, 3, 0, 0, 0, 3] :=
  ⟨rfl, by decide,
    ((C9_heartbeat_transform cfg0 op0 5 (world0 []) (some 0) heartbeat0 rfl).2.2.2.2.2.2.2.2
      (by decide)).2 rfl⟩

/-- C10 (lazy renewal).  For every heartbeat frame `dispatchTCP` processes: if
`Lazy(hb)` of the handle in use answers `true`, no `tr.Del` and no `tr.Add` is
called and the handle in use afterwards is the same; if it answers `false`,
the timer calls are exactly one `Del` of the handle in use followed by one
`Add(hb, conn)`, and the handle in use afterwards is the one that `Add`
returned. -/
theorem C10_lazy_renewal {σ : Type} (cfg : Config) (op : Operator σ) (hb : Nat)
    (w : World σ) (trd : Option Nat) (p : Proto) (hhb : p.Operation = cfg.OP_HEARTBEAT) :
    (w.tm.lazyAnswers.headD false = true →
      (callsSince w.trace (dispatchTCP.cliFrame cfg op hb w trd p).w.trace).filter
          Event.isTimerCall = [] ∧
      (dispatchTCP.cliFrame cfg op hb w trd p).trd = trd) ∧
    (w.tm.lazyAnswers.headD false = false →
      (callsSince w.trace (dispatchTCP.cliFrame cfg op hb w trd p).w.trace).filter
          Event.isTimerCall =
        [Event.timerDel trd,
          Event.timerAdd hb (dispatchTCP.cliFrame cfg op hb w trd p).trd] ∧
      (dispatchTCP.cliFrame cfg op hb w trd p).trd = ((afterDel w trd hb).timerAdd hb).1) := by
  obtain ⟨pre, post, htr, hpre, hpost, -⟩ := cliFrame_heartbeat_summary cfg op hb w trd p hhb
  rw [htr, callsSince_append, List.filter_append]
  have hpostT : post.filter Event.isTimerCall = [] := by
    rcases hpost with ⟨h, -⟩ | ⟨h, -⟩ | ⟨h, -⟩ <;> subst h <;> rfl
  rw [hpostT, List.append_nil]
  constructor
  · intro hl
    rcases hpre with ⟨-, h, ht⟩ | ⟨hl2, -⟩
    · subst h
      exact ⟨rfl, ht⟩
    · rw [hl] at hl2
      exact absurd hl2 (by decide)
  · intro hl
    rcases hpre with ⟨hl2, -, -⟩ | ⟨-, h⟩
    · rw [hl] at hl2
      exact absurd hl2 (by decide)
    · subst h
      refine ⟨rfl, ?_⟩
      by_cases hadd : ((afterDel w trd hb).timerAdd hb).2.1 = none
      · rw [cliFrame_heartbeat_renew cfg op hb w trd p hhb hl hadd]
        by_cases hw : (writeTCPResponse w.wr (heartbeatReply cfg p)).1 = none
        · rw [if_pos hw]
        · rw [if_neg hw]
      · rw [cliFrame_heartbeat_renew_fail cfg op hb w trd p hhb hl hadd]

/-- Witness for C10: one heartbeat inside the lazy window, one outside. -/
theorem C10_lazy_renewal_witness :
    heartbeat0.Operation = cfg0.OP_HEARTBEAT ∧
    worldLazy.tm.lazyAnswers.headD false = true ∧
    (dispatchTCP.cliFrame cfg0 op0 5 worldLazy (some 0) heartbeat0).trd = some 0 ∧
    (world0 []).tm.lazyAnswers.headD false = false ∧
    (callsSince (world0 []).trace
        (dispatchTCP.cliFrame cfg0 op0 5 (world0 []) (some 7) heartbeat0).w.trace).filter
      Event.isTimerCall = [Event.timerDel (some 7), Event.timerAdd 5 (some 0)] :=
  ⟨rfl, rfl, ((C10_lazy_renewal cfg0 op0 5 worldLazy (some 0) heartbeat0 rfl).1 rfl).2, rfl,
    ((C10_lazy_renewal cfg0 op0 5 (world0 []) (some 7) heartbeat0 rfl).2 rfl).1⟩

/-! ## Claims C18-C19: slots and framing -/

/-- A successful decode does not depend on what the slot held: with any other
slot the call succeeds too, leaves the same frame and the same unread rest. -/
theorem readTCPRequest_slot_independent (rr : List Byte) (p1 p2 : Proto)
    (hok : (readTCPRequest rr p1).err = none) :
    (readTCPRequest rr p2).err = none ∧
    (readTCPRequest rr p2).proto = (readTCPRequest rr p1).proto ∧
    (readTCPRequest rr p2).rr = (readTCPRequest rr p1).rr := by
  obtain ⟨h16, hle, hhdr, hcase⟩ := readTCPRequest_ok_inv rr p1 hok
  have hnf := readTCPRequest_of_header rr p2 h16
  rw [if_neg (by omega : ¬ packLenField rr > 1024),
    if_neg (by omega : ¬ headerLenUnsigned rr ≠ 16)] at hnf
  rcases hcase with ⟨n, hn, hpos, hfit, heq⟩ | ⟨hnp, heq⟩
  · have hgt : int32 (packLenField rr - 16) > 0 := by omega
    have ht : (int32 (packLenField rr - 16)).toNat = n := by omega
    rw [if_pos hgt, ht, if_pos hfit] at hnf
    rw [hnf, heq]
    exact ⟨rfl, rfl, rfl⟩
  · rw [if_neg (by omega : ¬ int32 (packLenField rr - 16) > 0)] at hnf
    rw [hnf, heq]
    exact ⟨rfl, rfl, rfl⟩

/-- C18 (reused slots do not leak).  For every input stream and any two
initial contents `p1`, `p2` of the slot: if the decode into `p1` succeeds, so
does the decode into `p2`, and both leave the same frame (version, operation,
sequence id and body) in the slot; when the declared body length
`packLen - 16` is not positive the body is `nil` whatever the slot held; and a
decoded body is never a present buffer of length zero. -/
theorem C18_reused_slots (rr : List Byte) (p1 p2 : Proto)
    (hok : (readTCPRequest rr p1).err = none) :
    (readTCPRequest rr p2).err = none ∧
    (readTCPRequest rr p1).proto = (readTCPRequest rr p2).proto ∧
    (int32 (packLenField rr - 16) ≤ 0 → (readTCPRequest rr p1).proto.Body = none) ∧
    (readTCPRequest rr p1).proto.Body ≠ some [] := by
  obtain ⟨h2, hp, -⟩ := readTCPRequest_slot_independent rr p1 p2 hok
  obtain ⟨h16, hle, hhdr, hcase⟩ := readTCPRequest_ok_inv rr p1 hok
  refine ⟨h2, hp.symm, ?_, ?_⟩
  · intro hnp
    rcases hcase with ⟨n, hn, hpos, hfit, heq⟩ | ⟨_, heq⟩
    · omega
    · rw [heq]
  · rcases hcase with ⟨n, hn, hpos, hfit, heq⟩ | ⟨_, heq⟩
    · rw [heq]
      show some (List.take n (List.drop 16 rr)) ≠ some []
      intro hc
      have hlen : (List.take n (List.drop 16 rr)).length = n := by
        rw [List.length_take]; exact Nat.min_eq_left hfit
      rw [Option.some.inj hc] at hlen
      simp only [List.length_nil] at hlen
      omega
    · rw [heq]
      exact fun hc => Option.noConfusion hc

/-- Witness for C18: a header-only frame decoded into a fresh slot and into a
slot that still holds a body. -/
theorem C18_reused_slots_witness :
    (readTCPRequest (headerOnly 2) emptyProto).err = none ∧
    (readTCPRequest (headerOnly 2) usedProto).err = none ∧
    (readTCPRequest (headerOnly 2) emptyProto).proto =
      (readTCPRequest (headerOnly 2) usedProto).proto ∧
    (readTCPRequest (headerOnly 2) usedProto).proto.Body = none :=
  have h := C18_reused_slots (headerOnly 2) emptyProto usedProto (by decide)
  have h2 := C18_reused_slots (headerOnly 2) usedProto emptyProto (by decide)
  ⟨by decide, h.1, h.2.1, h2.2.2.1 (by decide)⟩

theorem wireFrame_eq_self (f : Proto) (h : f.Body ≠ some []) : wireFrame f = f := by
  cases f with
  | mk v o s b =>
    cases b with
    | none => rfl
    | some l =>
      cases l with
      | nil => exact absurd rfl h
      | cons x xs => rfl

/-- Decoding as many frames as were encoded gives them back in order and
leaves what follows them unread. -/
theorem decodeN_encodeAll (fs : List Proto) (rest : List Byte)
    (hwf : ∀ f ∈ fs, f.wf ∧ f.bodyLen ≤ 1008) (slot : Proto) :
    decodeN fs.length (encodeAll fs ++ rest) slot = (fs.map wireFrame, rest) := by
  induction fs generalizing slot with
  | nil => rfl
  | cons f fs ih =>
    have hf := hwf f (List.mem_cons_self f fs)
    have hr := readTCPRequest_frameBytes f slot (encodeAll fs ++ rest) hf.1 hf.2
    have ih2 := ih (fun g hg => hwf g (List.mem_cons_of_mem f hg))
      ⟨f.Ver, f.Operation, f.SeqId, wireBody f.Body⟩
    show decodeN (fs.length + 1) ((frameBytes f ++ encodeAll fs) ++ rest) slot = _
    rw [List.append_assoc]
    unfold decodeN
    rw [hr]
    simp only [ne_eq, not_true_eq_false, if_false]
    rw [ih2]
    rfl

/-- C19 (stream framing).  For every frame `f` with fields in range and at
most 1008 body bytes and every byte sequence `tail`: the bytes
`writeTCPResponse` writes for `f` are `frameBytes f`, of length
`16 + len(f.body)`, and `readTCPRequest` on `frameBytes f ++ tail` succeeds,
yields `f` (its body as it travels: a present body of length zero comes back
absent, any other body identical) and leaves exactly `tail` unread.  Hence
decoding `encode(f1) ++ ... ++ encode(fn) ++ rest` n times yields `f1, ...,
fn` in order and leaves `rest`. -/
theorem C19_stream_framing (fs : List Proto) (rest : List Byte) (slot : Proto)
    (hwf : ∀ f ∈ fs, f.wf ∧ f.bodyLen ≤ 1008) :
    (∀ f ∈ fs, ∀ (tail : List Byte) (p0 : Proto),
      (writeTCPResponse Writer.fresh f).2.out = frameBytes f ∧
      (frameBytes f).length = 16 + f.bodyLen ∧
      (readTCPRequest (frameBytes f ++ tail) p0).err = none ∧
      (readTCPRequest (frameBytes f ++ tail) p0).rr = tail ∧
      (readTCPRequest (frameBytes f ++ tail) p0).proto = wireFrame f) ∧
    decodeN fs.length (encodeAll fs ++ rest) slot = (fs.map wireFrame, rest) ∧
    (∀ f ∈ fs, f.Body ≠ some [] → wireFrame f = f) := by
  refine ⟨?_, decodeN_encodeAll fs rest hwf slot, fun f _ h => wireFrame_eq_self f h⟩
  intro f hf tail p0
  have hr := readTCPRequest_frameBytes f p0 tail (hwf f hf).1 (hwf f hf).2
  rw [hr, writeTCPResponse_accepting Writer.fresh f rfl]
  refine ⟨?_, frameBytes_length f, rfl, rfl, rfl⟩
  simp [Writer.fresh]

/-- Witness for C19: two frames followed by one stray byte. -/
theorem C19_stream_framing_witness :
    (∀ f ∈ [heartbeat0, usedProto], f.wf ∧ f.bodyLen ≤ 1008) ∧
    decodeN 2 (encodeAll [heartbeat0, usedProto] ++ [9]) emptyProto =
      ([heartbeat0, usedProto], [9]) :=
  ⟨by decide,
    (C19_stream_framing [heartbeat0, usedProto] [9] emptyProto (by decide)).2.1⟩

/-! ## Claims C13 and C20: the read loop and its teardown -/

/-- A successful decode consumes at least the sixteen header bytes. -/
theorem readTCPRequest_ok_shrinks (rr : List Byte) (p0 : Proto)
    (hok : (readTCPRequest rr p0).err = none) :
    (readTCPRequest rr p0).rr.length + 16 ≤ rr.length := by
  obtain ⟨h16, -, -, hcase⟩ := readTCPRequest_ok_inv rr p0 hok
  rcases hcase with ⟨n, -, -, -, heq⟩ | ⟨-, heq⟩
  · rw [heq]
    show (List.drop (16 + n) rr).length + 16 ≤ rr.length
    rw [List.length_drop]
    omega
  · rw [heq]
    show (List.drop 16 rr).length + 16 ≤ rr.length
    rw [List.length_drop]
    omega

/-- One round of the read loop when `CliProto.Set()` fails: the loop is left
with nothing read. -/
theorem readLoop_full {σ : Type} (fuel : Nat) (w : World σ)
    (hs : w.slots.headD (some emptyProto) = none) :
    serveTCP.readLoop (fuel + 1) w =
      { w with slots := w.slots.tail, trace := w.trace ++ [Event.cliSet false] } := by
  rw [serveTCP.readLoop]
  simp only [hs]

/-- One round of the read loop when the decode fails: the loop is left. -/
theorem readLoop_bad {σ : Type} (fuel : Nat) (w : World σ) (slot : Proto)
    (hs : w.slots.headD (some emptyProto) = some slot)
    (herr : (readTCPRequest w.rr slot).err ≠ none) :
    serveTCP.readLoop (fuel + 1) w =
      { w with slots := w.slots.tail, rr := (readTCPRequest w.rr slot).rr,
               trace := w.trace ++ [Event.cliSet true] } := by
  rw [serveTCP.readLoop]
  simp only [hs, ne_eq, herr, not_false_eq_true, if_true]

/-- One round of the read loop when the slot is there and the decode
succeeds: the frame is committed, `ProtoReady` is sent without blocking, and
the loop goes on. -/
theorem readLoop_ok {σ : Type} (fuel : Nat) (w : World σ) (slot : Proto)
    (hs : w.slots.headD (some emptyProto) = some slot)
    (hok : (readTCPRequest w.rr slot).err = none) :
    serveTCP.readLoop (fuel + 1) w =
      serveTCP.readLoop fuel
        { w with slots := w.slots.tail, rr := (readTCPRequest w.rr slot).rr,
                 sends := w.sends.tail,
                 trace := w.trace ++ [Event.cliSet true] ++
                   [Event.cliSetAdv (readTCPRequest w.rr slot).proto] ++
                   [Event.signalSend ProtoReady (w.sends.headD true)] } := by
  rw [serveTCP.readLoop]
  simp only [hs, ne_eq, hok, not_true_eq_false, if_false, World.signalSend]

/-- The whole read loop, given fuel beyond the length of the stream: its calls
have the shape `isLoopTrace` (so the loop ended by a failed `Set()` or a
failed decode, not for lack of fuel), they are calls on the client ring and
sends of `ProtoReady` only, and the loop touches neither socket, registry,
operator nor writer. -/
theorem readLoop_frame {σ : Type} (fuel : Nat) (w : World σ) (hf : w.rr.length < fuel) :
    ∃ delta, (serveTCP.readLoop fuel w).trace = w.trace ++ delta ∧
      isLoopTrace delta = true ∧
      (∀ e ∈ delta, e.isReadLoopCall = true) ∧
      (serveTCP.readLoop fuel w).closes = w.closes ∧
      (serveTCP.readLoop fuel w).registry = w.registry ∧
      (serveTCP.readLoop fuel w).op = w.op ∧
      (serveTCP.readLoop fuel w).wr = w.wr := by
  induction fuel generalizing w with
  | zero => exact absurd hf (Nat.not_lt_zero _)
  | succ fuel ih =>
    cases hs : w.slots.headD (some emptyProto) with
    | none =>
      rw [readLoop_full fuel w hs]
      refine ⟨[Event.cliSet false], rfl, rfl, ?_, rfl, rfl, rfl, rfl⟩
      intro e he
      simp only [List.mem_singleton] at he
      subst he
      rfl
    | some slot =>
      by_cases hok : (readTCPRequest w.rr slot).err = none
      · rw [readLoop_ok fuel w slot hs hok]
        have hsh := readTCPRequest_ok_shrinks w.rr slot hok
        obtain ⟨delta, htr, hshape, hall, hc, hr, ho, hw⟩ := ih
          { w with slots := w.slots.tail, rr := (readTCPRequest w.rr slot).rr,
                   sends := w.sends.tail,
                   trace := w.trace ++ [Event.cliSet true] ++
                     [Event.cliSetAdv (readTCPRequest w.rr slot).proto] ++
                     [Event.signalSend ProtoReady (w.sends.headD true)] }
          (by show (readTCPRequest w.rr slot).rr.length < fuel; omega)
        refine ⟨Event.cliSet true :: Event.cliSetAdv (readTCPRequest w.rr slot).proto ::
          Event.signalSend ProtoReady (w.sends.headD true) :: delta, ?_, ?_, ?_, hc, hr, ho, hw⟩
        · rw [htr]
          simp only [List.append_assoc, List.singleton_append, List.cons_append,
            List.nil_append]
        · simp only [isLoopTrace, hshape, beq_self_eq_true, Bool.and_self]
        · intro e he
          simp only [List.mem_cons] at he
          rcases he with he | he | he | he
          · subst he; rfl
          · subst he; rfl
          · subst he; rfl
          · exact hall e he
      · rw [readLoop_bad fuel w slot hs hok]
        refine ⟨[Event.cliSet true], rfl, rfl, ?_, rfl, rfl, rfl, rfl⟩
        intro e he
        simp only [List.mem_singleton] at he
        subst he
        rfl

/-- Normal form of `serveTCP` after a successful handshake: the read loop runs
in the registered world and then the teardown runs. -/
theorem serveTCP_ok {σ : Type} (cfg : Config) (op : Operator σ) (w : World σ)
    (hok : (serveTCP.handshake cfg op w).err = none) :
    serveTCP cfg op w =
      serveTCP.teardown op (serveTCP.handshake cfg op w).subKey
        (serveTCP.readLoop ((serveTCP.registered (serveTCP.handshake cfg op w)).rr.length + 1)
          (serveTCP.registered (serveTCP.handshake cfg op w))) := by
  unfold serveTCP
  simp only [hok, ne_eq, not_true_eq_false, if_false]
  rfl

/-- The calls and effects of the read-side teardown. -/
theorem teardown_frame {σ : Type} (op : Operator σ) (key : String) (w : World σ) :
    (serveTCP.teardown op key w).trace =
      w.trace ++ [Event.connClose (decide (w.closes = 0)),
        Event.signalSend ProtoFinsh (w.sends.headD true), Event.bucketDel key,
        Event.disconnect key (decide ((op.Disconnect w.op key).2 = none))] ∧
    (serveTCP.teardown op key w).closes = w.closes + 1 ∧
    (serveTCP.teardown op key w).registry = w.registry.erase key ∧
    (serveTCP.teardown op key w).rr = w.rr := by
  refine ⟨?_, rfl, rfl, rfl⟩
  show w.trace ++ [Event.connClose (decide (w.closes = 0))] ++
      [Event.signalSend ProtoFinsh (w.sends.headD true)] ++ [Event.bucketDel key] ++
      [Event.disconnect key (decide ((op.Disconnect w.op key).2 = none))] = _
  simp only [List.append_assoc, List.singleton_append, List.cons_append, List.nil_append]

theorem isHandshakeCall_not_teardown (e : Event) (h : e.isHandshakeCall = true) :
    e.isTeardownCall = false := by
  cases e <;> simp_all [Event.isHandshakeCall, Event.isTeardownCall]

theorem isReadLoopCall_not_teardown (e : Event) (h : e.isReadLoopCall = true) :
    e.isTeardownCall = false := by
  cases e <;> simp_all [Event.isReadLoopCall, Event.isTeardownCall, ProtoReady, ProtoFinsh]

/-- The trace of a run of `serveTCP` whose handshake succeeded: the handshake
calls, `b.Put` and the start of the dispatch goroutine, the calls of the read
loop, and the four teardown calls. -/
theorem serveTCP_ok_trace {σ : Type} (cfg : Config) (op : Operator σ) (w : World σ)
    (hok : (serveTCP.handshake cfg op w).err = none) :
    ∃ hs loop s d,
      (serveTCP cfg op w).trace =
        w.trace ++ (hs ++ [Event.bucketPut (serveTCP.handshake cfg op w).subKey,
          Event.goDispatch (serveTCP.handshake cfg op w).heartbeat] ++ loop ++
          [Event.connClose (decide (w.closes = 0)), Event.signalSend ProtoFinsh s,
            Event.bucketDel (serveTCP.handshake cfg op w).subKey,
            Event.disconnect (serveTCP.handshake cfg op w).subKey d]) ∧
      (∀ e ∈ hs, e.isHandshakeCall = true) ∧
      isLoopTrace loop = true ∧ (∀ e ∈ loop, e.isReadLoopCall = true) ∧
      (serveTCP cfg op w).closes = w.closes + 1 := by
  obtain ⟨hs, hhs, hall, hc, hr⟩ := handshake_frame cfg op w
  obtain ⟨loop, hl, hshape, hlall, hlc, -, hlo, -⟩ :=
    readLoop_frame ((serveTCP.registered (serveTCP.handshake cfg op w)).rr.length + 1)
      (serveTCP.registered (serveTCP.handshake cfg op w)) (Nat.lt_succ_self _)
  obtain ⟨ht, htc, -, -⟩ := teardown_frame op (serveTCP.handshake cfg op w).subKey
    (serveTCP.readLoop ((serveTCP.registered (serveTCP.handshake cfg op w)).rr.length + 1)
      (serveTCP.registered (serveTCP.handshake cfg op w)))
  have hreg : (serveTCP.registered (serveTCP.handshake cfg op w)).trace =
      w.trace ++ (hs ++ [Event.bucketPut (serveTCP.handshake cfg op w).subKey,
        Event.goDispatch (serveTCP.handshake cfg op w).heartbeat]) := by
    show (serveTCP.handshake cfg op w).w.trace ++ _ ++ _ = _
    rw [hhs]
    simp only [List.append_assoc, List.singleton_append, List.cons_append, List.nil_append]
  have hregc : (serveTCP.registered (serveTCP.handshake cfg op w)).closes = w.closes := hc
  refine ⟨hs, loop,
    (serveTCP.readLoop ((serveTCP.registered (serveTCP.handshake cfg op w)).rr.length + 1)
      (serveTCP.registered (serveTCP.handshake cfg op w))).sends.headD true,
    decide ((op.Disconnect
      (serveTCP.readLoop ((serveTCP.registered (serveTCP.handshake cfg op w)).rr.length + 1)
        (serveTCP.registered (serveTCP.handshake cfg op w))).op
      (serveTCP.handshake cfg op w).subKey).2 = none),
    ?_, hall, hshape, hlall, ?_⟩
  · rw [serveTCP_ok cfg op w hok, ht, hl, hreg, hlc, hregc]
    simp only [List.append_assoc]
  · rw [serveTCP_ok cfg op w hok, htc, hlc, hregc]

theorem isTeardownCall_of_kind (e : Event) :
    (e.isConnClose = true → e.isTeardownCall = true) ∧
    (e.isFinishSend = true → e.isTeardownCall = true) ∧
    (e.isBucketDel = true → e.isTeardownCall = true) ∧
    (e.isDisconnect = true → e.isTeardownCall = true) := by
  cases e <;> simp [Event.isConnClose, Event.isFinishSend, Event.isBucketDel,
    Event.isDisconnect, Event.isTeardownCall]

/-- C13 (read-side teardown runs exactly once).  In every run of `serveTCP` in
which the handshake succeeded, whatever ends the read loop, the calls
`serveTCP` makes end with the four teardown calls, in this order:
`conn.Close()`, the non-blocking send of `ProtoFinsh`, `b.Del(key)`,
`operator.Disconnect(key)`; no earlier call of the run is one of these, so
each happens exactly once; and this holds whatever `Close` and `Disconnect`
return (the world and the operator are arbitrary). -/
theorem C13_read_teardown_once {σ : Type} (cfg : Config) (op : Operator σ) (w : World σ)
    (hok : (serveTCP.handshake cfg op w).err = none) :
    (∃ body s d,
      callsSince w.trace (serveTCP cfg op w).trace =
        body ++ [Event.connClose (decide (w.closes = 0)), Event.signalSend ProtoFinsh s,
          Event.bucketDel (serveTCP.handshake cfg op w).subKey,
          Event.disconnect (serveTCP.handshake cfg op w).subKey d] ∧
      (∀ e ∈ body, e.isTeardownCall = false) ∧
      (callsSince w.trace (serveTCP cfg op w).trace).filter Event.isTeardownCall =
        [Event.connClose (decide (w.closes = 0)), Event.signalSend ProtoFinsh s,
          Event.bucketDel (serveTCP.handshake cfg op w).subKey,
          Event.disconnect (serveTCP.handshake cfg op w).subKey d]) ∧
    ((callsSince w.trace (serveTCP cfg op w).trace).filter Event.isConnClose).length = 1 ∧
    ((callsSince w.trace (serveTCP cfg op w).trace).filter Event.isFinishSend).length = 1 ∧
    ((callsSince w.trace (serveTCP cfg op w).trace).filter Event.isBucketDel).length = 1 ∧
    ((callsSince w.trace (serveTCP cfg op w).trace).filter Event.isDisconnect).length = 1 ∧
    (serveTCP cfg op w).closes = w.closes + 1 := by
  obtain ⟨hs, loop, s, d, htr, hall, -, hlall, hc⟩ := serveTCP_ok_trace cfg op w hok
  have hbody : ∀ e ∈ hs ++ [Event.bucketPut (serveTCP.handshake cfg op w).subKey,
      Event.goDispatch (serveTCP.handshake cfg op w).heartbeat] ++ loop,
      e.isTeardownCall = false := by
    intro e he
    simp only [List.mem_append, List.mem_cons, List.mem_singleton, List.not_mem_nil,
      or_false] at he
    rcases he with (he | he | he) | he
    · exact isHandshakeCall_not_teardown e (hall e he)
    · subst he; rfl
    · subst he; rfl
    · exact isReadLoopCall_not_teardown e (hlall e he)
  have hnone : ∀ (f : Event → Bool), (∀ e, f e = true → e.isTeardownCall = true) →
      (hs ++ [Event.bucketPut (serveTCP.handshake cfg op w).subKey,
        Event.goDispatch (serveTCP.handshake cfg op w).heartbeat] ++ loop).filter f = [] := by
    intro f hf
    rw [List.filter_eq_nil_iff]
    intro e he hfe
    have h1 := hbody e he
    rw [hf e hfe] at h1
    exact absurd h1 (by decide)
  rw [htr, callsSince_append]
  refine ⟨⟨_, s, d, rfl, hbody, ?_⟩, ?_, ?_, ?_, ?_, hc⟩
  · rw [List.filter_append, hnone Event.isTeardownCall (fun _ h => h)]
    rfl
  · rw [List.filter_append, hnone Event.isConnClose
      (fun e h => (isTeardownCall_of_kind e).1 h)]
    rfl
  · rw [List.filter_append, hnone Event.isFinishSend
      (fun e h => (isTeardownCall_of_kind e).2.1 h)]
    rfl
  · rw [List.filter_append, hnone Event.isBucketDel
      (fun e h => (isTeardownCall_of_kind e).2.2.1 h)]
    rfl
  · rw [List.filter_append, hnone Event.isDisconnect
      (fun e h => (isTeardownCall_of_kind e).2.2.2 h)]
    rfl

/-- Witness for C13: the handshake succeeds, the stream then ends, `Close`
returns an error (the socket was closed before) and `Disconnect` fails. -/
theorem C13_read_teardown_once_witness :
    (serveTCP.handshake cfg0 op1 (worldCloseFails (headerOnly 7))).err = none ∧
    ((callsSince (worldCloseFails (headerOnly 7)).trace
        (serveTCP cfg0 op1 (worldCloseFails (headerOnly 7))).trace).filter
      Event.isDisconnect).length = 1 ∧
    (serveTCP cfg0 op1 (worldCloseFails (headerOnly 7))).closes = 2 :=
  have h := C13_read_teardown_once cfg0 op1 (worldCloseFails (headerOnly 7)) (by decide)
  ⟨by decide, h.2.2.2.2.1, h.2.2.2.2.2⟩

/-- C20 (commit only after success).  One round of the read loop of
`serveTCP` does exactly one of three things: when `CliProto.Set()` fails the
loop is left with that one call made and nothing read; when the decode fails
the loop is left with no `SetAdv()` and no send; only when both succeed is the
decoded frame committed with `SetAdv()` and `ProtoReady` sent without
blocking, and the loop goes on.  So the calls of the whole loop are rounds
`Set()`, `SetAdv()`, send, closed by one `Set()` with no commit after it; and
after a successful handshake `serveTCP` is the teardown run on what the loop
left. -/
theorem C20_commit_only_after_success {σ : Type} (cfg : Config) (op : Operator σ)
    (w : World σ) :
    (∀ (fuel : Nat) (v : World σ), v.slots.headD (some emptyProto) = none →
      serveTCP.readLoop (fuel + 1) v =
        { v with slots := v.slots.tail, trace := v.trace ++ [Event.cliSet false] }) ∧
    (∀ (fuel : Nat) (v : World σ) (slot : Proto),
      v.slots.headD (some emptyProto) = some slot → (readTCPRequest v.rr slot).err ≠ none →
      serveTCP.readLoop (fuel + 1) v =
        { v with slots := v.slots.tail, rr := (readTCPRequest v.rr slot).rr,
                 trace := v.trace ++ [Event.cliSet true] }) ∧
    (∀ (fuel : Nat) (v : World σ) (slot : Proto),
      v.slots.headD (some emptyProto) = some slot → (readTCPRequest v.rr slot).err = none →
      serveTCP.readLoop (fuel + 1) v =
        serveTCP.readLoop fuel
          { v with slots := v.slots.tail, rr := (readTCPRequest v.rr slot).rr,
                   sends := v.sends.tail,
                   trace := v.trace ++ [Event.cliSet true] ++
                     [Event.cliSetAdv (readTCPRequest v.rr slot).proto] ++
                     [Event.signalSend ProtoReady (v.sends.headD true)] }) ∧
    (∀ v : World σ,
      isLoopTrace (callsSince v.trace (serveTCP.readLoop (v.rr.length + 1) v).trace) = true) ∧
    ((serveTCP.handshake cfg op w).err = none →
      serveTCP cfg op w =
        serveTCP.teardown op (serveTCP.handshake cfg op w).subKey
          (serveTCP.readLoop
            ((serveTCP.registered (serveTCP.handshake cfg op w)).rr.length + 1)
            (serveTCP.registered (serveTCP.handshake cfg op w)))) := by
  refine ⟨fun fuel v hs => readLoop_full fuel v hs,
    fun fuel v slot hs herr => readLoop_bad fuel v slot hs herr,
    fun fuel v slot hs hok => readLoop_ok fuel v slot hs hok, ?_,
    fun hok => serveTCP_ok cfg op w hok⟩
  intro v
  obtain ⟨delta, htr, hshape, -⟩ := readLoop_frame (v.rr.length + 1) v (Nat.lt_succ_self _)
  rw [htr, callsSince_append]
  exact hshape

/-- Witness for C20: the stream holds one frame and then three stray bytes;
the frame is committed and signalled, the second decode fails and nothing
more is committed. -/
theorem C20_commit_only_after_success_witness :
    (world0 [1, 2, 3]).slots.headD (some emptyProto) = some emptyProto ∧
    (readTCPRequest (world0 [1, 2, 3]).rr emptyProto).err ≠ none ∧
    (serveTCP.readLoop 1 (world0 [1, 2, 3])).trace = [Event.cliSet true] ∧
    isLoopTrace (callsSince (world0 (headerOnly 2 ++ [1, 2, 3])).trace
      (serveTCP.readLoop ((world0 (headerOnly 2 ++ [1, 2, 3])).rr.length + 1)
        (world0 (headerOnly 2 ++ [1, 2, 3]))).trace) = true :=
  have h := C20_commit_only_after_success cfg0 op0 (world0 (headerOnly 2 ++ [1, 2, 3]))
  ⟨rfl, by decide,
    congrArg World.trace (h.2.1 0 (world0 [1, 2, 3]) emptyProto rfl (by decide)),
    h.2.2.2.1 (world0 (headerOnly 2 ++ [1, 2, 3]))⟩

/-! ## Claims C16-C17: where the code departs from the claim -/

/-- After a wake by `ProtoReady` that finds both queues empty, the write task
makes no call at all and goes back to wait on `ch.Signal`, whatever the state
of the socket. -/
theorem loop_ready_empty {σ : Type} (cfg : Config) (op : Operator σ) (hb : Nat)
    (ks : List Wake) (w : World σ) (trd : Option Nat) :
    dispatchTCP.loop cfg op hb (⟨ProtoReady, [], []⟩ :: ks) w trd =
      dispatchTCP.loop cfg op hb ks (w.log (Event.signalRecv ProtoReady)) trd := by
  rw [dispatchTCP.loop]
  simp [ProtoReady, dispatchTCP.cliLoop, dispatchTCP.svrLoop]

/-- C16 (dropped finish signal), evaluated where the code departs from it.
The read task (`serveTCP` on `worldTwoFrames`) commits two heartbeats, each
with a send of `ProtoReady`, fails to decode a third frame, closes the socket
and finds the signal slot still holding `ProtoReady`, so its `ProtoFinsh` is
dropped.  The write task answered both heartbeats in its first wake, while
the socket was open (`afterFirstWake`).  It then receives the `ProtoReady`
left in the slot, with the socket closed and both queues empty: it makes no
call, and is back waiting on `ch.Signal`, where no signal will come.  It has
not exited, and its timer handle is still scheduled.  The last part holds in
every state of the write task: such a wake only receives the signal. -/
theorem C16_writer_keeps_waiting :
    (serveTCP cfg0 op0 worldTwoFrames).trace.filter Event.isFinishSend =
      [Event.signalSend ProtoFinsh false] ∧
    (serveTCP cfg0 op0 worldTwoFrames).closes = 1 ∧
    (decodeN 2 (headerOnly 2 ++ headerOnly 2) emptyProto).1 = [hbFrame, hbFrame] ∧
    afterFirstWake.err = none ∧ afterFirstWake.left = [] ∧
    afterReaderClose.closes = 1 ∧ afterReaderClose.wr.failAfter = some 0 ∧
    (dispatchTCP.loop cfg0 op0 5 [⟨ProtoReady, [], []⟩] afterReaderClose
      afterFirstWake.trd).exited = false ∧
    callsSince afterReaderClose.trace
      (dispatchTCP.loop cfg0 op0 5 [⟨ProtoReady, [], []⟩] afterReaderClose
        afterFirstWake.trd).w.trace = [Event.signalRecv ProtoReady] ∧
    (dispatchTCP.loop cfg0 op0 5 [⟨ProtoReady, [], []⟩] afterReaderClose
      afterFirstWake.trd).trd = some 2 ∧
    (dispatchTCP.loop cfg0 op0 5 [⟨ProtoReady, [], []⟩] afterReaderClose
      afterFirstWake.trd).w.tm.active = [2] ∧
    (∀ (cfg : Config) (hb : Nat) (w : World Nat) (trd : Option Nat),
      (dispatchTCP.loop cfg op0 hb [⟨ProtoReady, [], []⟩] w trd).exited = false ∧
      (dispatchTCP.loop cfg op0 hb [⟨ProtoReady, [], []⟩] w trd).w =
        w.log (Event.signalRecv ProtoReady) ∧
      (dispatchTCP.loop cfg op0 hb [⟨ProtoReady, [], []⟩] w trd).trd = trd) := by
  refine ⟨by decide, by decide, by decide, by decide, by decide, by decide, by decide,
    by decide, by decide, by decide, by decide, fun cfg hb w trd => ?_⟩
  rw [loop_ready_empty]
  simp [dispatchTCP.loop]

/-- C17 (nothing is connected on handshake failure), evaluated where the code
departs from it.  The client sends an `OP_AUTH` frame and `Connect` succeeds,
but the write of the reply fails: the handshake fails, `serveTCP` closes the
socket and returns, and its calls are the timer `Add`, the successful
`Connect`, the failed write, the timer `Del` and `Close`; there is no
`Disconnect`, and the operator has moved to the state `Connect` left. -/
theorem C17_connected_without_disconnect :
    (serveTCP.handshake cfg0 op0 (worldBrokenWriter (headerOnly 7))).err = some Err.ioError ∧
    (serveTCP cfg0 op0 (worldBrokenWriter (headerOnly 7))).trace =
      [Event.timerAdd 10 (some 0), Event.connect ⟨1, 7, 3, none⟩ true,
        Event.write ⟨1, 8, 3, none⟩ false, Event.timerDel (some 0), Event.connClose true] ∧
    (serveTCP cfg0 op0 (worldBrokenWriter (headerOnly 7))).trace.filter Event.isDisconnect
      = [] ∧
    (worldBrokenWriter (headerOnly 7)).op = 0 ∧
    (serveTCP cfg0 op0 (worldBrokenWriter (headerOnly 7))).op = 1 := by
  decide

/-! ## The write task: one client frame -/

/-- Normal form of `cliFrame` on a frame that is not a heartbeat when
`Operate` fails: nothing is written and the queue is not advanced. -/
theorem cliFrame_operate_fail {σ : Type} (cfg : Config) (op : Operator σ) (hb : Nat)
    (w : World σ) (trd : Option Nat) (p : Proto) (hne : p.Operation ≠ cfg.OP_HEARTBEAT)
    (hfail : (op.Operate w.op p).2.2 ≠ none) :
    dispatchTCP.cliFrame cfg op hb w trd p =
      ⟨(op.Operate w.op p).2.2,
        { w with op := (op.Operate w.op p).1,
                 trace := w.trace ++ [Event.operate p false] },
        trd, (op.Operate w.op p).2.1⟩ := by
  unfold dispatchTCP.cliFrame
  simp only [hne, if_false, ne_eq, hfail, not_false_eq_true, if_true, decide_False]

/-- Normal form of `cliFrame` on a frame that is not a heartbeat when
`Operate` succeeds. -/
theorem cliFrame_operate_ok {σ : Type} (cfg : Config) (op : Operator σ) (hb : Nat)
    (w : World σ) (trd : Option Nat) (p : Proto) (hne : p.Operation ≠ cfg.OP_HEARTBEAT)
    (hok : (op.Operate w.op p).2.2 = none) :
    dispatchTCP.cliFrame cfg op hb w trd p =
      (if (writeTCPResponse w.wr (op.Operate w.op p).2.1).1 = none then
        ⟨none, { w with op := (op.Operate w.op p).1,
                        wr := (writeTCPResponse w.wr (op.Operate w.op p).2.1).2,
                        trace := w.trace ++ [Event.operate p true] ++
                          [Event.write (op.Operate w.op p).2.1 true] ++ [Event.cliGetAdv] },
          trd, (op.Operate w.op p).2.1⟩
      else
        ⟨(writeTCPResponse w.wr (op.Operate w.op p).2.1).1,
          { w with op := (op.Operate w.op p).1,
                   wr := (writeTCPResponse w.wr (op.Operate w.op p).2.1).2,
                   trace := w.trace ++ [Event.operate p true] ++
                     [Event.write (op.Operate w.op p).2.1 false] },
          trd, (op.Operate w.op p).2.1⟩) := by
  unfold dispatchTCP.cliFrame
  simp only [hne, if_false, ne_eq, hok, not_true_eq_false, decide_True]
  exact cliFrame_tail2
    { w with op := (op.Operate w.op p).1, trace := w.trace ++ [Event.operate p true] }
    trd (op.Operate w.op p).2.1

theorem replyFrame_heartbeat {σ : Type} (cfg : Config) (op : Operator σ) (s : σ) (p : Proto)
    (hhb : p.Operation = cfg.OP_HEARTBEAT) :
    replyFrame cfg op s p = heartbeatReply cfg p ∧ opStep cfg op s p = s ∧
      operated cfg [p] = [] := by
  simp [replyFrame, opStep, operated, hhb]

theorem replyFrame_operate {σ : Type} (cfg : Config) (op : Operator σ) (s : σ) (p : Proto)
    (hne : p.Operation ≠ cfg.OP_HEARTBEAT) :
    replyFrame cfg op s p = (op.Operate s p).2.1 ∧ opStep cfg op s p = (op.Operate s p).1 ∧
      operated cfg [p] = [p] := by
  simp [replyFrame, opStep, operated, hne]

/-- Everything `cliFrame` does with one client frame, heartbeat or not: its
calls are calls of the write task; its timer calls are none (handle kept) or
one `Del` of the handle in use followed by one `Add`; and when it ends without
error it has written the reply frame, once, and advanced the operator. -/
theorem cliFrame_summary {σ : Type} (cfg : Config) (op : Operator σ) (hb : Nat)
    (w : World σ) (trd : Option Nat) (p : Proto) :
    ∃ delta,
      (dispatchTCP.cliFrame cfg op hb w trd p).w.trace = w.trace ++ delta ∧
      (∀ e ∈ delta, e.isDispatchCall = true) ∧
      ((delta.filter Event.isTimerCall = [] ∧
          (dispatchTCP.cliFrame cfg op hb w trd p).trd = trd) ∨
        delta.filter Event.isTimerCall =
          [Event.timerDel trd,
            Event.timerAdd hb (dispatchTCP.cliFrame cfg op hb w trd p).trd]) ∧
      ((dispatchTCP.cliFrame cfg op hb w trd p).err = none →
        (writeTCPResponse w.wr (replyFrame cfg op w.op p)).1 = none ∧
        (dispatchTCP.cliFrame cfg op hb w trd p).w.wr =
          (writeTCPResponse w.wr (replyFrame cfg op w.op p)).2 ∧
        (dispatchTCP.cliFrame cfg op hb w trd p).w.op = opStep cfg op w.op p ∧
        framesWritten delta = [replyFrame cfg op w.op p] ∧
        framesOperated delta = operated cfg [p]) := by
  by_cases hhb : p.Operation = cfg.OP_HEARTBEAT
  · obtain ⟨hrf, hos, hopd⟩ := replyFrame_heartbeat cfg op w.op p hhb
    obtain ⟨pre, post, htr, hpre, hpost, hop⟩ :=
      cliFrame_heartbeat_summary cfg op hb w trd p hhb
    rw [hrf, hos, hopd]
    refine ⟨pre ++ post, htr, ?_, ?_, ?_⟩
    · intro e he
      rcases List.mem_append.mp he with he | he
      · rcases hpre with ⟨-, h, -⟩ | ⟨-, h⟩ <;> subst h <;>
          simp only [List.mem_cons, List.mem_singleton, List.not_mem_nil, or_false] at he
        · subst he; rfl
        · rcases he with he | he | he <;> subst he <;> rfl
      · rcases hpost with ⟨h, -⟩ | ⟨h, -⟩ | ⟨h, -⟩ <;> subst h
        · exact absurd he (List.not_mem_nil e)
        · simp only [List.mem_singleton] at he
          subst he; rfl
        · simp only [List.mem_cons, List.mem_singleton, List.not_mem_nil, or_false] at he
          rcases he with he | he <;> subst he <;> rfl
    · have hpostT : post.filter Event.isTimerCall = [] := by
        rcases hpost with ⟨h, -⟩ | ⟨h, -⟩ | ⟨h, -⟩ <;> subst h <;> rfl
      rw [List.filter_append, hpostT, List.append_nil]
      rcases hpre with ⟨-, h, ht⟩ | ⟨-, h⟩
      · subst h
        exact Or.inl ⟨rfl, ht⟩
      · subst h
        exact Or.inr rfl
    · intro herr
      rcases hpost with ⟨-, h⟩ | ⟨-, h⟩ | ⟨h, -, hw, hwr⟩
      · exact absurd herr h
      · exact absurd herr h
      · subst h
        refine ⟨hw, hwr, hop, ?_, ?_⟩
        · rcases hpre with ⟨-, h, -⟩ | ⟨-, h⟩ <;> subst h <;> rfl
        · rcases hpre with ⟨-, h, -⟩ | ⟨-, h⟩ <;> subst h <;> rfl
  · obtain ⟨hrf, hos, hopd⟩ := replyFrame_operate cfg op w.op p hhb
    rw [hrf, hos, hopd]
    by_cases hok : (op.Operate w.op p).2.2 = none
    · rw [cliFrame_operate_ok cfg op hb w trd p hhb hok]
      by_cases hw : (writeTCPResponse w.wr (op.Operate w.op p).2.1).1 = none
      · rw [if_pos hw]
        refine ⟨[Event.operate p true, Event.write (op.Operate w.op p).2.1 true,
          Event.cliGetAdv], ?_, ?_, Or.inl ⟨rfl, rfl⟩, fun _ => ⟨hw, rfl, rfl, rfl, rfl⟩⟩
        · simp only [List.append_assoc, List.singleton_append, List.cons_append,
            List.nil_append]
        · intro e he
          simp only [List.mem_cons, List.mem_singleton, List.not_mem_nil, or_false] at he
          rcases he with he | he | he <;> subst he <;> rfl
      · rw [if_neg hw]
        refine ⟨[Event.operate p true, Event.write (op.Operate w.op p).2.1 false], ?_, ?_,
          Or.inl ⟨rfl, rfl⟩, fun herr => absurd herr hw⟩
        · simp only [List.append_assoc, List.singleton_append, List.cons_append,
            List.nil_append]
        · intro e he
          simp only [List.mem_cons, List.mem_singleton, List.not_mem_nil, or_false] at he
          rcases he with he | he <;> subst he <;> rfl
    · rw [cliFrame_operate_fail cfg op hb w trd p hhb hok]
      refine ⟨[Event.operate p false], rfl, ?_, Or.inl ⟨rfl, rfl⟩, fun herr => absurd herr hok⟩
      intro e he
      simp only [List.mem_singleton] at he
      subst he; rfl

/-! ## Timer handles along a trace -/

theorem outstanding_append (acc : List Nat) (a b : List Event) :
    outstanding acc (a ++ b) = outstanding (outstanding acc a) b := by
  induction a generalizing acc with
  | nil => rfl
  | cons e es ih => exact ih (stepTimer acc e)

theorem atMostOneTimer_length (acc : List Nat) (es : List Event)
    (h : atMostOneTimer acc es = true) : acc.length ≤ 1 := by
  cases es with
  | nil => simpa [atMostOneTimer] using h
  | cons e es =>
    simp only [atMostOneTimer, Bool.and_eq_true, decide_eq_true_eq] at h
    exact h.1

theorem atMostOneTimer_append (acc : List Nat) (a b : List Event)
    (ha : atMostOneTimer acc a = true) (hb : atMostOneTimer (outstanding acc a) b = true) :
    atMostOneTimer acc (a ++ b) = true := by
  induction a generalizing acc with
  | nil => exact hb
  | cons e es ih =>
    simp only [atMostOneTimer, Bool.and_eq_true, decide_eq_true_eq] at ha
    simp only [List.cons_append, atMostOneTimer, Bool.and_eq_true, decide_eq_true_eq]
    exact ⟨ha.1, ih (stepTimer acc e) ha.2 hb⟩

theorem stepTimer_of_not_timerCall (acc : List Nat) (e : Event)
    (h : e.isTimerCall = false) : stepTimer acc e = acc := by
  cases e <;> first | rfl | exact absurd h (by simp [Event.isTimerCall])

/-- Calls that are not timer calls do not change the handles. -/
theorem outstanding_filter (acc : List Nat) (es : List Event) :
    outstanding acc es = outstanding acc (es.filter Event.isTimerCall) := by
  induction es generalizing acc with
  | nil => rfl
  | cons e es ih =>
    cases he : e.isTimerCall with
    | true =>
      rw [List.filter_cons_of_pos he]
      exact ih (stepTimer acc e)
    | false =>
      rw [List.filter_cons_of_neg (by simp [he])]
      show outstanding (stepTimer acc e) es = _
      rw [stepTimer_of_not_timerCall acc e he]
      exact ih acc

theorem atMostOneTimer_filter (acc : List Nat) (es : List Event)
    (h : atMostOneTimer acc (es.filter Event.isTimerCall) = true) :
    atMostOneTimer acc es = true := by
  induction es generalizing acc with
  | nil => exact h
  | cons e es ih =>
    cases he : e.isTimerCall with
    | true =>
      rw [List.filter_cons_of_pos he] at h
      simp only [atMostOneTimer, Bool.and_eq_true, decide_eq_true_eq] at h ⊢
      exact ⟨h.1, ih (stepTimer acc e) h.2⟩
    | false =>
      rw [List.filter_cons_of_neg (by simp [he])] at h
      simp only [atMostOneTimer, Bool.and_eq_true, decide_eq_true_eq]
      rw [stepTimer_of_not_timerCall acc e he]
      exact ⟨atMostOneTimer_length acc _ h, ih acc h⟩

/-- A renewal, `Del` of the handle in use and then `Add`, keeps the handles
added and not deleted equal to the handle in use, and never above one. -/
theorem renewal_timer (trd res : Option Nat) (hb : Nat) :
    outstanding trd.toList [Event.timerDel trd, Event.timerAdd hb res] = res.toList ∧
    atMostOneTimer trd.toList [Event.timerDel trd, Event.timerAdd hb res] = true := by
  cases trd <;> cases res <;>
    simp [outstanding, atMostOneTimer, stepTimer, Option.toList]

/-- The timer discipline of `cliFrame`: if the handles added and not deleted
are the handle in use before the frame, so they are after it, and their
number never exceeds one in between. -/
theorem cliFrame_timer {σ : Type} (cfg : Config) (op : Operator σ) (hb : Nat)
    (w : World σ) (trd : Option Nat) (p : Proto) :
    ∃ delta,
      (dispatchTCP.cliFrame cfg op hb w trd p).w.trace = w.trace ++ delta ∧
      (∀ e ∈ delta, e.isDispatchCall = true) ∧
      outstanding trd.toList delta = (dispatchTCP.cliFrame cfg op hb w trd p).trd.toList ∧
      atMostOneTimer trd.toList delta = true := by
  obtain ⟨delta, htr, hall, htimer, -⟩ := cliFrame_summary cfg op hb w trd p
  refine ⟨delta, htr, hall, ?_, ?_⟩
  · rw [outstanding_filter]
    rcases htimer with ⟨h, ht⟩ | h
    · rw [h, ht]; rfl
    · rw [h]; exact (renewal_timer trd _ hb).1
  · apply atMostOneTimer_filter
    rcases htimer with ⟨h, -⟩ | h
    · rw [h]
      cases trd <;> rfl
    · rw [h]; exact (renewal_timer trd _ hb).2

/-! ## The write task: the drains, the loop and the teardown -/

theorem cliLoop_cons {σ : Type} (cfg : Config) (op : Operator σ) (hb : Nat)
    (p : Proto) (q : List Proto) (w : World σ) (trd : Option Nat) :
    dispatchTCP.cliLoop cfg op hb (p :: q) w trd =
      if (dispatchTCP.cliFrame cfg op hb w trd p).err ≠ none then
        ⟨(dispatchTCP.cliFrame cfg op hb w trd p).err, (dispatchTCP.cliFrame cfg op hb w trd p).w,
          (dispatchTCP.cliFrame cfg op hb w trd p).trd,
          (dispatchTCP.cliFrame cfg op hb w trd p).p :: q⟩
      else dispatchTCP.cliLoop cfg op hb q (dispatchTCP.cliFrame cfg op hb w trd p).w
        (dispatchTCP.cliFrame cfg op hb w trd p).trd := by
  rw [dispatchTCP.cliLoop]

theorem svrLoop_cons {σ : Type} (p : Proto) (q : List Proto) (w : World σ)
    (trd : Option Nat) :
    dispatchTCP.svrLoop (p :: q) w trd =
      if (writeTCPResponse w.wr p).1 ≠ none then
        ⟨(writeTCPResponse w.wr p).1,
          { w with wr := (writeTCPResponse w.wr p).2,
                   trace := w.trace ++ [Event.write p false] }, trd, p :: q⟩
      else dispatchTCP.svrLoop q
        { w with wr := (writeTCPResponse w.wr p).2,
                 trace := w.trace ++ [Event.write p true] ++ [Event.svrGetAdv] } trd := by
  rw [dispatchTCP.svrLoop]
  by_cases hw : (writeTCPResponse w.wr p).1 = none
  · simp [World.write, World.log, hw]
  · simp [World.write, World.log, hw]

/-- The timer discipline of the client drain. -/
theorem cliLoop_timer {σ : Type} (cfg : Config) (op : Operator σ) (hb : Nat)
    (q : List Proto) (w : World σ) (trd : Option Nat) :
    ∃ delta,
      (dispatchTCP.cliLoop cfg op hb q w trd).w.trace = w.trace ++ delta ∧
      (∀ e ∈ delta, e.isDispatchCall = true) ∧
      outstanding trd.toList delta = (dispatchTCP.cliLoop cfg op hb q w trd).trd.toList ∧
      atMostOneTimer trd.toList delta = true := by
  induction q generalizing w trd with
  | nil =>
    refine ⟨[], (List.append_nil _).symm, fun e he => absurd he (List.not_mem_nil e), rfl, ?_⟩
    cases trd <;> rfl
  | cons p q ih =>
    obtain ⟨d1, h1, hall1, ho1, ha1⟩ := cliFrame_timer cfg op hb w trd p
    rw [cliLoop_cons]
    by_cases herr : (dispatchTCP.cliFrame cfg op hb w trd p).err = none
    · rw [if_neg (by simp [herr])]
      obtain ⟨d2, h2, hall2, ho2, ha2⟩ := ih (dispatchTCP.cliFrame cfg op hb w trd p).w
        (dispatchTCP.cliFrame cfg op hb w trd p).trd
      refine ⟨d1 ++ d2, ?_, ?_, ?_, ?_⟩
      · rw [h2, h1, List.append_assoc]
      · intro e he
        rcases List.mem_append.mp he with he | he
        · exact hall1 e he
        · exact hall2 e he
      · rw [outstanding_append, ho1, ho2]
      · exact atMostOneTimer_append _ _ _ ha1 (by rw [ho1]; exact ha2)
    · rw [if_pos herr]
      exact ⟨d1, h1, hall1, ho1, ha1⟩

/-- The server drain makes no timer call and keeps the handle. -/
theorem svrLoop_timer {σ : Type} (q : List Proto) (w : World σ) (trd : Option Nat) :
    ∃ delta,
      (dispatchTCP.svrLoop q w trd).w.trace = w.trace ++ delta ∧
      (∀ e ∈ delta, e.isDispatchCall = true) ∧
      delta.filter Event.isTimerCall = [] ∧
      (dispatchTCP.svrLoop q w trd).trd = trd := by
  induction q generalizing w with
  | nil =>
    exact ⟨[], (List.append_nil _).symm, fun e he => absurd he (List.not_mem_nil e), rfl, rfl⟩
  | cons p q ih =>
    rw [svrLoop_cons]
    by_cases hw : (writeTCPResponse w.wr p).1 = none
    · rw [if_neg (by simp [hw])]
      obtain ⟨d2, h2, hall2, hf2, ht2⟩ := ih
        { w with wr := (writeTCPResponse w.wr p).2,
                 trace := w.trace ++ [Event.write p true] ++ [Event.svrGetAdv] }
      refine ⟨[Event.write p true, Event.svrGetAdv] ++ d2, ?_, ?_, ?_, ht2⟩
      · rw [h2]
        simp only [List.append_assoc, List.singleton_append, List.cons_append,
          List.nil_append]
      · intro e he
        rcases List.mem_append.mp he with he | he
        · simp only [List.mem_cons, List.mem_singleton, List.not_mem_nil, or_false] at he
          rcases he with he | he <;> subst he <;> rfl
        · exact hall2 e he
      · rw [List.filter_append, hf2]
        rfl
    · rw [if_pos hw]
      refine ⟨[Event.write p false], rfl, ?_, rfl, rfl⟩
      intro e he
      simp only [List.mem_singleton] at he
      subst he; rfl

theorem loop_cons {σ : Type} (cfg : Config) (op : Operator σ) (hb : Nat) (k : Wake)
    (ks : List Wake) (w : World σ) (trd : Option Nat) :
    dispatchTCP.loop cfg op hb (k :: ks) w trd =
      if k.sig = 0 then dispatchTCP.failed (w.log (Event.signalRecv k.sig)) trd k.cli k.svr
      else if (dispatchTCP.cliLoop cfg op hb k.cli (w.log (Event.signalRecv k.sig)) trd).err
          ≠ none then
        dispatchTCP.failed
          (dispatchTCP.cliLoop cfg op hb k.cli (w.log (Event.signalRecv k.sig)) trd).w
          (dispatchTCP.cliLoop cfg op hb k.cli (w.log (Event.signalRecv k.sig)) trd).trd
          (dispatchTCP.cliLoop cfg op hb k.cli (w.log (Event.signalRecv k.sig)) trd).left k.svr
      else if (dispatchTCP.svrLoop k.svr
          (dispatchTCP.cliLoop cfg op hb k.cli (w.log (Event.signalRecv k.sig)) trd).w
          (dispatchTCP.cliLoop cfg op hb k.cli (w.log (Event.signalRecv k.sig)) trd).trd).err
          ≠ none then
        dispatchTCP.failed
          (dispatchTCP.svrLoop k.svr
            (dispatchTCP.cliLoop cfg op hb k.cli (w.log (Event.signalRecv k.sig)) trd).w
            (dispatchTCP.cliLoop cfg op hb k.cli (w.log (Event.signalRecv k.sig)) trd).trd).w
          (dispatchTCP.svrLoop k.svr
            (dispatchTCP.cliLoop cfg op hb k.cli (w.log (Event.signalRecv k.sig)) trd).w
            (dispatchTCP.cliLoop cfg op hb k.cli (w.log (Event.signalRecv k.sig)) trd).trd).trd
          []
          (dispatchTCP.svrLoop k.svr
            (dispatchTCP.cliLoop cfg op hb k.cli (w.log (Event.signalRecv k.sig)) trd).w
            (dispatchTCP.cliLoop cfg op hb k.cli (w.log (Event.signalRecv k.sig)) trd).trd).left
      else
        dispatchTCP.loop cfg op hb ks
          (dispatchTCP.svrLoop k.svr
            (dispatchTCP.cliLoop cfg op hb k.cli (w.log (Event.signalRecv k.sig)) trd).w
            (dispatchTCP.cliLoop cfg op hb k.cli (w.log (Event.signalRecv k.sig)) trd).trd).w
          (dispatchTCP.svrLoop k.svr
            (dispatchTCP.cliLoop cfg op hb k.cli (w.log (Event.signalRecv k.sig)) trd).w
            (dispatchTCP.cliLoop cfg op hb k.cli (w.log (Event.signalRecv k.sig)) trd).trd).trd := by
  rw [dispatchTCP.loop]

/-- The label `failed`: the task has exited, its last two calls are
`conn.Close()` and the `Del` of the handle in use, and it has written
nothing. -/
theorem failed_frame {σ : Type} (w : World σ) (trd : Option Nat) (cli svr : List Proto) :
    (dispatchTCP.failed w trd cli svr).exited = true ∧
    (dispatchTCP.failed w trd cli svr).w.trace =
      w.trace ++ [Event.connClose (decide (w.closes = 0)), Event.timerDel trd] ∧
    (dispatchTCP.failed w trd cli svr).trd = trd ∧
    (dispatchTCP.failed w trd cli svr).cli = cli ∧
    (dispatchTCP.failed w trd cli svr).svr = svr ∧
    (dispatchTCP.failed w trd cli svr).w.wr.out = w.wr.out ∧
    (dispatchTCP.failed w trd cli svr).w.wr.buf = w.wr.buf ∧
    (dispatchTCP.failed w trd cli svr).w.closes = w.closes + 1 := by
  refine ⟨rfl, ?_, rfl, rfl, rfl, rfl, rfl, rfl⟩
  show w.trace ++ [Event.connClose (decide (w.closes = 0))] ++ [Event.timerDel trd] = _
  simp only [List.append_assoc, List.singleton_append]

theorem failed_tail {σ : Type} (w : World σ) (trd : Option Nat) (cli svr : List Proto) :
    ∃ c, (dispatchTCP.failed w trd cli svr).w.trace =
      w.trace ++ [Event.connClose c, Event.timerDel (dispatchTCP.failed w trd cli svr).trd] :=
  ⟨_, (failed_frame w trd cli svr).2.1⟩

/-- The shape of every run of the loop of the write task: calls of the write
task that keep the handles added and not deleted equal to the handle in use,
never above one; and then either the task is back waiting on `ch.Signal`, or
it went through `failed`: `conn.Close()`, `Del` of the handle in use. -/
theorem loop_frame {σ : Type} (cfg : Config) (op : Operator σ) (hb : Nat) (ks : List Wake)
    (w : World σ) (trd : Option Nat) :
    ∃ body tail,
      (dispatchTCP.loop cfg op hb ks w trd).w.trace = w.trace ++ (body ++ tail) ∧
      (∀ e ∈ body, e.isDispatchCall = true) ∧
      outstanding trd.toList body = (dispatchTCP.loop cfg op hb ks w trd).trd.toList ∧
      atMostOneTimer trd.toList body = true ∧
      (((dispatchTCP.loop cfg op hb ks w trd).exited = true ∧
          ∃ c, tail = [Event.connClose c,
            Event.timerDel (dispatchTCP.loop cfg op hb ks w trd).trd]) ∨
        ((dispatchTCP.loop cfg op hb ks w trd).exited = false ∧ tail = [])) := by
  induction ks generalizing w trd with
  | nil =>
    refine ⟨[], [], (List.append_nil _).symm, fun e he => absurd he (List.not_mem_nil e), rfl,
      ?_, Or.inr ⟨rfl, rfl⟩⟩
    cases trd <;> rfl
  | cons k ks ih =>
    have hrecv : ∀ e ∈ [Event.signalRecv k.sig], e.isDispatchCall = true := by
      intro e he
      simp only [List.mem_singleton] at he
      subst he; rfl
    have hone : atMostOneTimer trd.toList [Event.signalRecv k.sig] = true := by
      cases trd <;> rfl
    rw [loop_cons]
    by_cases hsig : k.sig = 0
    · rw [if_pos hsig]
      obtain ⟨he, -, htrd, -⟩ :=
        failed_frame (w.log (Event.signalRecv k.sig)) trd k.cli k.svr
      obtain ⟨c0, ht⟩ := failed_tail (w.log (Event.signalRecv k.sig)) trd k.cli k.svr
      generalize dispatchTCP.failed (w.log (Event.signalRecv k.sig)) trd k.cli k.svr = F
        at he ht htrd ⊢
      refine ⟨[Event.signalRecv k.sig], [Event.connClose c0, Event.timerDel F.trd], ?_, hrecv,
        ?_, hone, Or.inl ⟨he, c0, rfl⟩⟩
      · rw [ht]
        show w.trace ++ [Event.signalRecv k.sig] ++ _ = _
        rw [List.append_assoc]
      · rw [htrd]; rfl
    rw [if_neg hsig]
    obtain ⟨dc, hc, hallc, hoc, hac⟩ :=
      cliLoop_timer cfg op hb k.cli (w.log (Event.signalRecv k.sig)) trd
    generalize dispatchTCP.cliLoop cfg op hb k.cli (w.log (Event.signalRecv k.sig)) trd = c
      at hc hoc ⊢
    have hbody1 : ∀ e ∈ [Event.signalRecv k.sig] ++ dc, e.isDispatchCall = true := by
      intro e he
      rcases List.mem_append.mp he with he | he
      · exact hrecv e he
      · exact hallc e he
    by_cases hcerr : c.err = none
    swap
    · rw [if_pos hcerr]
      obtain ⟨he, -, htrd, -⟩ := failed_frame c.w c.trd c.left k.svr
      obtain ⟨c0, ht⟩ := failed_tail c.w c.trd c.left k.svr
      generalize dispatchTCP.failed c.w c.trd c.left k.svr = F at he ht htrd ⊢
      refine ⟨[Event.signalRecv k.sig] ++ dc, [Event.connClose c0, Event.timerDel F.trd], ?_,
        hbody1, ?_, ?_, Or.inl ⟨he, c0, rfl⟩⟩
      · rw [ht, hc]
        show w.trace ++ [Event.signalRecv k.sig] ++ dc ++ _ = _
        simp only [List.append_assoc]
      · rw [htrd, outstanding_append]
        exact hoc
      · exact atMostOneTimer_append _ _ _ hone hac
    rw [if_neg (by simp [hcerr])]
    obtain ⟨dv, hv, hallv, hfv, htv⟩ := svrLoop_timer k.svr c.w c.trd
    generalize dispatchTCP.svrLoop k.svr c.w c.trd = v at hv htv ⊢
    have hov : outstanding c.trd.toList dv = v.trd.toList := by
      rw [outstanding_filter, hfv, htv]; rfl
    have hav : atMostOneTimer c.trd.toList dv = true := by
      apply atMostOneTimer_filter
      rw [hfv]
      cases c.trd <;> rfl
    have hbody2 : ∀ e ∈ [Event.signalRecv k.sig] ++ dc ++ dv, e.isDispatchCall = true := by
      intro e he
      rcases List.mem_append.mp he with he | he
      · exact hbody1 e he
      · exact hallv e he
    have ho2 : outstanding trd.toList ([Event.signalRecv k.sig] ++ dc ++ dv) = v.trd.toList := by
      rw [outstanding_append, outstanding_append]
      show outstanding (outstanding trd.toList dc) dv = _
      rw [hoc, hov]
    have ha2 : atMostOneTimer trd.toList ([Event.signalRecv k.sig] ++ dc ++ dv) = true := by
      apply atMostOneTimer_append
      · exact atMostOneTimer_append _ _ _ hone hac
      · rw [outstanding_append]
        show atMostOneTimer (outstanding trd.toList dc) dv = true
        rw [hoc]
        exact hav
    have htr2 : v.w.trace = w.trace ++ ([Event.signalRecv k.sig] ++ dc ++ dv) := by
      rw [hv, hc]
      show w.trace ++ [Event.signalRecv k.sig] ++ dc ++ dv = _
      simp only [List.append_assoc]
    by_cases hverr : v.err = none
    swap
    · rw [if_pos hverr]
      obtain ⟨he, -, htrd, -⟩ := failed_frame v.w v.trd [] v.left
      obtain ⟨c0, ht⟩ := failed_tail v.w v.trd [] v.left
      generalize dispatchTCP.failed v.w v.trd [] v.left = F at he ht htrd ⊢
      refine ⟨[Event.signalRecv k.sig] ++ dc ++ dv, [Event.connClose c0, Event.timerDel F.trd],
        ?_, hbody2, ?_, ha2, Or.inl ⟨he, c0, rfl⟩⟩
      · rw [ht, htr2]
        simp only [List.append_assoc]
      · rw [htrd]; exact ho2
    rw [if_neg (by simp [hverr])]
    obtain ⟨body, tail, htr, hall, ho, ha, hend⟩ := ih v.w v.trd
    refine ⟨[Event.signalRecv k.sig] ++ dc ++ dv ++ body, tail, ?_, ?_, ?_, ?_, hend⟩
    · rw [htr, htr2]
      simp only [List.append_assoc]
    · intro e he
      rcases List.mem_append.mp he with he | he
      · exact hbody2 e he
      · exact hall e he
    · rw [outstanding_append, ho2, ho]
    · exact atMostOneTimer_append _ _ _ ha2 (by rw [ho2]; exact ha)

theorem timerAdd_handle {σ : Type} (w : World σ) (d : Nat)
    (h : (w.timerAdd d).2.1 ≠ none) : (w.timerAdd d).1 = none := by
  unfold World.timerAdd at h ⊢
  split
  · rfl
  · rename_i hne
    split at h
    · rename_i fs heq
      exact absurd heq (hne fs)
    · exact absurd rfl h

theorem isDispatchCall_not_teardown (e : Event) (h : e.isDispatchCall = true) :
    e.isConnClose = false ∧ e.isBucketDel = false ∧ e.isDisconnect = false := by
  cases e <;> simp_all [Event.isDispatchCall, Event.isConnClose, Event.isBucketDel,
    Event.isDisconnect]

/-- The shape of every run of `dispatchTCP`: as for its loop (`loop_frame`),
starting from no handle and with the first `Add` in front. -/
theorem dispatchTCP_frame {σ : Type} (cfg : Config) (op : Operator σ) (hb : Nat)
    (wakes : List Wake) (w : World σ) :
    ∃ body tail,
      (dispatchTCP cfg op hb wakes w).w.trace = w.trace ++ (body ++ tail) ∧
      (∀ e ∈ body, e.isDispatchCall = true) ∧
      outstanding [] body = (dispatchTCP cfg op hb wakes w).trd.toList ∧
      atMostOneTimer [] body = true ∧
      (((dispatchTCP cfg op hb wakes w).exited = true ∧
          ∃ c, tail = [Event.connClose c,
            Event.timerDel (dispatchTCP cfg op hb wakes w).trd]) ∨
        ((dispatchTCP cfg op hb wakes w).exited = false ∧ tail = [])) := by
  obtain ⟨-, -, -, -, -, htr⟩ := timerAdd_frame w hb
  have hadd1 : ∀ e ∈ [Event.timerAdd hb (w.timerAdd hb).1], e.isDispatchCall = true := by
    intro e he
    simp only [List.mem_singleton] at he
    subst he; rfl
  have ho1 : outstanding [] [Event.timerAdd hb (w.timerAdd hb).1] =
      (w.timerAdd hb).1.toList := by
    cases (w.timerAdd hb).1 <;> rfl
  have ha1 : atMostOneTimer [] [Event.timerAdd hb (w.timerAdd hb).1] = true := by
    cases (w.timerAdd hb).1 <;> rfl
  by_cases hadd : (w.timerAdd hb).2.1 = none
  swap
  · have hd : dispatchTCP cfg op hb wakes w =
        dispatchTCP.failed (w.timerAdd hb).2.2 (w.timerAdd hb).1 [] [] := by
      unfold dispatchTCP
      simp only [ne_eq, hadd, not_false_eq_true, if_true]
    rw [hd]
    obtain ⟨he, -, htrd, -⟩ := failed_frame (w.timerAdd hb).2.2 (w.timerAdd hb).1 [] []
    obtain ⟨c0, ht⟩ := failed_tail (w.timerAdd hb).2.2 (w.timerAdd hb).1 [] []
    generalize dispatchTCP.failed (w.timerAdd hb).2.2 (w.timerAdd hb).1 [] [] = F
      at he ht htrd ⊢
    refine ⟨[Event.timerAdd hb (w.timerAdd hb).1], [Event.connClose c0, Event.timerDel F.trd],
      ?_, hadd1, ?_, ha1, Or.inl ⟨he, c0, rfl⟩⟩
    · rw [ht, htr, List.append_assoc]
    · rw [htrd]; exact ho1
  have hd : dispatchTCP cfg op hb wakes w =
      dispatchTCP.loop cfg op hb wakes (w.timerAdd hb).2.2 (w.timerAdd hb).1 := by
    unfold dispatchTCP
    simp only [ne_eq, hadd, not_true_eq_false, if_false]
  rw [hd]
  obtain ⟨body, tail, hl, hall, ho, ha, hend⟩ :=
    loop_frame cfg op hb wakes (w.timerAdd hb).2.2 (w.timerAdd hb).1
  refine ⟨[Event.timerAdd hb (w.timerAdd hb).1] ++ body, tail, ?_, ?_, ?_, ?_, hend⟩
  · rw [hl, htr]
    simp only [List.append_assoc]
  · intro e he
    rcases List.mem_append.mp he with he | he
    · exact hadd1 e he
    · exact hall e he
  · rw [outstanding_append, ho1, ho]
  · exact atMostOneTimer_append _ _ _ ha1 (by rw [ho1]; exact ha)

/-! ## Claims C14-C15: the teardown of the write task and the timer handles -/

/-- C14 (write-side teardown).  No call of `dispatchTCP` is a `b.Del` or an
`operator.Disconnect`.  And on every exit path (whenever `dispatchTCP` has
returned): the socket was closed exactly once; the two last calls are
`conn.Close()` and the `Del` of the handle in use at that moment (`nil` when
the last `Add` had failed), all calls before them being calls of the running
task; and of the handles `dispatchTCP` added none is left that it did not
delete. -/
theorem C14_write_teardown {σ : Type} (cfg : Config) (op : Operator σ) (hb : Nat)
    (wakes : List Wake) (w : World σ) :
    (∀ e ∈ callsSince w.trace (dispatchTCP cfg op hb wakes w).w.trace,
      e.isBucketDel = false ∧ e.isDisconnect = false) ∧
    ((dispatchTCP cfg op hb wakes w).exited = true →
      ((callsSince w.trace (dispatchTCP cfg op hb wakes w).w.trace).filter
        Event.isConnClose).length = 1 ∧
      (∃ body c, callsSince w.trace (dispatchTCP cfg op hb wakes w).w.trace =
          body ++ [Event.connClose c, Event.timerDel (dispatchTCP cfg op hb wakes w).trd] ∧
        (∀ e ∈ body, e.isDispatchCall = true) ∧
        outstanding [] body = (dispatchTCP cfg op hb wakes w).trd.toList) ∧
      outstanding [] (callsSince w.trace (dispatchTCP cfg op hb wakes w).w.trace) = []) := by
  obtain ⟨body, tail, htr, hall, ho, -, hend⟩ := dispatchTCP_frame cfg op hb wakes w
  rw [htr, callsSince_append]
  have hbodyC : body.filter Event.isConnClose = [] := by
    rw [List.filter_eq_nil_iff]
    intro e he
    simp [(isDispatchCall_not_teardown e (hall e he)).1]
  constructor
  · intro e he
    rcases List.mem_append.mp he with he | he
    · exact (isDispatchCall_not_teardown e (hall e he)).2
    · rcases hend with ⟨-, c, ht⟩ | ⟨-, ht⟩
      · subst ht
        simp only [List.mem_cons, List.mem_singleton, List.not_mem_nil, or_false] at he
        rcases he with he | he <;> subst he <;> exact ⟨rfl, rfl⟩
      · subst ht
        exact absurd he (List.not_mem_nil e)
  · intro hex
    rcases hend with ⟨-, c, ht⟩ | ⟨hne, -⟩
    · subst ht
      refine ⟨?_, ⟨body, c, rfl, hall, ho⟩, ?_⟩
      · rw [List.filter_append, hbodyC]
        rfl
      · rw [outstanding_append, ho]
        cases (dispatchTCP cfg op hb wakes w).trd <;>
          simp [outstanding, stepTimer, Option.toList]
    · rw [hex] at hne
      exact absurd hne (by decide)

/-- Witness for C14: the first wake brings a frame the operator rejects, so the
task leaves through `failed`. -/
theorem C14_write_teardown_witness :
    (dispatchTCP cfg0 op0 5 [⟨ProtoReady, [badFrame], []⟩] (world0 [])).exited = true ∧
    ((callsSince (world0 []).trace
        (dispatchTCP cfg0 op0 5 [⟨ProtoReady, [badFrame], []⟩] (world0 [])).w.trace).filter
      Event.isConnClose).length = 1 ∧
    outstanding [] (callsSince (world0 []).trace
      (dispatchTCP cfg0 op0 5 [⟨ProtoReady, [badFrame], []⟩] (world0 [])).w.trace) = [] :=
  have h := (C14_write_teardown cfg0 op0 5 [⟨ProtoReady, [badFrame], []⟩] (world0 [])).2
    (by decide)
  ⟨by decide, h.1, h.2.2⟩

/-- The calls of `authTCP` are no timer calls. -/
theorem authTCP_no_timer {σ : Type} (cfg : Config) (op : Operator σ) (w : World σ)
    (p : Proto) :
    ∃ delta, (authTCP cfg op w p).w.trace = w.trace ++ delta ∧
      delta.filter Event.isTimerCall = [] := by
  by_cases hok : (readTCPRequest w.rr p).err = none
  swap
  · have h : authTCP cfg op w p =
        ⟨"", 0, (readTCPRequest w.rr p).err, { w with rr := (readTCPRequest w.rr p).rr },
          (readTCPRequest w.rr p).proto⟩ := by
      unfold authTCP
      simp only [ne_eq, hok, not_false_eq_true, if_true]
    rw [h]
    exact ⟨[], (List.append_nil _).symm, rfl⟩
  by_cases hop : (readTCPRequest w.rr p).proto.Operation = cfg.OP_AUTH
  swap
  · have h : authTCP cfg op w p =
        ⟨"", 0, some Err.ErrOperation, { w with rr := (readTCPRequest w.rr p).rr },
          (readTCPRequest w.rr p).proto⟩ := by
      unfold authTCP
      simp only [hok, ne_eq, not_true_eq_false, if_false, hop, not_false_eq_true, if_true]
    rw [h]
    exact ⟨[], (List.append_nil _).symm, rfl⟩
  by_cases hconn : (op.Connect w.op (readTCPRequest w.rr p).proto).2.2.2.2 = none
  swap
  · have h : authTCP cfg op w p =
        ⟨(op.Connect w.op (readTCPRequest w.rr p).proto).2.2.1,
          (op.Connect w.op (readTCPRequest w.rr p).proto).2.2.2.1,
          (op.Connect w.op (readTCPRequest w.rr p).proto).2.2.2.2,
          { w with rr := (readTCPRequest w.rr p).rr,
                   op := (op.Connect w.op (readTCPRequest w.rr p).proto).1,
                   trace := w.trace ++ [Event.connect (readTCPRequest w.rr p).proto false] },
          (op.Connect w.op (readTCPRequest w.rr p).proto).2.1⟩ := by
      unfold authTCP
      simp only [hok, ne_eq, not_true_eq_false, if_false, hop, hconn, not_false_eq_true,
        if_true, decide_False]
    rw [h]
    exact ⟨_, rfl, rfl⟩
  rw [authTCP_connected cfg op w p hok hop hconn]
  exact ⟨_, List.append_assoc _ _ _, rfl⟩

/-- The timer discipline of the handshake: its calls never leave more than one
handle added and not deleted, and none when it is over. -/
theorem handshake_timer {σ : Type} (cfg : Config) (op : Operator σ) (w : World σ) :
    ∃ delta, (serveTCP.handshake cfg op w).w.trace = w.trace ++ delta ∧
      outstanding [] delta = [] ∧ atMostOneTimer [] delta = true := by
  obtain ⟨-, -, -, -, -, htr⟩ := timerAdd_frame w cfg.HandshakeTimeout
  by_cases hadd : (w.timerAdd cfg.HandshakeTimeout).2.1 = none
  swap
  · have h : serveTCP.handshake cfg op w =
        ⟨"", 0, (w.timerAdd cfg.HandshakeTimeout).2.1, (w.timerAdd cfg.HandshakeTimeout).2.2,
          emptyProto⟩ := by
      unfold serveTCP.handshake
      simp only [ne_eq, hadd, not_false_eq_true, if_true]
    rw [h]
    refine ⟨_, htr, ?_, ?_⟩ <;> rw [timerAdd_handle w _ hadd] <;> rfl
  have h : serveTCP.handshake cfg op w =
      { authTCP cfg op (w.timerAdd cfg.HandshakeTimeout).2.2 emptyProto with
        w := (authTCP cfg op (w.timerAdd cfg.HandshakeTimeout).2.2 emptyProto).w.timerDel
          (w.timerAdd cfg.HandshakeTimeout).1 } := by
    unfold serveTCP.handshake
    simp only [ne_eq, hadd, not_true_eq_false, if_false]
  obtain ⟨da, hda, hfa⟩ :=
    authTCP_no_timer cfg op (w.timerAdd cfg.HandshakeTimeout).2.2 emptyProto
  rw [h]
  have hfilter : ([Event.timerAdd cfg.HandshakeTimeout (w.timerAdd cfg.HandshakeTimeout).1] ++
      da ++ [Event.timerDel (w.timerAdd cfg.HandshakeTimeout).1]).filter Event.isTimerCall =
      [Event.timerAdd cfg.HandshakeTimeout (w.timerAdd cfg.HandshakeTimeout).1,
        Event.timerDel (w.timerAdd cfg.HandshakeTimeout).1] := by
    rw [List.filter_append, List.filter_append, hfa]
    rfl
  refine ⟨[Event.timerAdd cfg.HandshakeTimeout (w.timerAdd cfg.HandshakeTimeout).1] ++ da ++
      [Event.timerDel (w.timerAdd cfg.HandshakeTimeout).1], ?_, ?_, ?_⟩
  · show (authTCP cfg op (w.timerAdd cfg.HandshakeTimeout).2.2 emptyProto).w.trace ++
        [Event.timerDel (w.timerAdd cfg.HandshakeTimeout).1] = _
    rw [hda, htr]
    simp only [List.append_assoc]
  · rw [outstanding_filter, hfilter]
    cases (w.timerAdd cfg.HandshakeTimeout).1 <;> simp [outstanding, stepTimer]
  · apply atMostOneTimer_filter
    rw [hfilter]
    cases (w.timerAdd cfg.HandshakeTimeout).1 <;> simp [atMostOneTimer, stepTimer]

theorem isReadLoopCall_not_timerCall (e : Event) (h : e.isReadLoopCall = true) :
    e.isTimerCall = false := by
  cases e <;> simp_all [Event.isReadLoopCall, Event.isTimerCall]

/-- After the handshake `serveTCP` makes no timer call. -/
theorem serveTCP_after_handshake {σ : Type} (cfg : Config) (op : Operator σ) (w : World σ) :
    ∃ rest, (serveTCP cfg op w).trace = (serveTCP.handshake cfg op w).w.trace ++ rest ∧
      rest.filter Event.isTimerCall = [] := by
  by_cases hok : (serveTCP.handshake cfg op w).err = none
  · obtain ⟨loop, hl, -, hlall, -⟩ :=
      readLoop_frame ((serveTCP.registered (serveTCP.handshake cfg op w)).rr.length + 1)
        (serveTCP.registered (serveTCP.handshake cfg op w)) (Nat.lt_succ_self _)
    obtain ⟨four, ht, hf4⟩ : ∃ four,
        (serveTCP.teardown op (serveTCP.handshake cfg op w).subKey
          (serveTCP.readLoop ((serveTCP.registered (serveTCP.handshake cfg op w)).rr.length + 1)
            (serveTCP.registered (serveTCP.handshake cfg op w)))).trace =
        (serveTCP.readLoop ((serveTCP.registered (serveTCP.handshake cfg op w)).rr.length + 1)
          (serveTCP.registered (serveTCP.handshake cfg op w))).trace ++ four ∧
        four.filter Event.isTimerCall = [] :=
      ⟨_, (teardown_frame op _ _).1, rfl⟩
    have hloop : loop.filter Event.isTimerCall = [] := by
      rw [List.filter_eq_nil_iff]
      intro e he
      simp [isReadLoopCall_not_timerCall e (hlall e he)]
    rw [serveTCP_ok cfg op w hok, ht, hl]
    refine ⟨[Event.bucketPut (serveTCP.handshake cfg op w).subKey,
      Event.goDispatch (serveTCP.handshake cfg op w).heartbeat] ++ loop ++ four, ?_, ?_⟩
    · show (serveTCP.handshake cfg op w).w.trace ++ _ ++ _ ++ loop ++ four = _
      simp only [List.append_assoc, List.singleton_append, List.cons_append, List.nil_append]
    · rw [List.filter_append, List.filter_append, hloop, hf4]
      rfl
  · have h : serveTCP cfg op w = (serveTCP.handshake cfg op w).w.connClose.2 := by
      unfold serveTCP
      simp only [hok, ne_eq, not_false_eq_true, if_true]
    rw [h]
    exact ⟨[Event.connClose (decide ((serveTCP.handshake cfg op w).w.closes = 0))], rfl, rfl⟩

/-- Along every run of `dispatchTCP`, from its first call to its last, at
most one handle is added and not deleted. -/
theorem dispatchTCP_atMostOne {σ : Type} (cfg : Config) (op : Operator σ) (hb : Nat)
    (wakes : List Wake) (w : World σ) :
    atMostOneTimer [] (callsSince w.trace (dispatchTCP cfg op hb wakes w).w.trace) = true := by
  obtain ⟨body, tail, htr, -, ho, ha, hend⟩ := dispatchTCP_frame cfg op hb wakes w
  rw [htr, callsSince_append]
  apply atMostOneTimer_append _ _ _ ha
  rw [ho]
  rcases hend with ⟨-, c, ht⟩ | ⟨-, ht⟩
  · subst ht
    cases (dispatchTCP cfg op hb wakes w).trd <;>
      simp [atMostOneTimer, stepTimer, Option.toList]
  · subst ht
    cases (dispatchTCP cfg op hb wakes w).trd <;> simp [atMostOneTimer, Option.toList]

/-- C15 (single deadline invariant).  Take the calls of a connection in order:
those of `serveTCP` through the handshake, then those of `dispatchTCP`
(started in any world, woken any number of times).  Before and after every one
of these calls the number of timer handles added and not deleted is at most
one.  In particular no handle is left when the handshake is over, before
`dispatchTCP` adds the heartbeat handle; `serveTCP` makes no timer call after
the handshake; and the timer calls `dispatchTCP` makes for one client frame
are none, or one `Del` of the handle in use followed by one `Add`. -/
theorem C15_single_deadline {σ : Type} (cfg : Config) (op : Operator σ) (w v : World σ)
    (hb : Nat) (wakes : List Wake) :
    atMostOneTimer []
      (callsSince w.trace (serveTCP.handshake cfg op w).w.trace ++
        callsSince v.trace (dispatchTCP cfg op hb wakes v).w.trace) = true ∧
    outstanding [] (callsSince w.trace (serveTCP.handshake cfg op w).w.trace) = [] ∧
    (∃ rest, (serveTCP cfg op w).trace = (serveTCP.handshake cfg op w).w.trace ++ rest ∧
      rest.filter Event.isTimerCall = []) ∧
    (∀ (x : World σ) (trd : Option Nat) (p : Proto),
      (callsSince x.trace (dispatchTCP.cliFrame cfg op hb x trd p).w.trace).filter
          Event.isTimerCall = [] ∨
      (callsSince x.trace (dispatchTCP.cliFrame cfg op hb x trd p).w.trace).filter
          Event.isTimerCall =
        [Event.timerDel trd, Event.timerAdd hb (dispatchTCP.cliFrame cfg op hb x trd p).trd]) := by
  obtain ⟨hs, hhs, hho, hha⟩ := handshake_timer cfg op w
  refine ⟨?_, ?_, serveTCP_after_handshake cfg op w, ?_⟩
  · rw [hhs, callsSince_append]
    apply atMostOneTimer_append _ _ _ hha
    rw [hho]
    exact dispatchTCP_atMostOne cfg op hb wakes v
  · rw [hhs, callsSince_append]
    exact hho
  · intro x trd p
    obtain ⟨delta, htr, -, htimer, -⟩ := cliFrame_summary cfg op hb x trd p
    rw [htr, callsSince_append]
    rcases htimer with ⟨h, -⟩ | h
    · exact Or.inl h
    · exact Or.inr h

/-! ## Claims C11-C12: the client drain -/

/-- Draining `pre ++ rest` is draining `pre` and, unless that failed, draining
`rest` from where it ended. -/
theorem cliLoop_append {σ : Type} (cfg : Config) (op : Operator σ) (hb : Nat)
    (pre rest : List Proto) (w : World σ) (trd : Option Nat) :
    dispatchTCP.cliLoop cfg op hb (pre ++ rest) w trd =
      if (dispatchTCP.cliLoop cfg op hb pre w trd).err ≠ none then
        ⟨(dispatchTCP.cliLoop cfg op hb pre w trd).err, (dispatchTCP.cliLoop cfg op hb pre w trd).w,
          (dispatchTCP.cliLoop cfg op hb pre w trd).trd,
          (dispatchTCP.cliLoop cfg op hb pre w trd).left ++ rest⟩
      else dispatchTCP.cliLoop cfg op hb rest (dispatchTCP.cliLoop cfg op hb pre w trd).w
        (dispatchTCP.cliLoop cfg op hb pre w trd).trd := by
  induction pre generalizing w trd with
  | nil =>
    have h : dispatchTCP.cliLoop cfg op hb [] w trd = ⟨none, w, trd, []⟩ := by
      rw [dispatchTCP.cliLoop]
    rw [h]
    simp only [List.nil_append, ne_eq, not_true_eq_false, if_false]
  | cons p pre ih =>
    by_cases herr : (dispatchTCP.cliFrame cfg op hb w trd p).err = none
    · have h1 : dispatchTCP.cliLoop cfg op hb (p :: pre) w trd =
          dispatchTCP.cliLoop cfg op hb pre (dispatchTCP.cliFrame cfg op hb w trd p).w
            (dispatchTCP.cliFrame cfg op hb w trd p).trd := by
        rw [cliLoop_cons, if_neg (by simp [herr])]
      have h2 : dispatchTCP.cliLoop cfg op hb (p :: (pre ++ rest)) w trd =
          dispatchTCP.cliLoop cfg op hb (pre ++ rest) (dispatchTCP.cliFrame cfg op hb w trd p).w
            (dispatchTCP.cliFrame cfg op hb w trd p).trd := by
        rw [cliLoop_cons, if_neg (by simp [herr])]
      rw [List.cons_append, h2, h1]
      exact ih _ _
    · have h1 : dispatchTCP.cliLoop cfg op hb (p :: pre) w trd =
          ⟨(dispatchTCP.cliFrame cfg op hb w trd p).err,
            (dispatchTCP.cliFrame cfg op hb w trd p).w,
            (dispatchTCP.cliFrame cfg op hb w trd p).trd,
            (dispatchTCP.cliFrame cfg op hb w trd p).p :: pre⟩ := by
        rw [cliLoop_cons, if_pos herr]
      have h2 : dispatchTCP.cliLoop cfg op hb (p :: (pre ++ rest)) w trd =
          ⟨(dispatchTCP.cliFrame cfg op hb w trd p).err,
            (dispatchTCP.cliFrame cfg op hb w trd p).w,
            (dispatchTCP.cliFrame cfg op hb w trd p).trd,
            (dispatchTCP.cliFrame cfg op hb w trd p).p :: (pre ++ rest)⟩ := by
        rw [cliLoop_cons, if_pos herr]
      rw [List.cons_append, h2, h1]
      simp only [ne_eq, herr, not_false_eq_true, if_true, List.cons_append]

/-- A wake whose client drain fails sends the task to `failed`. -/
theorem loop_cli_fail {σ : Type} (cfg : Config) (op : Operator σ) (hb : Nat) (k : Wake)
    (ks : List Wake) (w : World σ) (trd : Option Nat) (hsig : k.sig ≠ 0)
    (c : DrainOut σ)
    (hc : dispatchTCP.cliLoop cfg op hb k.cli (w.log (Event.signalRecv k.sig)) trd = c)
    (herr : c.err ≠ none) :
    dispatchTCP.loop cfg op hb (k :: ks) w trd = dispatchTCP.failed c.w c.trd c.left k.svr := by
  rw [loop_cons, if_neg hsig, hc, if_pos herr]

/-- C11 (operator failure is fatal).  For every client frame `p` that is not a
heartbeat, reached at the head of the client queue in the world `w`:
`Operate` is called on it exactly once, success or not.  If `Operate` returns
an error, the step returns that error having made no other call and with the
writer untouched; and the task (in whatever wake `k` the frame was reached,
after the frames `pre` before it were drained without error) exits through
`failed`: after the one `Operate` its only calls are `conn.Close()` and the
`Del` of the handle in use, nothing was flushed or buffered, and the frame,
as `Operate` left it, is still at the head of the client queue with the
frames `q` behind it. -/
theorem C11_operator_failure_fatal {σ : Type} (cfg : Config) (op : Operator σ) (hb : Nat)
    (w : World σ) (trd : Option Nat) (p : Proto) (hne : p.Operation ≠ cfg.OP_HEARTBEAT) :
    framesOperated (callsSince w.trace (dispatchTCP.cliFrame cfg op hb w trd p).w.trace) = [p] ∧
    ((op.Operate w.op p).2.2 ≠ none →
      (dispatchTCP.cliFrame cfg op hb w trd p).err = (op.Operate w.op p).2.2 ∧
      callsSince w.trace (dispatchTCP.cliFrame cfg op hb w trd p).w.trace =
        [Event.operate p false] ∧
      (dispatchTCP.cliFrame cfg op hb w trd p).w.wr = w.wr ∧
      ∀ (k : Wake) (ks : List Wake) (v : World σ) (trd0 : Option Nat) (pre q : List Proto),
        k.sig ≠ 0 → k.cli = pre ++ p :: q →
        dispatchTCP.cliLoop cfg op hb pre (v.log (Event.signalRecv k.sig)) trd0 =
          ⟨none, w, trd, []⟩ →
        (dispatchTCP.loop cfg op hb (k :: ks) v trd0).exited = true ∧
        callsSince w.trace (dispatchTCP.loop cfg op hb (k :: ks) v trd0).w.trace =
          [Event.operate p false, Event.connClose (decide (w.closes = 0)),
            Event.timerDel trd] ∧
        (dispatchTCP.loop cfg op hb (k :: ks) v trd0).w.wr.out = w.wr.out ∧
        (dispatchTCP.loop cfg op hb (k :: ks) v trd0).w.wr.buf = w.wr.buf ∧
        (dispatchTCP.loop cfg op hb (k :: ks) v trd0).cli = (op.Operate w.op p).2.1 :: q ∧
        (dispatchTCP.loop cfg op hb (k :: ks) v trd0).svr = k.svr) := by
  constructor
  · by_cases hok : (op.Operate w.op p).2.2 = none
    · rw [cliFrame_operate_ok cfg op hb w trd p hne hok]
      by_cases hw : (writeTCPResponse w.wr (op.Operate w.op p).2.1).1 = none
      · rw [if_pos hw]
        show framesOperated (callsSince w.trace (w.trace ++ _ ++ _ ++ _)) = _
        rw [List.append_assoc, List.append_assoc, callsSince_append]
        rfl
      · rw [if_neg hw]
        show framesOperated (callsSince w.trace (w.trace ++ _ ++ _)) = _
        rw [List.append_assoc, callsSince_append]
        rfl
    · rw [cliFrame_operate_fail cfg op hb w trd p hne hok]
      show framesOperated (callsSince w.trace (w.trace ++ _)) = _
      rw [callsSince_append]
      rfl
  · intro hfail
    have hstep := cliFrame_operate_fail cfg op hb w trd p hne hfail
    refine ⟨by rw [hstep], ?_, by rw [hstep], ?_⟩
    · rw [hstep]
      exact callsSince_append _ _
    · intro k ks v trd0 pre q hsig hcli hpre
      have hc : dispatchTCP.cliLoop cfg op hb k.cli (v.log (Event.signalRecv k.sig)) trd0 =
          ⟨(op.Operate w.op p).2.2,
            { w with op := (op.Operate w.op p).1,
                     trace := w.trace ++ [Event.operate p false] },
            trd, (op.Operate w.op p).2.1 :: q⟩ := by
        rw [hcli, cliLoop_append, hpre]
        simp only [ne_eq, not_true_eq_false, if_false]
        rw [cliLoop_cons, hstep]
        simp only [ne_eq, hfail, not_false_eq_true, if_true]
      rw [loop_cli_fail cfg op hb k ks v trd0 hsig _ hc hfail]
      obtain ⟨he, ht, -, hcl, hsv, hout, hbuf, -⟩ := failed_frame
        { w with op := (op.Operate w.op p).1, trace := w.trace ++ [Event.operate p false] }
        trd ((op.Operate w.op p).2.1 :: q) k.svr
      refine ⟨he, ?_, hout, hbuf, hcl, hsv⟩
      rw [ht]
      show callsSince w.trace (w.trace ++ [Event.operate p false] ++ _) = _
      rw [List.append_assoc, callsSince_append]
      rfl

/-- Witness for C11: a frame the operator `op0` rejects, at the head of the
queue of the first wake, with another frame behind it. -/
theorem C11_operator_failure_fatal_witness :
    badFrame.Operation ≠ cfg0.OP_HEARTBEAT ∧
    (op0.Operate (world0 []).op badFrame).2.2 ≠ none ∧
    (dispatchTCP.cliFrame cfg0 op0 5 (world0 []) (some 0) badFrame).err =
      some Err.operatorError ∧
    (dispatchTCP.loop cfg0 op0 5 [⟨ProtoReady, [badFrame, goodFrame], []⟩]
      (world0 []) (some 0)).exited = true :=
  have h := (C11_operator_failure_fatal cfg0 op0 5
    ((world0 []).log (Event.signalRecv ProtoReady)) (some 0) badFrame (by decide)).2 (by decide)
  ⟨by decide, by decide,
    (C11_operator_failure_fatal cfg0 op0 5 (world0 []) (some 0) badFrame (by decide)).2
      (by decide) |>.1,
    (h.2.2.2 ⟨ProtoReady, [badFrame, goodFrame], []⟩ [] (world0 []) (some 0) [] [goodFrame]
      (by decide) rfl rfl).1⟩

theorem framesWritten_append (a b : List Event) :
    framesWritten (a ++ b) = framesWritten a ++ framesWritten b := by
  induction a with
  | nil => rfl
  | cons e es ih => cases e <;> simp [framesWritten, ih]

theorem framesOperated_append (a b : List Event) :
    framesOperated (a ++ b) = framesOperated a ++ framesOperated b := by
  induction a with
  | nil => rfl
  | cons e es ih => cases e <;> simp [framesOperated, ih]

theorem operated_cons (cfg : Config) (c : Proto) (cs : List Proto) :
    operated cfg (c :: cs) = operated cfg [c] ++ operated cfg cs := by
  unfold operated
  rw [← List.filter_append]
  rfl

/-- What one successful `writeTCPResponse` on an accepting writer does to the
bytes handed to the writer. -/
theorem writer_after_accepting (wr : Writer) (p : Proto) (h : wr.failAfter = none) :
    (writeTCPResponse wr p).1 = none ∧
    (writeTCPResponse wr p).2.failAfter = none ∧
    (writeTCPResponse wr p).2.out = wr.out ++ wr.buf ++ frameBytes p ∧
    (writeTCPResponse wr p).2.buf = [] := by
  rw [writeTCPResponse_accepting wr p h]
  exact ⟨rfl, h, (List.append_assoc _ _ _).symm, rfl⟩

/-- The client drain when nothing fails, on an accepting writer: the queue is
emptied, the bytes handed to the writer are the encodings of the reply
frames in order, all flushed, and exactly the frames that are not heartbeats
went to `Operate`. -/
theorem cliLoop_ok {σ : Type} (cfg : Config) (op : Operator σ) (hb : Nat)
    (cs : List Proto) (w : World σ) (trd : Option Nat) (hacc : w.wr.failAfter = none)
    (herr : (dispatchTCP.cliLoop cfg op hb cs w trd).err = none) :
    (dispatchTCP.cliLoop cfg op hb cs w trd).left = [] ∧
    (dispatchTCP.cliLoop cfg op hb cs w trd).w.wr.failAfter = none ∧
    (dispatchTCP.cliLoop cfg op hb cs w trd).w.wr.out ++
        (dispatchTCP.cliLoop cfg op hb cs w trd).w.wr.buf =
      w.wr.out ++ w.wr.buf ++ encodeAll (replyFrames cfg op w.op cs) ∧
    (w.wr.buf = [] ∨ cs ≠ [] → (dispatchTCP.cliLoop cfg op hb cs w trd).w.wr.buf = []) ∧
    (dispatchTCP.cliLoop cfg op hb cs w trd).w.op = opAfter cfg op w.op cs ∧
    ∃ delta, (dispatchTCP.cliLoop cfg op hb cs w trd).w.trace = w.trace ++ delta ∧
      framesWritten delta = replyFrames cfg op w.op cs ∧
      framesOperated delta = operated cfg cs := by
  induction cs generalizing w trd with
  | nil =>
    refine ⟨rfl, hacc, ?_, ?_, rfl, [], (List.append_nil _).symm, rfl, rfl⟩
    · show w.wr.out ++ w.wr.buf = w.wr.out ++ w.wr.buf ++ []
      rw [List.append_nil]
    · intro h
      rcases h with h | h
      · exact h
      · exact absurd rfl h
  | cons p q ih =>
    have hfe : (dispatchTCP.cliFrame cfg op hb w trd p).err = none := by
      by_contra hne
      rw [cliLoop_cons, if_pos hne] at herr
      exact hne herr
    have hstep : dispatchTCP.cliLoop cfg op hb (p :: q) w trd =
        dispatchTCP.cliLoop cfg op hb q (dispatchTCP.cliFrame cfg op hb w trd p).w
          (dispatchTCP.cliFrame cfg op hb w trd p).trd := by
      rw [cliLoop_cons, if_neg (by simp [hfe])]
    obtain ⟨d1, htr1, -, -, hsucc⟩ := cliFrame_summary cfg op hb w trd p
    obtain ⟨-, hwr, hop, hfw, hfo⟩ := hsucc hfe
    obtain ⟨-, hfa, hout, hbuf⟩ := writer_after_accepting w.wr (replyFrame cfg op w.op p) hacc
    rw [hstep] at herr ⊢
    generalize dispatchTCP.cliFrame cfg op hb w trd p = r at herr hwr hop htr1 ⊢
    have hacc2 : r.w.wr.failAfter = none := by rw [hwr]; exact hfa
    obtain ⟨hl, hfa2, hout2, hbuf2, hop2, d2, htr2, hfw2, hfo2⟩ := ih r.w r.trd hacc2 herr
    have hrbuf : r.w.wr.buf = [] := by rw [hwr]; exact hbuf
    refine ⟨hl, hfa2, ?_, fun _ => hbuf2 (Or.inl hrbuf), ?_, d1 ++ d2, ?_, ?_, ?_⟩
    · rw [hout2, hop, hrbuf, hwr, hout]
      show _ = w.wr.out ++ w.wr.buf ++ (frameBytes (replyFrame cfg op w.op p) ++
        encodeAll (replyFrames cfg op (opStep cfg op w.op p) q))
      simp only [List.append_assoc, List.append_nil]
    · rw [hop2, hop]
      rfl
    · rw [htr2, htr1, List.append_assoc]
    · rw [framesWritten_append, hfw, hfw2, hop]
      rfl
    · rw [framesOperated_append, hfo, hfo2, operated_cons cfg p q]

/-- The server drain on an accepting writer: it cannot fail, empties the queue
and hands the writer the encodings of the frames as they are, in order, with
no call to `Operate`. -/
theorem svrLoop_ok {σ : Type} (ss : List Proto) (w : World σ) (trd : Option Nat)
    (hacc : w.wr.failAfter = none) :
    (dispatchTCP.svrLoop ss w trd).err = none ∧
    (dispatchTCP.svrLoop ss w trd).left = [] ∧
    (dispatchTCP.svrLoop ss w trd).w.wr.failAfter = none ∧
    (dispatchTCP.svrLoop ss w trd).w.wr.out ++ (dispatchTCP.svrLoop ss w trd).w.wr.buf =
      w.wr.out ++ w.wr.buf ++ encodeAll ss ∧
    (w.wr.buf = [] ∨ ss ≠ [] → (dispatchTCP.svrLoop ss w trd).w.wr.buf = []) ∧
    (dispatchTCP.svrLoop ss w trd).w.op = w.op ∧
    ∃ delta, (dispatchTCP.svrLoop ss w trd).w.trace = w.trace ++ delta ∧
      framesWritten delta = ss ∧ framesOperated delta = [] := by
  induction ss generalizing w with
  | nil =>
    refine ⟨rfl, rfl, hacc, ?_, ?_, rfl, [], (List.append_nil _).symm, rfl, rfl⟩
    · show w.wr.out ++ w.wr.buf = w.wr.out ++ w.wr.buf ++ []
      rw [List.append_nil]
    · intro h
      rcases h with h | h
      · exact h
      · exact absurd rfl h
  | cons p q ih =>
    obtain ⟨hw, hfa, hout, hbuf⟩ := writer_after_accepting w.wr p hacc
    rw [svrLoop_cons, if_neg (by simp [hw])]
    obtain ⟨he, hl, hfa2, hout2, hbuf2, hop2, d2, htr2, hfw2, hfo2⟩ := ih
      { w with wr := (writeTCPResponse w.wr p).2,
               trace := w.trace ++ [Event.write p true] ++ [Event.svrGetAdv] } hfa
    refine ⟨he, hl, hfa2, ?_, fun _ => hbuf2 (Or.inl hbuf), hop2,
      [Event.write p true, Event.svrGetAdv] ++ d2, ?_, ?_, ?_⟩
    · rw [hout2]
      show (writeTCPResponse w.wr p).2.out ++ (writeTCPResponse w.wr p).2.buf ++ encodeAll q =
        w.wr.out ++ w.wr.buf ++ (frameBytes p ++ encodeAll q)
      rw [hout, hbuf]
      simp only [List.append_assoc, List.append_nil]
    · rw [htr2]
      simp only [List.append_assoc, List.singleton_append, List.cons_append, List.nil_append]
    · rw [framesWritten_append, hfw2]
      rfl
    · rw [framesOperated_append, hfo2]
      rfl

theorem encodeAll_append (a b : List Proto) :
    encodeAll (a ++ b) = encodeAll a ++ encodeAll b := by
  induction a with
  | nil => rfl
  | cons f fs ih =>
    show frameBytes f ++ encodeAll (fs ++ b) = frameBytes f ++ encodeAll fs ++ encodeAll b
    rw [ih, List.append_assoc]

/-- C12 (drain order).  For one wake by `ProtoReady` with client queue `k.cli`
and server queue `k.svr`, on a writer that accepts every write and when no
`Operate` and no timer call fails (the client drain ends without error): both
queues are emptied; the bytes handed to the writer are
`encode(r1) ++ ... ++ encode(rn) ++ encode(s1) ++ ... ++ encode(sm)`, where
the `ri` are the client frames after the heartbeat transform or after
`Operate` (`replyFrames`) and the `sj` the server frames as they are, and they
are all flushed; the frames passed to `Operate` are exactly the client frames
that are not heartbeats, so no server frame is; and the task goes back to wait
for the next signal. -/
theorem C12_drain_order {σ : Type} (cfg : Config) (op : Operator σ) (hb : Nat) (k : Wake)
    (ks : List Wake) (w : World σ) (trd : Option Nat) (hsig : k.sig = ProtoReady)
    (hacc : w.wr.failAfter = none)
    (hc : (dispatchTCP.cliLoop cfg op hb k.cli (w.log (Event.signalRecv k.sig)) trd).err
      = none) :
    (dispatchTCP.cliLoop cfg op hb k.cli (w.log (Event.signalRecv k.sig)) trd).left = [] ∧
    (dispatchTCP.drained cfg op hb k w trd).err = none ∧
    (dispatchTCP.drained cfg op hb k w trd).left = [] ∧
    (dispatchTCP.drained cfg op hb k w trd).w.wr.out ++
        (dispatchTCP.drained cfg op hb k w trd).w.wr.buf =
      w.wr.out ++ w.wr.buf ++ encodeAll (replyFrames cfg op w.op k.cli ++ k.svr) ∧
    (w.wr.buf = [] ∨ k.cli ≠ [] ∨ k.svr ≠ [] →
      (dispatchTCP.drained cfg op hb k w trd).w.wr.buf = []) ∧
    framesWritten (callsSince w.trace (dispatchTCP.drained cfg op hb k w trd).w.trace) =
      replyFrames cfg op w.op k.cli ++ k.svr ∧
    framesOperated (callsSince w.trace (dispatchTCP.drained cfg op hb k w trd).w.trace) =
      operated cfg k.cli ∧
    dispatchTCP.loop cfg op hb (k :: ks) w trd =
      dispatchTCP.loop cfg op hb ks (dispatchTCP.drained cfg op hb k w trd).w
        (dispatchTCP.drained cfg op hb k w trd).trd := by
  obtain ⟨hl, hfa, hout, hbuf, -, dc, htrc, hfwc, hfoc⟩ :=
    cliLoop_ok cfg op hb k.cli (w.log (Event.signalRecv k.sig)) trd hacc hc
  have hloop : dispatchTCP.loop cfg op hb (k :: ks) w trd =
      dispatchTCP.loop cfg op hb ks (dispatchTCP.drained cfg op hb k w trd).w
        (dispatchTCP.drained cfg op hb k w trd).trd := by
    have hv := (svrLoop_ok k.svr
      (dispatchTCP.cliLoop cfg op hb k.cli (w.log (Event.signalRecv k.sig)) trd).w
      (dispatchTCP.cliLoop cfg op hb k.cli (w.log (Event.signalRecv k.sig)) trd).trd hfa).1
    rw [loop_cons, if_neg (by rw [hsig]; decide), if_neg (by simp [hc]),
      if_neg (by simp [hv])]
    rfl
  unfold dispatchTCP.drained
  unfold dispatchTCP.drained at hloop
  generalize dispatchTCP.cliLoop cfg op hb k.cli (w.log (Event.signalRecv k.sig)) trd = c
    at hl hfa hout hbuf htrc hloop ⊢
  obtain ⟨hve, hvl, -, hvout, hvbuf, -, dv, htrv, hfwv, hfov⟩ := svrLoop_ok k.svr c.w c.trd hfa
  have htr : (dispatchTCP.svrLoop k.svr c.w c.trd).w.trace =
      w.trace ++ ([Event.signalRecv k.sig] ++ dc ++ dv) := by
    rw [htrv, htrc]
    show w.trace ++ [Event.signalRecv k.sig] ++ dc ++ dv = _
    simp only [List.append_assoc]
  refine ⟨hl, hve, hvl, ?_, ?_, ?_, ?_, hloop⟩
  · rw [hvout, hout, encodeAll_append]
    show w.wr.out ++ w.wr.buf ++ encodeAll (replyFrames cfg op w.op k.cli) ++ encodeAll k.svr =
      w.wr.out ++ w.wr.buf ++ (encodeAll (replyFrames cfg op w.op k.cli) ++ encodeAll k.svr)
    rw [List.append_assoc]
  · intro h
    rcases h with h | h | h
    · exact hvbuf (Or.inl (hbuf (Or.inl h)))
    · exact hvbuf (Or.inl (hbuf (Or.inr h)))
    · exact hvbuf (Or.inr h)
  · rw [htr, callsSince_append, framesWritten_append, framesWritten_append, hfwc, hfwv]
    rfl
  · rw [htr, callsSince_append, framesOperated_append, framesOperated_append, hfoc, hfov]
    show [] ++ operated cfg k.cli ++ [] = _
    simp only [List.nil_append, List.append_nil]

/-- Witness for C12: one wake with a heartbeat and an ordinary frame in the
client queue and one frame in the server queue. -/
theorem C12_drain_order_witness :
    (dispatchTCP.cliLoop cfg0 op0 5 [heartbeat0, goodFrame]
      ((world0 []).log (Event.signalRecv ProtoReady)) (some 0)).err = none ∧
    framesWritten (callsSince (world0 []).trace
      (dispatchTCP.drained cfg0 op0 5 ⟨ProtoReady, [heartbeat0, goodFrame], [usedProto]⟩
        (world0 []) (some 0)).w.trace) =
      [⟨1, 3, 3, none⟩, ⟨1, 4, 2, some [1]⟩, usedProto] ∧
    (dispatchTCP.drained cfg0 op0 5 ⟨ProtoReady, [heartbeat0, goodFrame], [usedProto]⟩
      (world0 []) (some 0)).w.wr.buf = [] :=
  have h := C12_drain_order cfg0 op0 5 ⟨ProtoReady, [heartbeat0, goodFrame], [usedProto]⟩ []
    (world0 []) (some 0) rfl rfl (by decide)
  ⟨by decide, h.2.2.2.2.2.1, h.2.2.2.2.1 (Or.inl rfl)⟩

theorem writeTCPResponse_closed (wr : Writer) (p : Proto) (h : wr.failAfter = some 0) :
    (writeTCPResponse wr p).1 ≠ none := by
  have hw : ∀ b, wr.Write b = (some Err.ioError, wr) := by
    intro b
    simp [Writer.Write, h]
  unfold writeTCPResponse
  rw [hw]
  simp

/-- On a closed socket a wake by `ProtoReady` that finds a frame in either
queue does end the write task: the write of the first frame fails (or a call
before it does) and the task leaves through `failed`. -/
theorem loop_closed_nonempty {σ : Type} (cfg : Config) (op : Operator σ) (hb : Nat)
    (k : Wake) (ks : List Wake) (w : World σ) (trd : Option Nat)
    (hclosed : w.wr.failAfter = some 0) (hsig : k.sig ≠ 0)
    (hne : k.cli ≠ [] ∨ k.svr ≠ []) :
    (dispatchTCP.loop cfg op hb (k :: ks) w trd).exited = true := by
  rw [loop_cons, if_neg hsig]
  by_cases hc : (dispatchTCP.cliLoop cfg op hb k.cli (w.log (Event.signalRecv k.sig)) trd).err
      = none
  swap
  · rw [if_pos hc]
    rfl
  rw [if_neg (by simp [hc])]
  cases hcli : k.cli with
  | cons p q =>
    exfalso
    rw [hcli, cliLoop_cons] at hc
    by_cases hf : (dispatchTCP.cliFrame cfg op hb (w.log (Event.signalRecv k.sig)) trd p).err
        = none
    · obtain ⟨_, _, _, _, hsucc⟩ :=
        cliFrame_summary cfg op hb (w.log (Event.signalRecv k.sig)) trd p
      exact writeTCPResponse_closed w.wr _ hclosed (hsucc hf).1
    · rw [if_pos hf] at hc
      exact hf hc
  | nil =>
    have hsv : k.svr ≠ [] := by
      rcases hne with h | h
      · exact absurd hcli h
      · exact h
    have hcl : dispatchTCP.cliLoop cfg op hb [] (w.log (Event.signalRecv k.sig)) trd =
        ⟨none, w.log (Event.signalRecv k.sig), trd, []⟩ := by
      rw [dispatchTCP.cliLoop]
    rw [hcl]
    cases hsvr : k.svr with
    | nil => exact absurd hsvr hsv
    | cons s ss =>
      have hfail : (dispatchTCP.svrLoop (s :: ss) (w.log (Event.signalRecv k.sig)) trd).err
          ≠ none := by
        have hx : (writeTCPResponse (w.log (Event.signalRecv k.sig)).wr s).1 ≠ none :=
          writeTCPResponse_closed _ s hclosed
        rw [svrLoop_cons, if_pos hx]
        exact hx
      rw [if_pos hfail]
      rfl

end Goim
